import Mathlib

/-!
# Order / invoice core of the warehouse back end

A shallow embedding of the route handlers of `backend/routes/invoices.js` and
`backend/routes/orders.js` over an explicit relational store, following the table
definitions of `backend/setup-database.js`.

Conventions of the embedding:

* a table is the list of its rows, in insertion order; a `SERIAL` key is drawn from a
  counter kept in the store;
* a request is handled alone, from its first statement to its response; `BEGIN` /
  `ROLLBACK` keep and restore the store as it was when the handler began;
* a JavaScript number of the invoice routes is a binary64 value, held as the rational it
  denotes: a number of the request is read to the nearest double, and every `+`, `-`, `*`
  rounds its exact result to the nearest double, ties to even (`toDouble`); subnormal
  results and overflow to `Infinity` are not represented;
* node-postgres sends a number as the text of `String(x)`, the decimal of fewest digits
  that reads back as `x` (`shortestDecimal`); a `DECIMAL(p,2)` column rounds that text to
  two places, half away from zero, and is held as its number of hundredths
  (`bindDecimal2`);
* in the order routes, whose statements here do not turn on the last binary digit, a
  JavaScript number is an exact rational or one of `Infinity`, `-Infinity`, `NaN`;
* the width limits of the `DECIMAL` columns are not represented, and the range of an
  `INTEGER` column is represented in the release route only;
* `CURRENT_TIMESTAMP` and `Date.now()` are the clock reading `now` handed to the handler;
* the authenticated user is a row of `users`, which is not part of the store.
-/

set_option autoImplicit false

namespace Storage

/-! ## Numbers -/

/-- A JavaScript number: a finite value or one of the three special values. -/
inductive JsNum where
  | fin (q : ℚ)
  | posInf
  | negInf
  | nan
deriving DecidableEq

namespace JsNum

/-- JavaScript `a + b`. -/
def add : JsNum → JsNum → JsNum
  | fin a, fin b => fin (a + b)
  | nan, _ => nan
  | _, nan => nan
  | posInf, negInf => nan
  | negInf, posInf => nan
  | posInf, _ => posInf
  | _, posInf => posInf
  | negInf, _ => negInf
  | _, negInf => negInf

/-- The infinity whose sign is that of a non-zero rational. -/
def infOfSign (q : ℚ) : JsNum := if 0 < q then posInf else negInf

/-- JavaScript `a * b`. -/
def mul : JsNum → JsNum → JsNum
  | fin a, fin b => fin (a * b)
  | nan, _ => nan
  | _, nan => nan
  | posInf, fin b => if b = 0 then nan else infOfSign b
  | fin a, posInf => if a = 0 then nan else infOfSign a
  | negInf, fin b => if b = 0 then nan else infOfSign (-b)
  | fin a, negInf => if a = 0 then nan else infOfSign (-a)
  | posInf, posInf => posInf
  | negInf, negInf => posInf
  | posInf, negInf => negInf
  | negInf, posInf => negInf

/-- JavaScript `a / b` (the divisors of these routes are database integers, so a zero
divisor is `+0`). -/
def div : JsNum → JsNum → JsNum
  | fin a, fin b => if b = 0 then (if a = 0 then nan else infOfSign a) else fin (a / b)
  | nan, _ => nan
  | _, nan => nan
  | fin _, posInf => fin 0
  | fin _, negInf => fin 0
  | posInf, fin b => if 0 ≤ b then posInf else negInf
  | negInf, fin b => if 0 ≤ b then negInf else posInf
  | posInf, posInf => nan
  | posInf, negInf => nan
  | negInf, posInf => nan
  | negInf, negInf => nan

end JsNum

/-- The value of a number of hundredths. -/
def ofCents (c : Int) : ℚ := (c : ℚ) / 100

/-- Rounding to two decimal places, half away from zero, as a `DECIMAL(p,2)` column does
on assignment; the result is the number of hundredths. -/
def decimal2 (x : ℚ) : Int :=
  if 0 ≤ x then Int.floor (x * 100 + 1 / 2) else -Int.floor (-x * 100 + 1 / 2)

/-! ## Doubles -/

/-- The power `2 ^ e` of an integer exponent. -/
def pow2 (e : Int) : ℚ :=
  if 0 ≤ e then ((2 ^ e.toNat : Nat) : ℚ) else 1 / ((2 ^ (-e).toNat : Nat) : ℚ)

/-- The number of halvings that take `n` below 2, in at most `fuel` steps. -/
def log2Fuel : Nat → Nat → Nat
  | 0, _ => 0
  | fuel + 1, n => if n < 2 then 0 else log2Fuel fuel (n / 2) + 1

/-- The binary logarithm of a natural number, rounded down. -/
def natLog2 (n : Nat) : Nat := log2Fuel n n

/-- The binary exponent of a non-zero rational: the largest `e` with `2 ^ e ≤ |x|`. -/
def ilog2 (x : ℚ) : Int :=
  if pow2 ((natLog2 x.num.natAbs : Int) - (natLog2 x.den : Int)) ≤ |x| then
    (natLog2 x.num.natAbs : Int) - (natLog2 x.den : Int)
  else (natLog2 x.num.natAbs : Int) - (natLog2 x.den : Int) - 1

/-- Rounding to the nearest integer, a tie going to the even one. -/
def roundHalfEven (y : ℚ) : Int :=
  if y - Int.floor y < 1 / 2 then Int.floor y
  else if 1 / 2 < y - Int.floor y then Int.floor y + 1
  else if Int.floor y % 2 = 0 then Int.floor y else Int.floor y + 1

/-- The double nearest to a positive rational: 53 significant binary digits. -/
def roundPos (x : ℚ) : ℚ :=
  (roundHalfEven (x / pow2 (ilog2 x - 52)) : ℚ) * pow2 (ilog2 x - 52)

/-- The binary64 value nearest to a rational, ties to even: the value of a number of the
request, and of the exact result of an arithmetic operation. -/
def toDouble (x : ℚ) : ℚ :=
  if x = 0 then 0 else if x < 0 then -roundPos (-x) else roundPos x

/-- JavaScript `a + b` on finite doubles. -/
def doubleAdd (a b : ℚ) : ℚ := toDouble (a + b)

/-- JavaScript `a - b` on finite doubles. -/
def doubleSub (a b : ℚ) : ℚ := toDouble (a - b)

/-- JavaScript `a * b` on finite doubles. -/
def doubleMul (a b : ℚ) : ℚ := toDouble (a * b)

/-- The power `10 ^ e` of an integer exponent. -/
def pow10 (e : Int) : ℚ :=
  if 0 ≤ e then ((10 ^ e.toNat : Nat) : ℚ) else 1 / ((10 ^ (-e).toNat : Nat) : ℚ)

/-- The number of divisions by ten that take `n` below 10, in at most `fuel` steps. -/
def log10Fuel : Nat → Nat → Nat
  | 0, _ => 0
  | fuel + 1, n => if n < 10 then 0 else log10Fuel fuel (n / 10) + 1

/-- The decimal logarithm of a natural number, rounded down. -/
def natLog10 (n : Nat) : Nat := log10Fuel n n

/-- The decimal exponent of a non-zero rational: the largest `e` with `10 ^ e ≤ |x|`. -/
def ilog10 (x : ℚ) : Int :=
  if pow10 ((natLog10 x.num.natAbs : Int) - (natLog10 x.den : Int)) ≤ |x| then
    (natLog10 x.num.natAbs : Int) - (natLog10 x.den : Int)
  else (natLog10 x.num.natAbs : Int) - (natLog10 x.den : Int) - 1

/-- The largest decimal of `k` significant digits that is at most the positive `x`. -/
def below (x : ℚ) (k : Nat) : ℚ :=
  (Int.floor (x / pow10 (ilog10 x + 1 - k)) : ℚ) * pow10 (ilog10 x + 1 - k)

/-- The next decimal of that precision above `below x k`. -/
def above (x : ℚ) (k : Nat) : ℚ := below x k + pow10 (ilog10 x + 1 - k)

/-- The decimal of `k` significant digits that reads back as the positive double `x`, the
nearer one if both neighbours do, if there is any. -/
def nearestDigits (x : ℚ) (k : Nat) : Option ℚ :=
  if toDouble (below x k) = x then
    if toDouble (above x k) = x then
      if above x k - x < x - below x k then some (above x k)
      else if x - below x k < above x k - x then some (below x k)
      else if Int.floor (x / pow10 (ilog10 x + 1 - k)) % 2 = 0 then some (below x k)
      else some (above x k)
    else some (below x k)
  else if toDouble (above x k) = x then some (above x k)
  else none

/-- The value of the text `String(x)` of a positive double: the decimal of fewest digits
that reads back as `x` (17 digits always suffice). -/
def shortestPos (x : ℚ) : ℚ :=
  match (List.range' 1 17).findSome? (nearestDigits x) with
  | some s => s
  | none => x

/-- The value of the text `String(x)` of a double, which node-postgres sends for a number
parameter. -/
def shortestDecimal (x : ℚ) : ℚ :=
  if x = 0 then 0 else if x < 0 then -shortestPos (-x) else shortestPos x

/-- The hundredths a `DECIMAL(p,2)` column holds after the JavaScript number `x` was bound
to it. -/
def bindDecimal2 (x : ℚ) : Int := decimal2 (shortestDecimal x)

/-- The literal `0.15` of the invoice routes. -/
def taxRate : ℚ := toDouble (15 / 100)

/-- The expression `subtotal - discountAmount + cuttingFee`. -/
def taxedBase (subtotal discountAmount cuttingFee : ℚ) : ℚ :=
  doubleAdd (doubleSub subtotal discountAmount) cuttingFee

/-- The expression `(subtotal - discountAmount + cuttingFee) * 0.15`, on the value of its
first factor. -/
def taxOf (base : ℚ) : ℚ := doubleMul base taxRate

/-- The expression `subtotal - discountAmount + cuttingFee + tax`, on the value of
`subtotal - discountAmount + cuttingFee`. -/
def totalOf (base : ℚ) : ℚ := doubleAdd base (taxOf base)

/-- `parseFloat(v) || 0` for a request field that is absent, not numeric, or a finite
number. -/
def parseFloatOrZero : Option ℚ → ℚ
  | some q => toDouble q
  | none => 0

/-- `parseFloat(v) || 0` for a `DECIMAL(p,2)` column value, `NULL` included. -/
def parseDecimalOrZero : Option Int → ℚ
  | some c => toDouble (ofCents c)
  | none => 0

/-- A value held by a `DECIMAL(p,2)` column of the order tables: finite, or `NaN`. -/
inductive PgDec where
  | val (cents : Int)
  | nan
deriving DecidableEq

/-! ## Tables -/

/-- A row of `materials` (the columns these routes read or write). -/
structure Material where
  id : Nat
  name : String
  weight : ℚ
  quantity : Int
  warehouse_id : Nat
  cost : ℚ
  status : String
deriving DecidableEq

/-- A row of `orders`. -/
structure Order where
  id : Nat
  order_number : String
  customer_name : String
  customer_phone : Option String
  customer_address : Option String
  plate_count : Option Int
  notes : Option String
  delivery_method : String
  status : String
  total_amount : PgDec
  cutting_fee : PgDec
  created_by : Nat
  created_at : Nat
  updated_at : Nat
deriving DecidableEq

/-- A row of `order_items`. -/
structure OrderItem where
  id : Nat
  order_id : Nat
  material_id : Nat
  quantity : Int
  weight : Option PgDec
  unit_price : PgDec
  total_price : PgDec
  notes : Option String
deriving DecidableEq

/-- A row of `invoices`; the money columns are in hundredths. -/
structure Invoice where
  id : Nat
  invoice_number : String
  order_id : Nat
  customer_name : String
  customer_phone : Option String
  customer_address : Option String
  subtotal : Int
  cutting_fee : Option Int
  discount : Option Int
  tax : Int
  total_amount : Int
  status : String
  created_by : Nat
  approved_by : Option Nat
  approved_at : Option Nat
  paid_at : Option Nat
  notes : Option String
  created_at : Nat
  updated_at : Nat
deriving DecidableEq

/-- A row of `invoice_items`; the money columns are in hundredths. -/
structure InvoiceItem where
  id : Nat
  invoice_id : Nat
  material_name : String
  description : String
  quantity : Int
  unit_price : Int
  total_price : Int
  material_id : Option Nat
  notes : String
deriving DecidableEq

/-- A row of `warehouses` (the columns these routes read). -/
structure Warehouse where
  id : Nat
  name : String
deriving DecidableEq

/-- A row of `stock_movements`; `weight` is in hundredths. -/
structure StockMovement where
  id : Nat
  material_id : Nat
  warehouse_id : Nat
  movement_type : String
  quantity : Int
  weight : Option Int
  reference_id : Option Nat
  reference_type : Option String
  notes : Option String
  created_by : Nat
deriving DecidableEq

/-- A row of `inventory_counts`. -/
structure InventoryCount where
  id : Nat
  warehouse_id : Nat
  material_id : Nat
  counted_quantity : Int
  system_quantity : Int
  variance : Int
  counted_by : Nat
  status : String
  notes : Option String
deriving DecidableEq

/-- The store: the tables and the next value of each `SERIAL` key. -/
structure DB where
  warehouses : List Warehouse
  materials : List Material
  orders : List Order
  order_items : List OrderItem
  invoices : List Invoice
  invoice_items : List InvoiceItem
  stock_movements : List StockMovement
  inventory_counts : List InventoryCount
  next_material_id : Nat
  next_stock_movement_id : Nat
  next_inventory_count_id : Nat
  next_order_id : Nat
  next_order_item_id : Nat
  next_invoice_id : Nat
  next_invoice_item_id : Nat
deriving DecidableEq

/-- The store right after `setup-database.js` created the tables, before any seeding. -/
def DB.empty : DB where
  warehouses := []
  materials := []
  stock_movements := []
  inventory_counts := []
  next_material_id := 1
  next_stock_movement_id := 1
  next_inventory_count_id := 1
  orders := []
  order_items := []
  invoices := []
  invoice_items := []
  next_order_id := 1
  next_order_item_id := 1
  next_invoice_id := 1
  next_invoice_item_id := 1

/-- What a handler can throw: an error raised by a statement, or a JavaScript error. -/
inductive Fault where
  | sql (msg : String)
  | js (msg : String)
deriving DecidableEq

/-- The `message` property of a thrown error. -/
def Fault.message : Fault → String
  | .sql m => m
  | .js m => m

/-- The JSON body of a response, without its data payload. -/
inductive Body where
  | message (msg : String)
  | errors (msgs : List String)
deriving DecidableEq

/-- An HTTP response. -/
structure Response where
  status : Nat
  body : Body
deriving DecidableEq

/-- The body of every `catch` of `invoices.js`. -/
def serverError : Response := ⟨500, .message "خطأ في الخادم"⟩

/-- The binding `NotificationService` obtained by `require('./notifications')` in
`invoices.js` and `orders.js`: the last assignment of `notifications.js` is
`module.exports = router`, and the router has no such property. -/
def NotificationService : Option Unit := none

/-- The `TypeError` thrown by reading a property of `undefined`. -/
def typeErrorUndefined (prop : String) : Fault :=
  .js ("Cannot read properties of undefined (reading " ++ prop ++ ")")

/-! ## Statements on the invoice tables -/

/-- The rows of `invoice_items` of one invoice. -/
def DB.itemsOf (db : DB) (invoiceId : Nat) : List InvoiceItem :=
  db.invoice_items.filter (fun it => it.invoice_id == invoiceId)

/-- The result of `SELECT SUM(total_price) FROM invoice_items WHERE invoice_id = $1`, in
hundredths (no row gives `NULL`, which `parseFloat(..) || 0` reads as 0). -/
def DB.sumItems (db : DB) (invoiceId : Nat) : Int :=
  ((db.itemsOf invoiceId).map (fun it => it.total_price)).sum

/-- The row that `SELECT ... FROM invoices WHERE id = $1` returns as `rows[0]`. -/
def DB.invoice? (db : DB) (invoiceId : Nat) : Option Invoice :=
  db.invoices.find? (fun i => i.id == invoiceId)

/-- The foreign key of a nullable `material_id` column holds. -/
def DB.materialRefOk (db : DB) : Option Nat → Bool
  | some m => db.materials.any (fun x => x.id == m)
  | none => true

/-- `INSERT INTO invoices (...) RETURNING id`, with the `UNIQUE` constraint on
`invoice_number` and the foreign key on `order_id`; `status` takes its default. -/
def DB.insertInvoice (db : DB) (now : Nat) (invoice_number : String) (order_id : Nat)
    (customer_name : String) (customer_phone customer_address : Option String)
    (subtotal : ℚ) (cutting_fee discount : Option ℚ) (tax total_amount : ℚ)
    (status : Option String) (notes : Option String) (created_by : Nat) :
    Except Fault (Nat × DB) :=
  if db.invoices.any (fun i => i.invoice_number == invoice_number) then
    .error (.sql "duplicate key value violates unique constraint")
  else if !db.orders.any (fun o => o.id == order_id) then
    .error (.sql "insert or update on table violates foreign key constraint")
  else
    .ok (db.next_invoice_id,
      { db with
        invoices := db.invoices ++ [{
          id := db.next_invoice_id
          invoice_number := invoice_number
          order_id := order_id
          customer_name := customer_name
          customer_phone := customer_phone
          customer_address := customer_address
          subtotal := bindDecimal2 subtotal
          cutting_fee := cutting_fee.map bindDecimal2
          discount := discount.map bindDecimal2
          tax := bindDecimal2 tax
          total_amount := bindDecimal2 total_amount
          status := status.getD "draft"
          created_by := created_by
          approved_by := none
          approved_at := none
          paid_at := none
          notes := notes
          created_at := now
          updated_at := now }]
        next_invoice_id := db.next_invoice_id + 1 })

/-- `INSERT INTO invoice_items (...)`, with the foreign keys on `invoice_id` and
`material_id`. -/
def DB.insertInvoiceItem (db : DB) (invoice_id : Nat) (material_name description : String)
    (quantity : Int) (unit_price total_price : ℚ) (material_id : Option Nat)
    (notes : String) : Except Fault DB :=
  if !db.invoices.any (fun i => i.id == invoice_id) then
    .error (.sql "insert or update on table violates foreign key constraint")
  else if !db.materialRefOk material_id then
    .error (.sql "insert or update on table violates foreign key constraint")
  else
    .ok { db with
      invoice_items := db.invoice_items ++ [{
        id := db.next_invoice_item_id
        invoice_id := invoice_id
        material_name := material_name
        description := description
        quantity := quantity
        unit_price := bindDecimal2 unit_price
        total_price := bindDecimal2 total_price
        material_id := material_id
        notes := notes }]
      next_invoice_item_id := db.next_invoice_item_id + 1 }

/-- `UPDATE invoice_items SET ... WHERE id = $8 AND invoice_id = $9`, once its foreign
key on `material_id` is known to hold. -/
def DB.updateInvoiceItem (db : DB) (itemId invoiceId : Nat) (material_name description : String)
    (quantity : Int) (unit_price total_price : ℚ) (material_id : Option Nat)
    (notes : String) : DB :=
  { db with
    invoice_items := db.invoice_items.map (fun it =>
      if it.id = itemId ∧ it.invoice_id = invoiceId then
        { it with
          material_name := material_name
          description := description
          quantity := quantity
          unit_price := bindDecimal2 unit_price
          total_price := bindDecimal2 total_price
          material_id := material_id
          notes := notes }
      else it) }

/-- `DELETE FROM invoice_items WHERE id = $1 AND invoice_id = $2`. -/
def DB.deleteInvoiceItem (db : DB) (itemId invoiceId : Nat) : DB :=
  { db with
    invoice_items := db.invoice_items.filter (fun it =>
      !(it.id == itemId && it.invoice_id == invoiceId)) }

/-- `UPDATE invoices SET customer_name = $1, ..., updated_at = CURRENT_TIMESTAMP
WHERE id = $10`. -/
def DB.updateInvoiceRow (db : DB) (now invoiceId : Nat) (customer_name : String)
    (customer_phone customer_address : Option String)
    (subtotal cutting_fee discount tax total_amount : ℚ) (notes : Option String) : DB :=
  { db with
    invoices := db.invoices.map (fun i =>
      if i.id = invoiceId then
        { i with
          customer_name := customer_name
          customer_phone := customer_phone
          customer_address := customer_address
          subtotal := bindDecimal2 subtotal
          cutting_fee := some (bindDecimal2 cutting_fee)
          discount := some (bindDecimal2 discount)
          tax := bindDecimal2 tax
          total_amount := bindDecimal2 total_amount
          notes := notes
          updated_at := now }
      else i) }

/-- `DELETE FROM invoice_items WHERE invoice_id = $1`. -/
def DB.deleteInvoiceItems (db : DB) (invoiceId : Nat) : DB :=
  { db with
    invoice_items := db.invoice_items.filter (fun it => !(it.invoice_id == invoiceId)) }

/-! ## Invoice routes -/

/-- An element of `items` in the body of `POST /invoices` and `PUT /invoices/:id`, and the
body of the item routes; `quantity` and `unit_price` are the values of the number
literals of the body. `quantity` is bound to an `INTEGER` column. -/
structure InvoiceItemInput where
  material_name : String
  description : Option String
  quantity : Int
  unit_price : ℚ
  material_id : Option Nat
  notes : Option String
deriving DecidableEq

/-- The body of `POST /invoices` and `PUT /invoices/:id`, numbers by the values of their
literals. A `cutting_fee` or `discount` that is absent or not numeric is `none`. -/
structure InvoiceInput where
  order_id : Nat
  customer_name : String
  customer_phone : Option String
  customer_address : Option String
  items : List InvoiceItemInput
  cutting_fee : Option ℚ
  discount : Option ℚ
  notes : Option String
deriving DecidableEq

/-- JavaScript `item.material_id || null`: the id 0 is falsy. -/
def orNull : Option Nat → Option Nat
  | some 0 => none
  | v => v

/-- JavaScript `s || ''`. -/
def orEmpty (s : Option String) : String := s.getD ""

/-- The failures of the validators `customer_name`, `items` and `items.*.material_name`
(the numeric validators hold by the types of the fields). -/
def validateInvoiceBody (req : InvoiceInput) : List String :=
  (if req.customer_name = "" then ["اسم الزبون مطلوب"] else []) ++
  (if req.items.length < 1 then ["يجب إضافة عنصر واحد على الأقل"] else []) ++
  (req.items.filter (fun it => it.material_name == "")).map (fun _ => "اسم المادة مطلوب")

/-- The expression `item.quantity * item.unit_price`. -/
def lineTotal (item : InvoiceItemInput) : ℚ :=
  doubleMul (toDouble item.quantity) (toDouble item.unit_price)

/-- The loop `subtotal += item.quantity * item.unit_price`. -/
def itemsSubtotal (items : List InvoiceItemInput) : ℚ :=
  items.foldl (fun subtotal item => doubleAdd subtotal (lineTotal item)) 0

/-- The loop inserting the invoice items of a request. -/
def insertItems (invoiceId : Nat) (items : List InvoiceItemInput) (db : DB) :
    Except Fault DB :=
  items.foldlM (fun d item =>
    d.insertInvoiceItem invoiceId item.material_name (orEmpty item.description)
      item.quantity (toDouble item.unit_price) (lineTotal item)
      (orNull item.material_id) (orEmpty item.notes)) db

/-- The statements of `POST /invoices` between `BEGIN` and `COMMIT`. -/
def createInvoiceTx (db : DB) (now userId : Nat) (req : InvoiceInput) :
    Except Fault (Nat × DB) := do
  let subtotal := itemsSubtotal req.items
  let cuttingFee := parseFloatOrZero req.cutting_fee
  let discountAmount := parseFloatOrZero req.discount
  let tax := taxOf (taxedBase subtotal discountAmount cuttingFee)
  let totalAmount := totalOf (taxedBase subtotal discountAmount cuttingFee)
  let (invoiceId, db1) ← db.insertInvoice now ("INV-" ++ toString now) req.order_id
    req.customer_name req.customer_phone req.customer_address subtotal (some cuttingFee)
    (some discountAmount) tax totalAmount none req.notes userId
  let db2 ← insertItems invoiceId req.items db1
  return (invoiceId, db2)

/-- The handler of `POST /invoices` (createInvoice): the response and the store after it. -/
def createInvoice (db : DB) (now userId : Nat) (req : InvoiceInput) : Response × DB :=
  if validateInvoiceBody req ≠ [] then
    (⟨400, .errors (validateInvoiceBody req)⟩, db)
  else
    match db.orders.find? (fun o => o.id == req.order_id && o.status == "completed") with
    | none => (⟨400, .message "الطلب غير موجود أو لم يكتمل بعد"⟩, db)
    | some _ =>
      match db.invoices.find? (fun i => i.order_id == req.order_id) with
      | some _ => (⟨400, .message "يوجد فاتورة مسبقاً لهذا الطلب"⟩, db)
      | none =>
        match createInvoiceTx db now userId req with
        | .error _ => (serverError, db)
        | .ok (_, db2) =>
          match NotificationService with
          | none => (serverError, db2)
          | some _ => (⟨201, .message "تم إنشاء الفاتورة بنجاح"⟩, db2)

/-- The helper `updateInvoiceTotals(pool, invoiceId)`. -/
def updateInvoiceTotals (db : DB) (now invoiceId : Nat) : Except Fault DB :=
  let subtotal : ℚ := toDouble (ofCents (db.sumItems invoiceId))
  match db.invoice? invoiceId with
  | none => .error (typeErrorUndefined "cutting_fee")
  | some row =>
    let cuttingFee := parseDecimalOrZero row.cutting_fee
    let discountAmount := parseDecimalOrZero row.discount
    let tax := taxOf (taxedBase subtotal discountAmount cuttingFee)
    let totalAmount := totalOf (taxedBase subtotal discountAmount cuttingFee)
    .ok { db with
      invoices := db.invoices.map (fun i =>
        if i.id = invoiceId then
          { i with
            subtotal := bindDecimal2 subtotal
            tax := bindDecimal2 tax
            total_amount := bindDecimal2 totalAmount
            updated_at := now }
        else i) }

/-- The failures of the validator `material_name` of the item routes. -/
def validateItemBody (item : InvoiceItemInput) : List String :=
  if item.material_name = "" then ["اسم المادة مطلوب"] else []

/-- The handler of `POST /invoices/:id/items` (addItem). -/
def addItem (db : DB) (now invoiceId : Nat) (item : InvoiceItemInput) : Response × DB :=
  if validateItemBody item ≠ [] then
    (⟨400, .errors (validateItemBody item)⟩, db)
  else
    let totalPrice := lineTotal item
    match db.insertInvoiceItem invoiceId item.material_name (orEmpty item.description)
        item.quantity (toDouble item.unit_price) totalPrice (orNull item.material_id)
        (orEmpty item.notes) with
    | .error _ => (serverError, db)
    | .ok db1 =>
      match updateInvoiceTotals db1 now invoiceId with
      | .error _ => (serverError, db1)
      | .ok db2 => (⟨201, .message "تم إضافة العنصر بنجاح"⟩, db2)

/-- The handler of `PUT /invoices/:id/items/:itemId` (updateItem). An `UPDATE` that
matches no row changes nothing and reports `rowCount` 0. -/
def updateItem (db : DB) (now invoiceId itemId : Nat) (item : InvoiceItemInput) :
    Response × DB :=
  if validateItemBody item ≠ [] then
    (⟨400, .errors (validateItemBody item)⟩, db)
  else
    let totalPrice := lineTotal item
    if !db.invoice_items.any (fun it => it.id == itemId && it.invoice_id == invoiceId) then
      (⟨404, .message "العنصر غير موجود"⟩, db)
    else if !db.materialRefOk (orNull item.material_id) then
      (serverError, db)
    else
      let db1 := db.updateInvoiceItem itemId invoiceId item.material_name
        (orEmpty item.description) item.quantity (toDouble item.unit_price) totalPrice
        (orNull item.material_id) (orEmpty item.notes)
      match updateInvoiceTotals db1 now invoiceId with
      | .error _ => (serverError, db1)
      | .ok db2 => (⟨200, .message "تم تحديث العنصر بنجاح"⟩, db2)

/-- The handler of `DELETE /invoices/:id/items/:itemId` (deleteItem). -/
def deleteItem (db : DB) (now invoiceId itemId : Nat) : Response × DB :=
  if !db.invoice_items.any (fun it => it.id == itemId && it.invoice_id == invoiceId) then
    (⟨404, .message "العنصر غير موجود"⟩, db)
  else
    let db1 := db.deleteInvoiceItem itemId invoiceId
    match updateInvoiceTotals db1 now invoiceId with
    | .error _ => (serverError, db1)
    | .ok db2 => (⟨200, .message "تم حذف العنصر بنجاح"⟩, db2)

/-- The failures of the validators of `PUT /invoices/:id`. -/
def validateInvoiceUpdate (req : InvoiceInput) : List String :=
  validateInvoiceBody req

/-- The statements of `PUT /invoices/:id` between `BEGIN` and `COMMIT`. -/
def updateInvoiceTx (db : DB) (now invoiceId : Nat) (req : InvoiceInput) :
    Except Fault DB :=
  let subtotal := itemsSubtotal req.items
  let cuttingFee := parseFloatOrZero req.cutting_fee
  let discountAmount := parseFloatOrZero req.discount
  let tax := taxOf (taxedBase subtotal discountAmount cuttingFee)
  let totalAmount := totalOf (taxedBase subtotal discountAmount cuttingFee)
  let db1 := db.updateInvoiceRow now invoiceId req.customer_name req.customer_phone
    req.customer_address subtotal cuttingFee discountAmount tax totalAmount req.notes
  let db2 := db1.deleteInvoiceItems invoiceId
  insertItems invoiceId req.items db2

/-- The handler of `PUT /invoices/:id` (updateInvoice). -/
def updateInvoice (db : DB) (now invoiceId : Nat) (req : InvoiceInput) : Response × DB :=
  if validateInvoiceUpdate req ≠ [] then
    (⟨400, .errors (validateInvoiceUpdate req)⟩, db)
  else
    match updateInvoiceTx db now invoiceId req with
    | .error _ => (serverError, db)
    | .ok db2 => (⟨200, .message "تم تحديث الفاتورة بنجاح"⟩, db2)

/-! ## Statements on the order tables -/

/-- Binding a JavaScript number to a `DECIMAL(p,2)` column: a finite value is rounded,
`NaN` is stored, an infinity is refused. -/
def toPgDec : JsNum → Except Fault PgDec
  | .fin q => .ok (.val (decimal2 q))
  | .nan => .ok .nan
  | .posInf => .error (.sql "numeric field overflow")
  | .negInf => .error (.sql "numeric field overflow")

/-- Binding an optional JavaScript number to a nullable `DECIMAL(p,2)` column. -/
def toPgDecOpt : Option JsNum → Except Fault (Option PgDec)
  | some x => (toPgDec x).map some
  | none => .ok none

/-- `INSERT INTO orders (...) RETURNING id`, with the `UNIQUE` constraint on
`order_number`; `status` takes its default when not given. -/
def DB.insertOrder (db : DB) (now : Nat) (order_number customer_name : String)
    (customer_phone customer_address : Option String) (plate_count : Option Int)
    (notes : Option String) (delivery_method : String) (total_amount cutting_fee : JsNum)
    (status : Option String) (created_by : Nat) : Except Fault (Nat × DB) :=
  match toPgDec total_amount, toPgDec cutting_fee with
  | .ok total, .ok fee =>
    if db.orders.any (fun o => o.order_number == order_number) then
      .error (.sql "duplicate key value violates unique constraint")
    else
      .ok (db.next_order_id,
        { db with
          orders := db.orders ++ [{
            id := db.next_order_id
            order_number := order_number
            customer_name := customer_name
            customer_phone := customer_phone
            customer_address := customer_address
            plate_count := plate_count
            notes := notes
            delivery_method := delivery_method
            status := status.getD "pending"
            total_amount := total
            cutting_fee := fee
            created_by := created_by
            created_at := now
            updated_at := now }]
          next_order_id := db.next_order_id + 1 })
  | _, _ => .error (.sql "numeric field overflow")

/-- `INSERT INTO order_items (...)`, with the foreign keys on `order_id` and
`material_id`. -/
def DB.insertOrderItem (db : DB) (order_id material_id : Nat) (quantity : Int)
    (weight : Option JsNum) (unit_price total_price : JsNum) (notes : Option String) :
    Except Fault DB :=
  match toPgDecOpt weight, toPgDec unit_price, toPgDec total_price with
  | .ok w, .ok up, .ok tp =>
    if !db.orders.any (fun o => o.id == order_id) then
      .error (.sql "insert or update on table violates foreign key constraint")
    else if !db.materials.any (fun m => m.id == material_id) then
      .error (.sql "insert or update on table violates foreign key constraint")
    else
      .ok { db with
        order_items := db.order_items ++ [{
          id := db.next_order_item_id
          order_id := order_id
          material_id := material_id
          quantity := quantity
          weight := w
          unit_price := up
          total_price := tp
          notes := notes }]
        next_order_item_id := db.next_order_item_id + 1 }
  | _, _, _ => .error (.sql "numeric field overflow")

/-- The effect of `UPDATE materials SET quantity = quantity + $1, status = $2
WHERE id = $3` on one row. -/
def adjustRow (delta : Int) (status : String) (materialId : Nat) (m : Material) : Material :=
  if m.id = materialId then { m with quantity := m.quantity + delta, status := status }
  else m

/-- `UPDATE materials SET quantity = quantity + $1, status = $2 WHERE id = $3`. -/
def DB.adjustMaterial (db : DB) (delta : Int) (status : String) (materialId : Nat) : DB :=
  { db with materials := db.materials.map (adjustRow delta status materialId) }

/-! ## Order routes -/

/-- An element of `items` in the body of `POST /orders`. -/
structure OrderItemInput where
  material_id : Nat
  quantity : Int
  notes : Option String
deriving DecidableEq

/-- The body of `POST /orders`. -/
structure OrderInput where
  customer_name : String
  customer_phone : Option String
  customer_address : Option String
  plate_count : Option Int
  notes : Option String
  delivery_method : String
  items : List OrderItemInput
deriving DecidableEq

/-- JavaScript `s.includes(sub)`. -/
def includes (s sub : String) : Bool :=
  s.toList.tails.any (fun t => sub.toList.isPrefixOf t)

/-- The failures of the validators of `POST /orders`. -/
def validateOrderBody (req : OrderInput) : List String :=
  (if req.customer_name = "" then ["اسم الزبون مطلوب"] else []) ++
  (if req.delivery_method ∈
      ["direct", "sort_then_delivery", "cut_then_delivery", "sort_cut_delivery"]
    then [] else ["طريقة التسليم غير صالحة"]) ++
  (if req.items.length < 1 then ["يجب إضافة عنصر واحد على الأقل"] else [])

/-- What the first loop of `POST /orders` carries from item to item. -/
structure Reservation where
  db : DB
  totalAmount : JsNum
  cuttingFee : Int

/-- One round of the first loop of `POST /orders`: check the material, reserve it, price
the item from the row read before the reservation. -/
def reserveItem (delivery_method : String) (acc : Reservation) (item : OrderItemInput) :
    Except Fault Reservation :=
  match acc.db.materials.find? (fun m => m.id == item.material_id && m.status == "available") with
  | none => .error (.js ("المادة " ++ toString item.material_id ++ " غير متوفرة"))
  | some material =>
    if material.quantity < item.quantity then
      .error (.js ("الكمية غير كافية للمادة " ++ material.name))
    else
      let db1 := acc.db.adjustMaterial (-item.quantity) "reserved" item.material_id
      let unitPrice := JsNum.div (.fin material.cost) (.fin material.quantity)
      let itemTotal := JsNum.mul unitPrice (.fin item.quantity)
      .ok { db := db1
            totalAmount := acc.totalAmount.add itemTotal
            cuttingFee :=
              if includes delivery_method "cut" then acc.cuttingFee + 10 * item.quantity
              else acc.cuttingFee }

/-- One round of the second loop of `POST /orders`: read the material again and insert
the order item priced from that row. -/
def insertItemOf (orderId : Nat) (db : DB) (item : OrderItemInput) : Except Fault DB :=
  match db.materials.find? (fun m => m.id == item.material_id) with
  | none => .error (typeErrorUndefined "cost")
  | some material =>
    let unitPrice := JsNum.div (.fin material.cost) (.fin material.quantity)
    let totalPrice := JsNum.mul unitPrice (.fin item.quantity)
    db.insertOrderItem orderId item.material_id item.quantity
      (some (.fin (material.weight * item.quantity))) unitPrice totalPrice item.notes

/-- The statements of `POST /orders` between `BEGIN` and `COMMIT`. -/
def createOrderTx (db : DB) (now userId : Nat) (req : OrderInput) :
    Except Fault (Nat × DB) := do
  let r ← req.items.foldlM (reserveItem req.delivery_method) ⟨db, .fin 0, 0⟩
  let totalAmount := r.totalAmount.add (.fin r.cuttingFee)
  let (orderId, db1) ← r.db.insertOrder now ("ORD-" ++ toString now) req.customer_name
    req.customer_phone req.customer_address req.plate_count req.notes req.delivery_method
    totalAmount (.fin r.cuttingFee) none userId
  let db2 ← req.items.foldlM (insertItemOf orderId) db1
  return (orderId, db2)

/-- The response of the outer `catch` of the order routes:
`error.message || <server error>`, status 500. -/
def orderError (e : Fault) : Response :=
  ⟨500, .message (if e.message = "" then "خطأ في الخادم" else e.message)⟩

/-- The handler of `POST /orders` (createOrder): the response and the store after it. -/
def createOrder (db : DB) (now userId : Nat) (req : OrderInput) : Response × DB :=
  if validateOrderBody req ≠ [] then
    (⟨400, .errors (validateOrderBody req)⟩, db)
  else
    match createOrderTx db now userId req with
    | .error e => (orderError e, db)
    | .ok (_, db2) =>
      match NotificationService with
      | none => (orderError (typeErrorUndefined "createNewOrderNotification"), db2)
      | some _ => (⟨201, .message "تم إنشاء الطلب بنجاح"⟩, db2)

/-- The statements of `DELETE /orders/:id` between `BEGIN` and `COMMIT`; the last
`DELETE` is refused while an invoice refers to the order. -/
def deleteOrderTx (db : DB) (orderId : Nat) : Except Fault DB :=
  let orderItems := db.order_items.filter (fun it => it.order_id == orderId)
  let db1 := orderItems.foldl
    (fun d item => d.adjustMaterial item.quantity "available" item.material_id) db
  let db2 : DB := { db1 with
    order_items := db1.order_items.filter (fun it => !(it.order_id == orderId)) }
  if !db2.orders.any (fun o => o.id == orderId) then
    .error (.js "الطلب غير موجود")
  else if db2.invoices.any (fun i => i.order_id == orderId) then
    .error (.sql "update or delete on table violates foreign key constraint")
  else
    .ok { db2 with orders := db2.orders.filter (fun o => !(o.id == orderId)) }

/-- The handler of `DELETE /orders/:id` (deleteOrder). -/
def deleteOrder (db : DB) (orderId : Nat) : Response × DB :=
  match deleteOrderTx db orderId with
  | .error e => (orderError e, db)
  | .ok db2 => (⟨200, .message "تم حذف الطلب بنجاح"⟩, db2)

/-! ## The seeding route of the invoices -/

/-- An element of `sampleOrders` in `POST /invoices/seed`. -/
structure SampleOrder where
  order_number : String
  customer_name : String
  customer_phone : String
  customer_address : String
  plate_count : Int
  delivery_method : String
  total_amount : ℚ
  cutting_fee : ℚ
  status : String

/-- The array `sampleOrders`. -/
def sampleOrders : List SampleOrder :=
  [ { order_number := "ORD-SAMPLE-001", customer_name := "شركة الأعمال الحديثة",
      customer_phone := "0791234567", customer_address := "عمان - الاردن",
      plate_count := 100, delivery_method := "direct", total_amount := 1000,
      cutting_fee := 0, status := "completed" },
    { order_number := "ORD-SAMPLE-002", customer_name := "مؤسسة التجارة العالمية",
      customer_phone := "0797654321", customer_address := "عمان - الاردن",
      plate_count := 150, delivery_method := "cut_then_delivery", total_amount := 1500,
      cutting_fee := 150, status := "completed" } ]

/-- An element of `sampleMaterials`. -/
structure SampleMaterial where
  name : String
  quantity : Int
  unit_price : ℚ

/-- The array `sampleMaterials`. -/
def sampleMaterials : List SampleMaterial :=
  [ ⟨"ورق أبيض A4", 50, 10⟩, ⟨"ورق كرتون مموج", 30, 15⟩ ]

/-- An element of `sampleInvoices`. -/
structure SampleInvoice where
  invoice_number : String
  order_id : Nat
  customer_name : String
  subtotal : ℚ
  tax : ℚ
  total_amount : ℚ
  status : String

/-- The array `sampleInvoices`, for the ids of the two orders found. -/
def sampleInvoices (order0 order1 : Nat) : List SampleInvoice :=
  [ { invoice_number := "INV-2025-001", order_id := order0,
      customer_name := "شركة الأعمال الحديثة", subtotal := 10000, tax := 1500,
      total_amount := 11500, status := "paid" },
    { invoice_number := "INV-2025-002", order_id := order1,
      customer_name := "مؤسسة التجارة العالمية", subtotal := 15000, tax := 2250,
      total_amount := 17250, status := "approved" } ]

/-- The loop inserting the sample order items of one sample order. The seeding route
opens no transaction: a failure leaves the store as the earlier statements made it. -/
def seedOrderItems (orderId : Nat) : List SampleMaterial → DB → Except (Fault × DB) DB
  | [], db => .ok db
  | m :: rest, db =>
    match db.insertOrderItem orderId 1 m.quantity none (.fin m.unit_price)
        (.fin (m.quantity * m.unit_price)) (some "عنصر تجريبي") with
    | .error e => .error (e, db)
    | .ok db1 => seedOrderItems orderId rest db1

/-- The loop inserting the sample orders. -/
def seedOrders (now userId : Nat) : List SampleOrder → DB → Except (Fault × DB) DB
  | [], db => .ok db
  | o :: rest, db =>
    match db.insertOrder now o.order_number o.customer_name (some o.customer_phone)
        (some o.customer_address) (some o.plate_count) none o.delivery_method
        (.fin o.total_amount) (.fin o.cutting_fee) (some o.status) userId with
    | .error e => .error (e, db)
    | .ok (orderId, db1) =>
      match seedOrderItems orderId sampleMaterials db1 with
      | .error x => .error x
      | .ok db2 => seedOrders now userId rest db2

/-- The loop inserting the sample invoices. -/
def seedInvoices (now userId : Nat) : List SampleInvoice → DB → Except (Fault × DB) DB
  | [], db => .ok db
  | i :: rest, db =>
    match db.insertInvoice now i.invoice_number i.order_id i.customer_name none none
        i.subtotal none none i.tax i.total_amount (some i.status) none userId with
    | .error e => .error (e, db)
    | .ok (_, db1) => seedInvoices now userId rest db1

/-- The ids of `SELECT id FROM orders WHERE status = $1`, in table order. -/
def DB.completedOrderIds (db : DB) : List Nat :=
  (db.orders.filter (fun o => o.status == "completed")).map (fun o => o.id)

/-- The handler of `POST /invoices/seed`. -/
def seedInvoicesRoute (db : DB) (now userId : Nat) (userType : String) : Response × DB :=
  if userType ≠ "admin" then
    (⟨403, .message "فقط المدير يمكنه إضافة البيانات التجريبية"⟩, db)
  else if db.invoices.length > 0 then
    (⟨400, .message "البيانات التجريبية موجودة مسبقاً"⟩, db)
  else
    let orders := db.completedOrderIds.take 2
    let prepared : Except (Fault × DB) (List Nat × DB) :=
      if orders.length = 0 then
        match seedOrders now userId sampleOrders db with
        | .error x => .error x
        | .ok db1 =>
          .ok (orders ++ (db1.completedOrderIds.insertionSort (fun a b => b ≤ a)).take 2, db1)
      else .ok (orders, db)
    match prepared with
    | .error (_, db1) => (serverError, db1)
    | .ok (order0 :: order1 :: _, db1) =>
      (match seedInvoices now userId (sampleInvoices order0 order1) db1 with
      | .error (_, db2) => (serverError, db2)
      | .ok db2 => (⟨200, .message "تم إضافة البيانات التجريبية بنجاح"⟩, db2))
    | .ok (_, db1) => (serverError, db1)


/-! ## The status route of the orders -/

/-- The failures of the validator `status` of `PATCH /orders/:id/status`. -/
def validateOrderStatus (status : String) : List String :=
  if status ∈ ["pending", "processing", "sorting", "cutting", "completed", "cancelled"]
  then [] else ["حالة الطلب غير صالحة"]

/-- `UPDATE orders SET status = $1, notes = $2, updated_at = CURRENT_TIMESTAMP
WHERE id = $3`. -/
def DB.updateOrderStatus (db : DB) (now : Nat) (status : String) (notes : Option String)
    (orderId : Nat) : DB :=
  { db with
    orders := db.orders.map (fun o =>
      if o.id = orderId then { o with status := status, notes := notes, updated_at := now }
      else o) }

/-- The effect of `UPDATE materials SET status = $1 WHERE id = $2` on one row. -/
def statusRow (status : String) (materialId : Nat) (m : Material) : Material :=
  if m.id = materialId then { m with status := status } else m

/-- `UPDATE materials SET status = $1 WHERE id = $2`. -/
def DB.setMaterialStatus (db : DB) (status : String) (materialId : Nat) : DB :=
  { db with materials := db.materials.map (statusRow status materialId) }

/-- The handler of `PATCH /orders/:id/status` (setStatus); a request without `notes`
binds `NULL` to `$2`. -/
def setStatus (db : DB) (now orderId : Nat) (status : String) (notes : Option String) :
    Response × DB :=
  if validateOrderStatus status ≠ [] then
    (⟨400, .errors (validateOrderStatus status)⟩, db)
  else if !db.orders.any (fun o => o.id == orderId) then
    (⟨404, .message "الطلب غير موجود"⟩, db)
  else
    let db1 := db.updateOrderStatus now status notes orderId
    if status = "completed" then
      let orderItems := db1.order_items.filter (fun it => it.order_id == orderId)
      let db2 := orderItems.foldl (fun d item => d.setMaterialStatus "available" item.material_id) db1
      (⟨200, .message "تم تحديث حالة الطلب بنجاح"⟩, db2)
    else
      (⟨200, .message "تم تحديث حالة الطلب بنجاح"⟩, db1)

/-! ## The reserve and release routes of the materials -/

/-- The handler of `POST /materials/:id/reserve` (`order_id` is validated and not used). -/
def reserve (db : DB) (materialId : Nat) (quantity : Int) : Response × DB :=
  match db.materials.find? (fun m => m.id == materialId) with
  | none => (⟨404, .message "المادة غير موجودة"⟩, db)
  | some material =>
    if material.quantity < quantity then
      (⟨400, .message "الكمية غير كافية"⟩, db)
    else
      (⟨200, .message "تم حجز المواد بنجاح"⟩,
        db.adjustMaterial (-quantity) "reserved" materialId)

/-- The range of a PostgreSQL `INTEGER`. -/
def inInteger (n : Int) : Bool := decide (-2147483648 ≤ n ∧ n ≤ 2147483647)

/-- The handler of `POST /materials/:id/release`, for the number `quantity` of the body.
Its one statement, `UPDATE materials SET quantity = quantity + $1, status = $2
WHERE id = $3`, binds `$1` as an `INTEGER` and writes an `INTEGER` column: a number that
is not an integer of that range, or a sum that leaves the range, makes the statement
fail, and the `catch` answers 500 with nothing changed. -/
def release (db : DB) (materialId : Nat) (quantity : ℚ) : Response × DB :=
  if quantity.den ≠ 1 ∨ inInteger quantity.num = false then
    (⟨500, .message "خطأ في الخادم"⟩, db)
  else if db.materials.any
      (fun m => m.id == materialId && !inInteger (m.quantity + quantity.num)) then
    (⟨500, .message "خطأ في الخادم"⟩, db)
  else
    (⟨200, .message "تم إلغاء حجز المواد بنجاح"⟩,
      db.adjustMaterial quantity.num "available" materialId)

/-! ## The transfer route of the warehouses -/

/-- The effect of `UPDATE materials SET quantity = quantity + $1 WHERE id = $2` on one
row. -/
def quantityRow (delta : Int) (materialId : Nat) (m : Material) : Material :=
  if m.id = materialId then { m with quantity := m.quantity + delta } else m

/-- `UPDATE materials SET quantity = quantity + $1 WHERE id = $2`. -/
def DB.addQuantity (db : DB) (delta : Int) (materialId : Nat) : DB :=
  { db with materials := db.materials.map (quantityRow delta materialId) }

/-- `INSERT INTO materials (...)` of the transfer route, with the foreign key on
`warehouse_id`; `status` takes its default. -/
def DB.insertMaterial (db : DB) (name : String) (weight : ℚ) (quantity : Int)
    (warehouse_id : Nat) (cost : ℚ) : Except Fault DB :=
  if !db.warehouses.any (fun w => w.id == warehouse_id) then
    .error (.sql "insert or update on table violates foreign key constraint")
  else
    .ok { db with
      materials := db.materials ++ [{
        id := db.next_material_id
        name := name
        weight := weight
        quantity := quantity
        warehouse_id := warehouse_id
        cost := cost
        status := "available" }]
      next_material_id := db.next_material_id + 1 }

/-- `INSERT INTO stock_movements (...)`, with the foreign keys on `material_id` and
`warehouse_id`. -/
def DB.insertStockMovement (db : DB) (material_id warehouse_id : Nat) (movement_type : String)
    (quantity : Int) (weight : Option ℚ) (reference_id : Option Nat)
    (reference_type : Option String) (notes : Option String) (created_by : Nat) :
    Except Fault DB :=
  if !db.materials.any (fun m => m.id == material_id) then
    .error (.sql "insert or update on table violates foreign key constraint")
  else if !db.warehouses.any (fun w => w.id == warehouse_id) then
    .error (.sql "insert or update on table violates foreign key constraint")
  else
    .ok { db with
      stock_movements := db.stock_movements ++ [{
        id := db.next_stock_movement_id
        material_id := material_id
        warehouse_id := warehouse_id
        movement_type := movement_type
        quantity := quantity
        weight := weight.map decimal2
        reference_id := reference_id
        reference_type := reference_type
        notes := notes
        created_by := created_by }]
      next_stock_movement_id := db.next_stock_movement_id + 1 }

/-- The body of `POST /warehouses/transfer`. -/
structure TransferInput where
  material_id : Nat
  from_warehouse_id : Nat
  to_warehouse_id : Nat
  quantity : Int
  notes : Option String
deriving DecidableEq

/-- The second step of the transfer: add to the row of the same name in the target
warehouse, or insert one. -/
def creditTarget (db : DB) (req : TransferInput) (material : Material) : Except Fault DB :=
  match db.materials.find?
      (fun m => m.name == material.name && m.warehouse_id == req.to_warehouse_id) with
  | some targetMaterial => .ok (db.addQuantity req.quantity targetMaterial.id)
  | none =>
    db.insertMaterial material.name material.weight req.quantity req.to_warehouse_id
      material.cost

/-- The statements of `POST /warehouses/transfer` between `BEGIN` and `COMMIT`, for the
row `material` read before. -/
def transferTx (db : DB) (userId : Nat) (req : TransferInput) (material : Material) :
    Except Fault DB :=
  match creditTarget (db.addQuantity (-req.quantity) req.material_id) req material with
  | .error e => .error e
  | .ok db2 =>
    match db2.insertStockMovement req.material_id req.from_warehouse_id "transfer_out"
        req.quantity (some (material.weight * req.quantity)) (some req.to_warehouse_id)
        (some "warehouse_transfer") req.notes userId with
    | .error e => .error e
    | .ok db3 =>
      db3.insertStockMovement req.material_id req.to_warehouse_id "transfer_in"
        req.quantity (some (material.weight * req.quantity)) (some req.from_warehouse_id)
        (some "warehouse_transfer") req.notes userId

/-- The handler of `POST /warehouses/transfer`. -/
def transfer (db : DB) (userId : Nat) (req : TransferInput) : Response × DB :=
  match db.materials.find?
      (fun m => m.id == req.material_id && m.warehouse_id == req.from_warehouse_id) with
  | none => (⟨404, .message "المادة غير موجودة في المستودع المصدر"⟩, db)
  | some material =>
    if material.quantity < req.quantity then
      (⟨400, .message "الكمية غير كافية في المستودع المصدر"⟩, db)
    else
      match transferTx db userId req material with
      | .error _ => (serverError, db)
      | .ok db2 => (⟨200, .message "تم نقل المواد بنجاح"⟩, db2)

/-! ## The inventory counts -/

/-- `INSERT INTO inventory_counts (...) RETURNING id`, with the foreign keys on
`warehouse_id` and `material_id`; `status` takes its default. -/
def DB.insertInventoryCount (db : DB) (warehouse_id material_id : Nat)
    (counted_quantity system_quantity variance : Int) (counted_by : Nat)
    (notes : Option String) : Except Fault DB :=
  if !db.warehouses.any (fun w => w.id == warehouse_id) then
    .error (.sql "insert or update on table violates foreign key constraint")
  else if !db.materials.any (fun m => m.id == material_id) then
    .error (.sql "insert or update on table violates foreign key constraint")
  else
    .ok { db with
      inventory_counts := db.inventory_counts ++ [{
        id := db.next_inventory_count_id
        warehouse_id := warehouse_id
        material_id := material_id
        counted_quantity := counted_quantity
        system_quantity := system_quantity
        variance := variance
        counted_by := counted_by
        status := "pending"
        notes := notes }]
      next_inventory_count_id := db.next_inventory_count_id + 1 }

/-- The handler of `POST /inventory/count`. -/
def createCount (db : DB) (userId warehouse_id material_id : Nat) (counted_quantity : Int)
    (notes : Option String) : Response × DB :=
  match db.materials.find? (fun m => m.id == material_id) with
  | none => (⟨404, .message "المادة غير موجودة"⟩, db)
  | some material =>
    let systemQuantity := material.quantity
    let variance := counted_quantity - systemQuantity
    match db.insertInventoryCount warehouse_id material_id counted_quantity systemQuantity
        variance userId notes with
    | .error _ => (serverError, db)
    | .ok db1 => (⟨201, .message "تم تسجيل الجرد بنجاح"⟩, db1)

/-- The effect of `UPDATE materials SET quantity = $1, updated_at = CURRENT_TIMESTAMP
WHERE id = $2` on one row. -/
def countedRow (quantity : Int) (materialId : Nat) (m : Material) : Material :=
  if m.id = materialId then { m with quantity := quantity } else m

/-- `UPDATE materials SET quantity = $1, updated_at = CURRENT_TIMESTAMP WHERE id = $2`. -/
def DB.setQuantity (db : DB) (quantity : Int) (materialId : Nat) : DB :=
  { db with materials := db.materials.map (countedRow quantity materialId) }

/-- `UPDATE inventory_counts SET status = 'approved', updated_at = CURRENT_TIMESTAMP
WHERE id = $1`: the table `inventory_counts` of `setup-database.js` and `server.js` has
no column `updated_at`, and the statement is refused. -/
def DB.approveCountRow (_db : DB) (_countId : Nat) : Except Fault DB :=
  .error (.sql "column \"updated_at\" of relation \"inventory_counts\" does not exist")

/-- The handler of `PUT /inventory/counts/:id/approve`; it opens no transaction, so the
statements before a failing one keep their effect. -/
def approveCount (db : DB) (userId countId : Nat) : Response × DB :=
  match db.inventory_counts.find? (fun c => c.id == countId) with
  | none => (⟨404, .message "سجل الجرد غير موجود"⟩, db)
  | some count =>
    let db1 := db.setQuantity count.counted_quantity count.material_id
    match db1.approveCountRow countId with
    | .error _ => (serverError, db1)
    | .ok db2 =>
      match db2.insertStockMovement count.material_id count.warehouse_id "adjustment"
          count.variance none (some countId) (some "inventory_count")
          (some "تعديل بناءً على الجرد") userId with
      | .error _ => (serverError, db2)
      | .ok db3 => (⟨200, .message "تم اعتماد الجرد وتحديث الكمية بنجاح"⟩, db3)


/-! ## The status routes of the invoices -/

/-- The failures of the validator `status` of `PATCH /invoices/:id/status`. -/
def validateInvoiceStatus (status : String) : List String :=
  if status ∈ ["draft", "approved", "paid", "delivered", "cancelled"]
  then [] else ["حالة الفاتورة غير صالحة"]

/-- The handler of `PATCH /invoices/:id/status`. -/
def setInvoiceStatus (db : DB) (now invoiceId : Nat) (status : String) : Response × DB :=
  if validateInvoiceStatus status ≠ [] then
    (⟨400, .errors (validateInvoiceStatus status)⟩, db)
  else if !db.invoices.any (fun i => i.id == invoiceId) then
    (⟨404, .message "الفاتورة غير موجودة"⟩, db)
  else
    (⟨200, .message "تم تحديث حالة الفاتورة بنجاح"⟩,
      { db with
        invoices := db.invoices.map (fun i =>
          if i.id = invoiceId then { i with status := status, updated_at := now } else i) })

/-- The handler of `PUT /invoices/:id/approve`. -/
def approveInvoice (db : DB) (now userId invoiceId : Nat) : Response × DB :=
  if !db.invoices.any (fun i => i.id == invoiceId) then
    (⟨404, .message "الفاتورة غير موجودة"⟩, db)
  else
    (⟨200, .message "تم اعتماد الفاتورة بنجاح"⟩,
      { db with
        invoices := db.invoices.map (fun i =>
          if i.id = invoiceId then
            { i with
              status := "approved"
              approved_by := some userId
              approved_at := some now
              updated_at := now }
          else i) })

/-- The handler of `PUT /invoices/:id/pay`. -/
def payInvoice (db : DB) (now invoiceId : Nat) : Response × DB :=
  if !db.invoices.any (fun i => i.id == invoiceId) then
    (⟨404, .message "الفاتورة غير موجودة"⟩, db)
  else
    (⟨200, .message "تم تحديد الفاتورة كمدفوعة بنجاح"⟩,
      { db with
        invoices := db.invoices.map (fun i =>
          if i.id = invoiceId then { i with status := "paid", paid_at := some now, updated_at := now }
          else i) })

/-- The handler of `DELETE /invoices/:id`; the items of the invoice go with it
(`ON DELETE CASCADE`). -/
def deleteInvoice (db : DB) (invoiceId : Nat) : Response × DB :=
  if !db.invoices.any (fun i => i.id == invoiceId) then
    (⟨404, .message "الفاتورة غير موجودة"⟩, db)
  else
    (⟨200, .message "تم حذف الفاتورة بنجاح"⟩,
      { db with
        invoices := db.invoices.filter (fun i => !(i.id == invoiceId))
        invoice_items := db.invoice_items.filter (fun it => !(it.invoice_id == invoiceId)) })

/-! ## Deleting a material -/

/-- `DELETE FROM materials WHERE id = $1` on an existing row: refused while a row of
`order_items`, `invoice_items`, `stock_movements` or `inventory_counts` refers to it. -/
def DB.deleteMaterialRow (db : DB) (materialId : Nat) : Except Fault DB :=
  if db.order_items.any (fun it => it.material_id == materialId) ||
      db.invoice_items.any (fun it => it.material_id == some materialId) ||
      db.stock_movements.any (fun s => s.material_id == materialId) ||
      db.inventory_counts.any (fun c => c.material_id == materialId) then
    .error (.sql "update or delete on table violates foreign key constraint")
  else
    .ok { db with materials := db.materials.filter (fun m => !(m.id == materialId)) }

/-- The handler of `DELETE /materials/:id`. -/
def deleteMaterial (db : DB) (materialId : Nat) : Response × DB :=
  let orderCount := (db.order_items.filter (fun it => it.material_id == materialId)).length
  if orderCount > 0 then
    (⟨400, .message "لا يمكن حذف المادة لأنها مستخدمة في طلبات"⟩, db)
  else if !db.materials.any (fun m => m.id == materialId) then
    (⟨404, .message "المادة غير موجودة"⟩, db)
  else
    match db.deleteMaterialRow materialId with
    | .error _ => (serverError, db)
    | .ok db1 => (⟨200, .message "تم حذف المادة بنجاح"⟩, db1)

/-! ## Deleting warehouses in bulk -/

/-- `DELETE FROM warehouses WHERE id = $1`: refused while a row of `materials`,
`stock_movements` or `inventory_counts` refers to the warehouse. -/
def DB.deleteWarehouseRow (db : DB) (warehouseId : Nat) : Except Fault DB :=
  if db.warehouses.any (fun w => w.id == warehouseId) &&
      (db.materials.any (fun m => m.warehouse_id == warehouseId) ||
        db.stock_movements.any (fun s => s.warehouse_id == warehouseId) ||
        db.inventory_counts.any (fun c => c.warehouse_id == warehouseId)) then
    .error (.sql "update or delete on table violates foreign key constraint")
  else
    .ok { db with warehouses := db.warehouses.filter (fun w => !(w.id == warehouseId)) }

/-- The loop of the case `delete` of `POST /warehouses/bulk-operations`; the route opens
no transaction, so a warehouse deleted in an earlier round stays deleted. -/
def bulkDeleteLoop : List Nat → DB → Response × DB
  | [], db => (⟨200, .message "تم تنفيذ العملية بنجاح"⟩, db)
  | warehouseId :: rest, db =>
    let materialCount := (db.materials.filter (fun m => m.warehouse_id == warehouseId)).length
    if materialCount > 0 then
      (⟨400, .message ("لا يمكن حذف المستودع " ++ toString warehouseId
        ++ " لأنه يحتوي على مواد")⟩, db)
    else
      match db.deleteWarehouseRow warehouseId with
      | .error _ => (serverError, db)
      | .ok db1 => bulkDeleteLoop rest db1

/-- The handler of `POST /warehouses/bulk-operations` with operation `delete`. -/
def bulkDeleteWarehouses (db : DB) (warehouse_ids : List Nat) : Response × DB :=
  bulkDeleteLoop warehouse_ids db

/-! ## Auxiliary definitions of the statements below -/

/-- The rows that the item loop of a request appends to `invoice_items`, the first of
them with key `start`. -/
def itemRows (invoiceId start : Nat) : List InvoiceItemInput → List InvoiceItem
  | [] => []
  | item :: rest =>
    { id := start
      invoice_id := invoiceId
      material_name := item.material_name
      description := orEmpty item.description
      quantity := item.quantity
      unit_price := bindDecimal2 (toDouble item.unit_price)
      total_price := bindDecimal2 (lineTotal item)
      material_id := orNull item.material_id
      notes := orEmpty item.notes } :: itemRows invoiceId (start + 1) rest

/-- The exact total of an item whose unit price has at most two decimals, in hundredths. -/
def exactLine (it : InvoiceItemInput) : Int := it.quantity * decimal2 it.unit_price

/-- The exact sum `Σ item.quantity × item.unit_price` over the items of a request. -/
def requestSubtotal (items : List InvoiceItemInput) : ℚ :=
  (items.map (fun it => (it.quantity : ℚ) * it.unit_price)).sum

/-- The exact amount on which tax is charged: `subtotal − discount + cutting_fee` of a
request, an absent fee or discount counting as 0. -/
def requestBase (req : InvoiceInput) : ℚ :=
  requestSubtotal req.items - req.discount.getD 0 + req.cutting_fee.getD 0

/-- The double that the handlers of `POST /invoices` and `PUT /invoices/:id` compute for
`subtotal - discountAmount + cuttingFee`. -/
def computedBase (req : InvoiceInput) : ℚ :=
  taxedBase (itemsSubtotal req.items) (parseFloatOrZero req.discount)
    (parseFloatOrZero req.cutting_fee)

/-- A completed order, number 1. -/
def completedOrder : Order where
  id := 1
  order_number := "ORD-1"
  customer_name := "customer"
  customer_phone := none
  customer_address := none
  plate_count := none
  notes := none
  delivery_method := "direct"
  status := "completed"
  total_amount := .val 0
  cutting_fee := .val 0
  created_by := 1
  created_at := 0
  updated_at := 0

/-- A store holding one completed order and nothing else. -/
def storeWithOrder : DB :=
  { DB.empty with orders := [completedOrder], next_order_id := 2 }

/-- An invoice item of a request, by quantity and unit price. -/
def lineItem (quantity : Int) (unit_price : ℚ) : InvoiceItemInput where
  material_name := "paper"
  description := none
  quantity := quantity
  unit_price := unit_price
  material_id := none
  notes := none

/-- A request to invoice order 1 for the given items, without fee or discount. -/
def invoiceFor (items : List InvoiceItemInput) : InvoiceInput where
  order_id := 1
  customer_name := "customer"
  customer_phone := none
  customer_address := none
  items := items
  cutting_fee := none
  discount := none
  notes := none

/-- A response with a 2xx status. -/
def Response.success (r : Response) : Bool := decide (200 ≤ r.status ∧ r.status < 300)

/-- A call of one of the three item routes of an invoice. -/
inductive ItemCall where
  | add (item : InvoiceItemInput)
  | update (itemId : Nat) (item : InvoiceItemInput)
  | delete (itemId : Nat)

/-- The handler of an item call on the invoice `invoiceId`. -/
def itemCall (db : DB) (now invoiceId : Nat) : ItemCall → Response × DB
  | .add item => addItem db now invoiceId item
  | .update itemId item => updateItem db now invoiceId itemId item
  | .delete itemId => deleteItem db now invoiceId itemId

/-- The response and the store after each call of a sequence of item calls on one invoice,
each call with its clock reading. -/
def itemCallTrace (invoiceId : Nat) : DB → List (Nat × ItemCall) → List (Response × DB)
  | _, [] => []
  | db, (now, c) :: rest =>
    itemCall db now invoiceId c :: itemCallTrace invoiceId (itemCall db now invoiceId c).2 rest

/-- The double that `updateInvoiceTotals` computes for `subtotal - discountAmount +
cuttingFee` from the stored items of the invoice and the fee and discount of the row
`row`. -/
def storedBase (db : DB) (invoiceId : Nat) (row : Invoice) : ℚ :=
  taxedBase (toDouble (ofCents (db.sumItems invoiceId))) (parseDecimalOrZero row.discount)
    (parseDecimalOrZero row.cutting_fee)

/-- The totals of an invoice are those that `updateInvoiceTotals` writes for its stored
items, fee and discount: the sum of the items' total prices, and the tax and the total
that the helper computes in doubles from that sum, each as its column rounds it. -/
def TotalsRecomputed (db : DB) (invoiceId : Nat) : Prop :=
  ∃ inv, db.invoice? invoiceId = some inv ∧
    inv.subtotal = bindDecimal2 (toDouble (ofCents (db.sumItems invoiceId))) ∧
    inv.tax = bindDecimal2 (taxOf (storedBase db invoiceId inv)) ∧
    inv.total_amount = bindDecimal2 (totalOf (storedBase db invoiceId inv))

/-- The stored items, the fee and the discount of an invoice are below `10 ^ 12`
hundredths in size, as the width of their columns has it. -/
def DB.AmountsFit (db : DB) (invoiceId : Nat) : Prop :=
  |(db.sumItems invoiceId : ℚ)| ≤ 10 ^ 12 ∧
  ∀ inv, db.invoice? invoiceId = some inv →
    |((inv.discount.getD 0 : Int) : ℚ)| ≤ 10 ^ 12 ∧
    |((inv.cutting_fee.getD 0 : Int) : ℚ)| ≤ 10 ^ 12

/-- The stored tax of an invoice row is within one hundredth of 15% of
`subtotal − discount + cutting_fee`, and its stored total is within one hundredth of
`subtotal − discount + cutting_fee + tax`; all amounts are in hundredths. -/
def TotalsNear (inv : Invoice) : Prop :=
  |(inv.tax : ℚ) - ((inv.subtotal : ℚ) - (inv.discount.getD 0 : Int)
      + (inv.cutting_fee.getD 0 : Int)) * (15 / 100)| < 1 ∧
  |inv.total_amount
    - (inv.subtotal - inv.discount.getD 0 + inv.cutting_fee.getD 0 + inv.tax)| ≤ 1

/-- The amounts of a request have at most two decimals and are within the width of the
columns: every unit price, the discount and the fee are whole numbers of hundredths, there
are at most 100 items, and the sizes of the exact item totals sum to at most `10 ^ 12`
hundredths, as do the size of the discount and that of the fee. -/
def InvoiceInput.TwoDecimalsFit (req : InvoiceInput) : Prop :=
  (∀ it ∈ req.items, it.unit_price = ofCents (decimal2 it.unit_price)) ∧
  req.discount.getD 0 = ofCents (decimal2 (req.discount.getD 0)) ∧
  req.cutting_fee.getD 0 = ofCents (decimal2 (req.cutting_fee.getD 0)) ∧
  req.items.length ≤ 100 ∧
  (req.items.map (fun it => |exactLine it|)).sum ≤ 10 ^ 12 ∧
  |decimal2 (req.discount.getD 0)| ≤ 10 ^ 12 ∧
  |decimal2 (req.cutting_fee.getD 0)| ≤ 10 ^ 12

/-- An invoice row with the totals that `updateInvoiceTotals` writes, computed from the
stored items of the invoice and from the fee and discount of the row `row` it read. -/
def retotalled (db : DB) (now invoiceId : Nat) (row : Invoice) (i : Invoice) : Invoice :=
  { i with
    subtotal := bindDecimal2 (toDouble (ofCents (db.sumItems invoiceId)))
    tax := bindDecimal2 (taxOf (storedBase db invoiceId row))
    total_amount := bindDecimal2 (totalOf (storedBase db invoiceId row))
    updated_at := now }

/-- The store that `updateInvoiceTotals` returns for the row `row` it read. -/
def recomputed (db : DB) (now invoiceId : Nat) (row : Invoice) : DB :=
  { db with
    invoices := db.invoices.map (fun i =>
      if i.id = invoiceId then retotalled db now invoiceId row i else i) }

/-- The store after invoicing order 1 for 2 × 10 and 1 × 5 at clock reading 5. -/
def storeWithInvoice : DB :=
  (createInvoice storeWithOrder 5 1 (invoiceFor [lineItem 2 10, lineItem 1 5])).2

/-- The store after invoicing order 1 for 1 × 0.20 at clock reading 5. -/
def storeWithSmallInvoice : DB :=
  (createInvoice storeWithOrder 5 1 (invoiceFor [lineItem 1 (1 / 5)])).2

/-- A store with material 1 in stock, and nothing else. -/
def storeWithMaterial : DB :=
  { DB.empty with
    materials := [{ id := 1, name := "paper", weight := 2, quantity := 10, warehouse_id := 1,
                    cost := 100, status := "available" }]
    next_material_id := 2 }

/-- The invoice row that the transaction of createInvoice inserts. -/
def createdInvoice (db : DB) (now userId : Nat) (req : InvoiceInput) : Invoice where
  id := db.next_invoice_id
  invoice_number := "INV-" ++ toString now
  order_id := req.order_id
  customer_name := req.customer_name
  customer_phone := req.customer_phone
  customer_address := req.customer_address
  subtotal := bindDecimal2 (itemsSubtotal req.items)
  cutting_fee := some (bindDecimal2 (parseFloatOrZero req.cutting_fee))
  discount := some (bindDecimal2 (parseFloatOrZero req.discount))
  tax := bindDecimal2 (taxOf (computedBase req))
  total_amount := bindDecimal2 (totalOf (computedBase req))
  status := "draft"
  created_by := userId
  approved_by := none
  approved_at := none
  paid_at := none
  notes := req.notes
  created_at := now
  updated_at := now

/-- An invoice row as `PUT /invoices/:id` rewrites it. -/
def rewrittenInvoice (now : Nat) (req : InvoiceInput) (i : Invoice) : Invoice :=
  { i with
    customer_name := req.customer_name
    customer_phone := req.customer_phone
    customer_address := req.customer_address
    subtotal := bindDecimal2 (itemsSubtotal req.items)
    cutting_fee := some (bindDecimal2 (parseFloatOrZero req.cutting_fee))
    discount := some (bindDecimal2 (parseFloatOrZero req.discount))
    tax := bindDecimal2 (taxOf (computedBase req))
    total_amount := bindDecimal2 (totalOf (computedBase req))
    notes := req.notes
    updated_at := now }

/-- The response of createInvoice to an order that already has an invoice. -/
def duplicateInvoice : Response := ⟨400, .message "يوجد فاتورة مسبقاً لهذا الطلب"⟩

/-- The response of createInvoice to an order that is absent or not completed. -/
def orderNotCompleted : Response := ⟨400, .message "الطلب غير موجود أو لم يكتمل بعد"⟩

/-- The store after a sequence of createInvoice calls, each with its clock reading and
its user. -/
def createInvoices : DB → List (Nat × Nat × InvoiceInput) → DB
  | db, [] => db
  | db, (now, userId, req) :: rest => createInvoices (createInvoice db now userId req).2 rest

/-- No two invoices of the store are for the same order. -/
def DB.OneInvoicePerOrder (db : DB) : Prop :=
  (db.invoices.map (fun i => i.order_id)).Nodup

/-- The store with the invoice of order 1, after order 1 was set back to `pending`. -/
def storeWithReopenedOrder : DB :=
  { storeWithInvoice with orders := [{ completedOrder with status := "pending" }] }

/-- An order item of a request, by material and quantity. -/
def orderLine (material_id : Nat) (quantity : Int) : OrderItemInput where
  material_id := material_id
  quantity := quantity
  notes := none

/-- A request to order the given items with the given delivery method. -/
def orderFor (delivery_method : String) (items : List OrderItemInput) : OrderInput where
  customer_name := "customer"
  customer_phone := none
  customer_address := none
  plate_count := none
  notes := none
  delivery_method := delivery_method
  items := items

/-- The store of the scenario: material X (key 1) with 10 in stock and cost 100, material
Y (key 2) with 3 in stock and cost 60, both `available`, in warehouse 1. -/
def storeXY : DB :=
  { DB.empty with
    warehouses := [{ id := 1, name := "main" }]
    materials :=
      [ { id := 1, name := "X", weight := 2, quantity := 10, warehouse_id := 1, cost := 100,
          status := "available" },
        { id := 2, name := "Y", weight := 3, quantity := 3, warehouse_id := 1, cost := 60,
          status := "available" } ]
    next_material_id := 3 }

/-- No row of `materials` can serve the item: every row with the key of the item that is
`available` holds less than the quantity asked (no such row, when the material is absent
or not `available`). -/
def DB.cannotServe (db : DB) (item : OrderItemInput) : Prop :=
  ∀ m ∈ db.materials, m.id = item.material_id → m.status = "available" →
    m.quantity < item.quantity

/-- The keys in use are below the next key of the order sequence. -/
def DB.OrderKeysFresh (db : DB) : Prop :=
  (∀ o ∈ db.orders, o.id < db.next_order_id) ∧
  (∀ it ∈ db.order_items, it.order_id < db.next_order_id) ∧
  (∀ i ∈ db.invoices, i.order_id < db.next_order_id)

/-- The primary key of `materials`: no two rows have the same id. -/
def DB.MaterialKeysUnique (db : DB) : Prop :=
  (db.materials.map (fun m => m.id)).Nodup

/-- A material row after the reservations of a list of (material, quantity) pairs. -/
def reserveRow (pairs : List (Nat × Int)) (m : Material) : Material :=
  pairs.foldl (fun x p => adjustRow (-p.2) "reserved" p.1 x) m

/-- A material row after the releases of a list of (material, quantity) pairs. -/
def releaseRow (pairs : List (Nat × Int)) (m : Material) : Material :=
  pairs.foldl (fun x p => adjustRow p.2 "available" p.1 x) m

/-- The (material, quantity) pairs of the items of an order request. -/
def orderPairs (items : List OrderItemInput) : List (Nat × Int) :=
  items.map (fun it => (it.material_id, it.quantity))

/-- The store after ordering 5 of X and 2 of Y from the scenario store, for direct
delivery, at clock reading 7: order 1 is committed. -/
def storeWithOrderXY : DB :=
  (createOrder storeXY 7 1 (orderFor "direct" [orderLine 1 5, orderLine 2 2])).2

/-- The cutting fee of a request: 10 per unit ordered when the delivery method contains
`cut`, nothing otherwise. -/
def requestCuttingFee (req : OrderInput) : Int :=
  if includes req.delivery_method "cut" then 10 * (req.items.map (fun it => it.quantity)).sum
  else 0

/-- A material row after the completion of an order whose items refer to the materials
`ids`. -/
def completedRow (ids : List Nat) (m : Material) : Material :=
  if m.id ∈ ids then { m with status := "available" } else m

/-- The materials that the order items of an order refer to. -/
def DB.materialsOfOrder (db : DB) (orderId : Nat) : List Nat :=
  (db.order_items.filter (fun it => it.order_id == orderId)).map (fun it => it.material_id)

/-- The store with order 1 of the scenario, the request having carried the note
`fragile`. -/
def storeWithNotedOrder : DB :=
  (createOrder storeXY 7 1
    { orderFor "direct" [orderLine 1 5, orderLine 2 2] with notes := some "fragile" }).2

/-- The response of setStatus to a write that went through. -/
def statusUpdated : Response := ⟨200, .message "تم تحديث حالة الطلب بنجاح"⟩

/-- The response of the order routes to an order that is absent, thrown inside the
transaction of deleteOrder. -/
def orderNotFound : Fault := .js "الطلب غير موجود"

/-- The scenario store with a second warehouse. -/
def storeTwoWarehouses : DB :=
  { storeXY with warehouses := [{ id := 1, name := "main" }, { id := 2, name := "annex" }] }

/-- A store whose material 1 holds 5 and is `damaged`. -/
def storeDamaged : DB :=
  { DB.empty with
    warehouses := [{ id := 1, name := "main" }]
    materials := [{ id := 1, name := "X", weight := 2, quantity := 5, warehouse_id := 1,
                    cost := 100, status := "damaged" }]
    next_material_id := 2 }

/-- The scenario store after a count of 7 for material Y (3 in the books) was recorded by
`POST /inventory/count`: count 1, variance 4, `pending`. -/
def storeWithCount : DB :=
  (createCount storeXY 1 1 2 7 none).2


/-- The sum of `quantity` over all rows of `materials`. -/
def DB.totalQuantity (db : DB) : Int :=
  (db.materials.map (fun m => m.quantity)).sum

/-- The row the transfer route inserts in the target warehouse when it finds none of the
material's name there. -/
def transferredRow (db : DB) (req : TransferInput) (material : Material) : Material :=
  { id := db.next_material_id
    name := material.name
    weight := material.weight
    quantity := req.quantity
    warehouse_id := req.to_warehouse_id
    cost := material.cost
    status := "available" }

/-- The five invoice statuses of the validator of `PATCH /invoices/:id/status`. -/
def invoiceStatuses : List String := ["draft", "approved", "paid", "delivered", "cancelled"]

/-- Every row of `invoices` has one of the five statuses. -/
def DB.InvoiceStatusesValid (db : DB) : Prop :=
  ∀ i ∈ db.invoices, i.status ∈ invoiceStatuses

/-- A call of one of the routes modelled here, with the part of the request the route
reads. -/
inductive Call where
  | createInvoice (userId : Nat) (req : InvoiceInput)
  | updateInvoice (invoiceId : Nat) (req : InvoiceInput)
  | item (invoiceId : Nat) (c : ItemCall)
  | setInvoiceStatus (invoiceId : Nat) (status : String)
  | approveInvoice (userId invoiceId : Nat)
  | payInvoice (invoiceId : Nat)
  | deleteInvoice (invoiceId : Nat)
  | seedInvoices (userId : Nat) (userType : String)
  | createOrder (userId : Nat) (req : OrderInput)
  | setStatus (orderId : Nat) (status : String) (notes : Option String)
  | deleteOrder (orderId : Nat)
  | reserve (materialId : Nat) (quantity : Int)
  | release (materialId : Nat) (quantity : ℚ)
  | transfer (userId : Nat) (req : TransferInput)
  | createCount (userId warehouse_id material_id : Nat) (counted_quantity : Int)
      (notes : Option String)
  | approveCount (userId countId : Nat)
  | deleteMaterial (materialId : Nat)
  | bulkDeleteWarehouses (warehouse_ids : List Nat)

/-- The route of a call, at the time `now`. -/
def handle (db : DB) (now : Nat) : Call → Response × DB
  | .createInvoice userId req => createInvoice db now userId req
  | .updateInvoice invoiceId req => updateInvoice db now invoiceId req
  | .item invoiceId c => itemCall db now invoiceId c
  | .setInvoiceStatus invoiceId status => setInvoiceStatus db now invoiceId status
  | .approveInvoice userId invoiceId => approveInvoice db now userId invoiceId
  | .payInvoice invoiceId => payInvoice db now invoiceId
  | .deleteInvoice invoiceId => deleteInvoice db invoiceId
  | .seedInvoices userId userType => seedInvoicesRoute db now userId userType
  | .createOrder userId req => createOrder db now userId req
  | .setStatus orderId status notes => setStatus db now orderId status notes
  | .deleteOrder orderId => deleteOrder db orderId
  | .reserve materialId quantity => reserve db materialId quantity
  | .release materialId quantity => release db materialId quantity
  | .transfer userId req => transfer db userId req
  | .createCount userId warehouse_id material_id counted_quantity notes =>
    createCount db userId warehouse_id material_id counted_quantity notes
  | .approveCount userId countId => approveCount db userId countId
  | .deleteMaterial materialId => deleteMaterial db materialId
  | .bulkDeleteWarehouses warehouse_ids => bulkDeleteWarehouses db warehouse_ids

/-- The store after a list of calls, each with its time. -/
def run : DB → List (Nat × Call) → DB
  | db, [] => db
  | db, (now, c) :: rest => run (handle db now c).2 rest

/-! ## Rounding -/

theorem decimal2_ofCents (n : Int) : decimal2 (ofCents n) = n := by
  unfold decimal2 ofCents
  split
  · have : ((n : ℚ) / 100 * 100 + 1 / 2) = (n : ℚ) + 1 / 2 := by ring
    rw [this, Int.floor_int_add]
    norm_num
  · have : (-((n : ℚ) / 100) * 100 + 1 / 2) = ((-n : Int) : ℚ) + 1 / 2 := by push_cast; ring
    rw [this, Int.floor_int_add]
    norm_num


/-! ## Doubles: rounding errors -/

theorem pow2_eq (e : Int) : pow2 e = (2 : ℚ) ^ e := by
  unfold pow2
  split_ifs with h
  · have : e = ((e.toNat : Nat) : Int) := (Int.toNat_of_nonneg h).symm
    conv_rhs => rw [this]
    rw [zpow_natCast]
    push_cast
    rfl
  · have hneg : 0 ≤ -e := by omega
    have : e = -(((-e).toNat : Nat) : Int) := by
      rw [Int.toNat_of_nonneg hneg]
      ring
    conv_rhs => rw [this]
    rw [zpow_neg, zpow_natCast]
    push_cast
    rw [one_div]

theorem pow2_pos (e : Int) : 0 < pow2 e := by
  rw [pow2_eq]
  positivity

theorem log2Fuel_spec : ∀ (fuel n : Nat), n ≤ fuel → 0 < n →
    2 ^ log2Fuel fuel n ≤ n ∧ n < 2 ^ (log2Fuel fuel n + 1)
  | 0, n, h, hn => by omega
  | fuel + 1, n, h, hn => by
    unfold log2Fuel
    split_ifs with h2
    · constructor <;> simp <;> omega
    · have hdiv : n / 2 ≤ fuel := by omega
      have hpos : 0 < n / 2 := by omega
      obtain ⟨h1, h3⟩ := log2Fuel_spec fuel (n / 2) hdiv hpos
      constructor
      · rw [pow_succ]
        omega
      · rw [pow_succ]
        omega

theorem natLog2_le (n : Nat) (h : 0 < n) : 2 ^ natLog2 n ≤ n :=
  (log2Fuel_spec n n le_rfl h).1

theorem lt_natLog2 (n : Nat) (h : 0 < n) : n < 2 ^ (natLog2 n + 1) :=
  (log2Fuel_spec n n le_rfl h).2

theorem pow2_ilog2_le (x : ℚ) (hx : 0 < x) : pow2 (ilog2 x) ≤ x := by
  unfold ilog2
  split_ifs with h
  · rwa [abs_of_pos hx] at h
  · have hnum : 0 < x.num := Rat.num_pos.mpr hx
    have hnat : 0 < x.num.natAbs := Int.natAbs_pos.mpr (ne_of_gt hnum)
    have hden : 0 < x.den := x.den_pos
    have h1 : ((2 ^ natLog2 x.num.natAbs : Nat) : ℚ) ≤ (x.num.natAbs : ℚ) := by
      exact_mod_cast natLog2_le _ hnat
    have h2 : ((x.den : Nat) : ℚ) ≤ ((2 ^ (natLog2 x.den + 1) : Nat) : ℚ) := by
      exact_mod_cast (lt_natLog2 _ hden).le
    have hcast : ((x.num.natAbs : Nat) : ℚ) = (x.num : ℚ) := by
      have h0 : ((x.num.natAbs : Nat) : Int) = x.num := Int.natAbs_of_nonneg hnum.le
      have h1 : (((x.num.natAbs : Nat) : Int) : ℚ) = (x.num : ℚ) := by rw [h0]
      rw [← h1, Int.cast_natCast]
    have hxq : x = (x.num.natAbs : ℚ) / (x.den : ℚ) := by
      rw [hcast]
      exact (Rat.num_div_den x).symm
    rw [pow2_eq]
    have hexp : (natLog2 x.num.natAbs : Int) - (natLog2 x.den : Int) - 1
        = (natLog2 x.num.natAbs : Int) - ((natLog2 x.den + 1 : Nat) : Int) := by
      push_cast
      ring
    rw [hexp, zpow_sub₀ (by norm_num : (2 : ℚ) ≠ 0), zpow_natCast, zpow_natCast]
    have hdq : (0 : ℚ) < (x.den : ℚ) := by exact_mod_cast hden
    have hp2 : (0 : ℚ) < (2 : ℚ) ^ (natLog2 x.den + 1) := by positivity
    push_cast at h1 h2
    calc (2 : ℚ) ^ natLog2 x.num.natAbs / 2 ^ (natLog2 x.den + 1)
        ≤ (x.num.natAbs : ℚ) / 2 ^ (natLog2 x.den + 1) := by
          apply div_le_div_of_nonneg_right h1 hp2.le
      _ ≤ (x.num.natAbs : ℚ) / (x.den : ℚ) := by
          apply div_le_div_of_nonneg_left (by positivity) hdq h2
      _ = x := hxq.symm

theorem roundHalfEven_err (y : ℚ) : |(roundHalfEven y : ℚ) - y| ≤ 1 / 2 := by
  have h1 := Int.floor_le y
  have h2 := Int.lt_floor_add_one y
  unfold roundHalfEven
  rw [abs_le]
  split_ifs <;> push_cast <;> constructor <;> linarith

theorem roundPos_err (x : ℚ) (hx : 0 < x) : |roundPos x - x| ≤ x / 2 ^ 53 := by
  have hp := pow2_pos (ilog2 x - 52)
  have hle := pow2_ilog2_le x hx
  have hr := roundHalfEven_err (x / pow2 (ilog2 x - 52))
  have hsplit : pow2 (ilog2 x) = pow2 (ilog2 x - 52) * 2 ^ 52 := by
    rw [pow2_eq, pow2_eq, zpow_sub₀ (by norm_num : (2 : ℚ) ≠ 0)]
    norm_num
  unfold roundPos
  have heq : (roundHalfEven (x / pow2 (ilog2 x - 52)) : ℚ) * pow2 (ilog2 x - 52) - x
      = ((roundHalfEven (x / pow2 (ilog2 x - 52)) : ℚ) - x / pow2 (ilog2 x - 52))
        * pow2 (ilog2 x - 52) := by
    field_simp
  rw [heq, abs_mul, abs_of_pos hp]
  have h3 : |(roundHalfEven (x / pow2 (ilog2 x - 52)) : ℚ) - x / pow2 (ilog2 x - 52)|
      * pow2 (ilog2 x - 52) ≤ 1 / 2 * pow2 (ilog2 x - 52) :=
    mul_le_mul_of_nonneg_right hr hp.le
  have h4 : 1 / 2 * pow2 (ilog2 x - 52) ≤ x / 2 ^ 53 := by
    rw [hsplit] at hle
    rw [le_div_iff₀ (by positivity)]
    linarith
  linarith

theorem toDouble_err (x : ℚ) : |toDouble x - x| ≤ |x| / 2 ^ 53 := by
  unfold toDouble
  split_ifs with h0 hneg
  · simp [h0]
  · have hpos : 0 < -x := by linarith
    have := roundPos_err (-x) hpos
    rw [abs_of_neg hneg]
    have heq : -roundPos (-x) - x = -(roundPos (-x) - -x) := by ring
    rw [heq, abs_neg]
    exact this
  · have hpos : 0 < x := lt_of_le_of_ne (not_lt.mp hneg) (Ne.symm h0)
    rw [abs_of_pos hpos]
    exact roundPos_err x hpos

theorem toDouble_neg (x : ℚ) : toDouble (-x) = -toDouble x := by
  unfold toDouble
  rcases lt_trichotomy x 0 with h | h | h
  · have h1 : ¬ (-x = 0) := by intro h'; linarith
    have h2 : ¬ (-x < 0) := by linarith
    have h3 : ¬ (x = 0) := ne_of_lt h
    simp [h1, h2, h3, h]
  · simp [h]
  · have h1 : ¬ (-x = 0) := by intro h'; linarith
    have h2 : -x < 0 := by linarith
    have h3 : ¬ (x = 0) := ne_of_gt h
    have h4 : ¬ (x < 0) := by linarith
    simp [h1, h2, h3, h4]

theorem nearestDigits_roundtrip {x s : ℚ} {k : Nat} (h : nearestDigits x k = some s) :
    toDouble s = x := by
  unfold nearestDigits at h
  split_ifs at h with h1 h2 h3 h4 h5 h6 <;> cases h <;> assumption

theorem shortestPos_roundtrip (x : ℚ) : shortestPos x = x ∨ toDouble (shortestPos x) = x := by
  unfold shortestPos
  split
  · rename_i s hs
    obtain ⟨k, _, hk⟩ := List.exists_of_findSome?_eq_some hs
    exact Or.inr (nearestDigits_roundtrip hk)
  · exact Or.inl rfl

theorem shortestDecimal_roundtrip (x : ℚ) :
    shortestDecimal x = x ∨ toDouble (shortestDecimal x) = x := by
  unfold shortestDecimal
  split_ifs with h0 hneg
  · exact Or.inl h0.symm
  · rcases shortestPos_roundtrip (-x) with h | h
    · left
      rw [h]
      ring
    · right
      rw [toDouble_neg, h]
      ring
  · exact shortestPos_roundtrip x

theorem shortestDecimal_err (x : ℚ) :
    |shortestDecimal x - x| ≤ |shortestDecimal x| / 2 ^ 53 := by
  rcases shortestDecimal_roundtrip x with h | h
  · rw [h, sub_self, abs_zero]
    positivity
  · have := toDouble_err (shortestDecimal x)
    rw [h] at this
    rwa [abs_sub_comm]

theorem decimal2_near (s : ℚ) (n : Int) (h : |s * 100 - n| < 1 / 2) : decimal2 s = n := by
  rw [abs_lt] at h
  unfold decimal2
  split_ifs with hs
  · rw [Int.floor_eq_iff]
    constructor <;> linarith
  · rw [neg_eq_iff_eq_neg, Int.floor_eq_iff]
    push_cast
    constructor <;> linarith

theorem decimal2_err (s : ℚ) : |(decimal2 s : ℚ) - s * 100| ≤ 1 / 2 := by
  unfold decimal2
  rw [abs_le]
  split_ifs with hs
  · have h1 := Int.floor_le (s * 100 + 1 / 2)
    have h2 := Int.lt_floor_add_one (s * 100 + 1 / 2)
    constructor <;> linarith
  · have h1 := Int.floor_le (-s * 100 + 1 / 2)
    have h2 := Int.lt_floor_add_one (-s * 100 + 1 / 2)
    push_cast
    constructor <;> linarith

/-- A double within a relative distance of `8 · 2⁻⁵³` of a number of hundredths below
`10 ^ 12` is written to a `DECIMAL(p,2)` column as that number of hundredths. -/
theorem bindDecimal2_near (x : ℚ) (n : Int) (hn : |(n : ℚ)| ≤ 10 ^ 12)
    (hx : |x - ofCents n| ≤ 8 * |ofCents n| / 2 ^ 53) : bindDecimal2 x = n := by
  unfold bindDecimal2
  apply decimal2_near
  have hs := shortestDecimal_err x
  have hv : |ofCents n| ≤ 10 ^ 10 := by
    unfold ofCents
    rw [abs_div, abs_of_pos (by norm_num : (0 : ℚ) < 100)]
    rw [div_le_iff₀ (by norm_num)]
    linarith
  have hv0 : 0 ≤ |ofCents n| := abs_nonneg _
  have hxa : |x| ≤ |ofCents n| + 8 * |ofCents n| / 2 ^ 53 := by
    have := abs_sub_abs_le_abs_sub x (ofCents n)
    linarith
  have hsa : |shortestDecimal x| ≤ |x| + |shortestDecimal x| / 2 ^ 53 := by
    have := abs_sub_abs_le_abs_sub (shortestDecimal x) x
    linarith
  have hsb : |shortestDecimal x| ≤ 3 * 10 ^ 10 := by
    have h53 : (2 : ℚ) ^ 53 = 9007199254740992 := by norm_num
    rw [h53] at hsa hxa
    linarith
  have hd : |shortestDecimal x - ofCents n| ≤ 11 * 10 ^ 10 / 2 ^ 53 := by
    have h1 : shortestDecimal x - ofCents n = (shortestDecimal x - x) + (x - ofCents n) := by
      ring
    rw [h1]
    have h2 := abs_add (shortestDecimal x - x) (x - ofCents n)
    have h53 : (2 : ℚ) ^ 53 = 9007199254740992 := by norm_num
    rw [h53] at hs hx ⊢
    have : |shortestDecimal x| / 9007199254740992 ≤ 3 * 10 ^ 10 / 9007199254740992 := by
      apply div_le_div_of_nonneg_right hsb (by norm_num)
    have : 8 * |ofCents n| / 9007199254740992 ≤ 8 * 10 ^ 10 / 9007199254740992 := by
      apply div_le_div_of_nonneg_right (by linarith) (by norm_num)
    linarith
  have heq : shortestDecimal x * 100 - (n : ℚ) = (shortestDecimal x - ofCents n) * 100 := by
    unfold ofCents
    ring
  rw [heq, abs_mul, abs_of_pos (by norm_num : (0 : ℚ) < 100)]
  have h53 : (2 : ℚ) ^ 53 = 9007199254740992 := by norm_num
  rw [h53] at hd
  have : (11 : ℚ) * 10 ^ 10 / 9007199254740992 * 100 < 1 / 2 := by norm_num
  nlinarith

/-- A stored amount of hundredths below `10 ^ 12` that is read by `parseFloat` and bound
to a `DECIMAL(p,2)` column again is stored as it was. -/
theorem bindDecimal2_toDouble_ofCents (n : Int) (hn : |(n : ℚ)| ≤ 10 ^ 12) :
    bindDecimal2 (toDouble (ofCents n)) = n := by
  apply bindDecimal2_near _ _ hn
  have := toDouble_err (ofCents n)
  have h0 : 0 ≤ |ofCents n| := abs_nonneg _
  have : |ofCents n| / 2 ^ 53 ≤ 8 * |ofCents n| / 2 ^ 53 := by
    apply div_le_div_of_nonneg_right (by linarith) (by positivity)
  linarith

/-- The double product of two numbers is within a relative distance of `4 · 2⁻⁵³` of their
exact product. -/
theorem doubleMul_err (q p : ℚ) :
    |doubleMul (toDouble q) (toDouble p) - q * p| ≤ 4 * |q * p| / 2 ^ 53 := by
  have hq := toDouble_err q
  have hp := toDouble_err p
  have hx := toDouble_err (toDouble q * toDouble p)
  have h53 : (2 : ℚ) ^ 53 = 9007199254740992 := by norm_num
  rw [h53] at hq hp hx ⊢
  unfold doubleMul
  have hqa : |toDouble q| ≤ |q| + |q| / 9007199254740992 := by
    have := abs_sub_abs_le_abs_sub (toDouble q) q
    linarith
  have hpa : |toDouble p| ≤ |p| + |p| / 9007199254740992 := by
    have := abs_sub_abs_le_abs_sub (toDouble p) p
    linarith
  have h0q : 0 ≤ |q| := abs_nonneg _
  have h0p : 0 ≤ |p| := abs_nonneg _
  have hprod : |toDouble q * toDouble p - q * p|
      ≤ |q| / 9007199254740992 * (|p| + |p| / 9007199254740992)
        + |q| * (|p| / 9007199254740992) := by
    have heq : toDouble q * toDouble p - q * p
        = (toDouble q - q) * toDouble p + q * (toDouble p - p) := by ring
    rw [heq]
    have h1 := abs_add ((toDouble q - q) * toDouble p) (q * (toDouble p - p))
    have h2 : |(toDouble q - q) * toDouble p|
        ≤ |q| / 9007199254740992 * (|p| + |p| / 9007199254740992) := by
      rw [abs_mul]
      exact mul_le_mul hq hpa (abs_nonneg _) (by positivity)
    have h3 : |q * (toDouble p - p)| ≤ |q| * (|p| / 9007199254740992) := by
      rw [abs_mul]
      exact mul_le_mul le_rfl hp (abs_nonneg _) h0q
    linarith
  have hqp : |q * p| = |q| * |p| := abs_mul q p
  have hm : 0 ≤ |q| * |p| := mul_nonneg h0q h0p
  have hxa : |toDouble q * toDouble p| ≤ |q| * |p| + 3 * (|q| * |p|) / 9007199254740992 := by
    have := abs_sub_abs_le_abs_sub (toDouble q * toDouble p) (q * p)
    have e1 : |q| / 9007199254740992 * (|p| + |p| / 9007199254740992)
        + |q| * (|p| / 9007199254740992)
        ≤ 3 * (|q| * |p|) / 9007199254740992 := by
      have : |q| / 9007199254740992 * (|p| + |p| / 9007199254740992)
          + |q| * (|p| / 9007199254740992)
          = (|q| * |p|) * (2 / 9007199254740992 + 1 / 9007199254740992 ^ 2) := by ring
      rw [this]
      have : (2 / 9007199254740992 + 1 / 9007199254740992 ^ 2 : ℚ)
          ≤ 3 / 9007199254740992 := by norm_num
      calc (|q| * |p|) * (2 / 9007199254740992 + 1 / 9007199254740992 ^ 2)
          ≤ (|q| * |p|) * (3 / 9007199254740992) := mul_le_mul_of_nonneg_left this hm
        _ = 3 * (|q| * |p|) / 9007199254740992 := by ring
    rw [hqp] at this
    linarith
  have hfin : |toDouble (toDouble q * toDouble p) - q * p|
      ≤ |toDouble q * toDouble p| / 9007199254740992
        + (|q| / 9007199254740992 * (|p| + |p| / 9007199254740992)
          + |q| * (|p| / 9007199254740992)) := by
    have heq : toDouble (toDouble q * toDouble p) - q * p
        = (toDouble (toDouble q * toDouble p) - toDouble q * toDouble p)
          + (toDouble q * toDouble p - q * p) := by ring
    rw [heq]
    have := abs_add (toDouble (toDouble q * toDouble p) - toDouble q * toDouble p)
      (toDouble q * toDouble p - q * p)
    linarith
  have hdiv : |toDouble q * toDouble p| / 9007199254740992
      ≤ (|q| * |p| + 3 * (|q| * |p|) / 9007199254740992) / 9007199254740992 :=
    div_le_div_of_nonneg_right hxa (by norm_num)
  have hsum : (|q| * |p| + 3 * (|q| * |p|) / 9007199254740992) / 9007199254740992
      + (|q| / 9007199254740992 * (|p| + |p| / 9007199254740992)
        + |q| * (|p| / 9007199254740992))
      ≤ 4 * (|q| * |p|) / 9007199254740992 := by
    have : (|q| * |p| + 3 * (|q| * |p|) / 9007199254740992) / 9007199254740992
        + (|q| / 9007199254740992 * (|p| + |p| / 9007199254740992)
          + |q| * (|p| / 9007199254740992))
        = (|q| * |p|) * (3 / 9007199254740992 + 4 / 9007199254740992 ^ 2) := by ring
    rw [this]
    have hc : (3 / 9007199254740992 + 4 / 9007199254740992 ^ 2 : ℚ)
        ≤ 4 / 9007199254740992 := by norm_num
    calc (|q| * |p|) * (3 / 9007199254740992 + 4 / 9007199254740992 ^ 2)
        ≤ (|q| * |p|) * (4 / 9007199254740992) := mul_le_mul_of_nonneg_left hc hm
      _ = 4 * (|q| * |p|) / 9007199254740992 := by ring
  rw [hqp]
  linarith

/-- An item of quantity `q` and a unit price of `k` hundredths, with `q × k` below
`10 ^ 12`, has the total price `q × k` hundredths. -/
theorem bindDecimal2_lineTotal (item : InvoiceItemInput) (k : Int)
    (hk : item.unit_price = ofCents k) (hw : |((item.quantity * k : Int) : ℚ)| ≤ 10 ^ 12) :
    bindDecimal2 (lineTotal item) = item.quantity * k := by
  apply bindDecimal2_near _ _ hw
  have h := doubleMul_err (item.quantity : ℚ) item.unit_price
  have heq : (item.quantity : ℚ) * item.unit_price = ofCents (item.quantity * k) := by
    rw [hk]
    unfold ofCents
    push_cast
    ring
  rw [heq] at h
  unfold lineTotal
  have h0 : 0 ≤ |ofCents (item.quantity * k)| := abs_nonneg _
  have : 4 * |ofCents (item.quantity * k)| / 2 ^ 53
      ≤ 8 * |ofCents (item.quantity * k)| / 2 ^ 53 :=
    div_le_div_of_nonneg_right (by linarith) (by positivity)
  linarith

/-- The arithmetic of the totals: from the rounding error of each step of
`(subtotal - discountAmount + cuttingFee) * 0.15` and `subtotal - discountAmount +
cuttingFee + tax` to the distance between the stored tax and total and their exact
values. -/
theorem totals_arith (Sq Dq Cq s d c b1 b r t T st sT τ Θ : ℚ)
    (hS : |Sq| ≤ 10 ^ 10) (hD : |Dq| ≤ 10 ^ 10) (hC : |Cq| ≤ 10 ^ 10)
    (hs : |s - Sq| ≤ 1 / 1000) (hd : |d - Dq| ≤ 1 / 1000) (hc : |c - Cq| ≤ 1 / 1000)
    (hb1 : |b1 - (s - d)| ≤ |s - d| / 2 ^ 53)
    (hb : |b - (b1 + c)| ≤ |b1 + c| / 2 ^ 53)
    (hr : |r - 15 / 100| ≤ |(15 / 100 : ℚ)| / 2 ^ 53)
    (ht : |t - b * r| ≤ |b * r| / 2 ^ 53)
    (hT : |T - (b + t)| ≤ |b + t| / 2 ^ 53)
    (hst : |st - t| ≤ |st| / 2 ^ 53)
    (hsT : |sT - T| ≤ |sT| / 2 ^ 53)
    (hτ : |τ - st * 100| ≤ 1 / 2)
    (hΘ : |Θ - sT * 100| ≤ 1 / 2) :
    |τ - (Sq - Dq + Cq) * 15| < 1 ∧ |Θ - ((Sq - Dq + Cq) * 100 + τ)| < 2 := by
  have h53 : (2 : ℚ) ^ 53 = 9007199254740992 := by norm_num
  rw [h53] at hb1 hb hr ht hT hst hsT
  rw [abs_of_pos (by norm_num : (0 : ℚ) < 15 / 100)] at hr
  have b_s : |s| ≤ 11 * 10 ^ 9 := by
    have := abs_sub_abs_le_abs_sub s Sq
    linarith
  have b_d : |d| ≤ 11 * 10 ^ 9 := by
    have := abs_sub_abs_le_abs_sub d Dq
    linarith
  have b_c : |c| ≤ 11 * 10 ^ 9 := by
    have := abs_sub_abs_le_abs_sub c Cq
    linarith
  have b_sd : |s - d| ≤ 22 * 10 ^ 9 := by
    have := abs_sub s d
    linarith
  have b_b1 : |b1| ≤ 23 * 10 ^ 9 := by
    have := abs_sub_abs_le_abs_sub b1 (s - d)
    linarith
  have b_b1c : |b1 + c| ≤ 34 * 10 ^ 9 := by
    have := abs_add b1 c
    linarith
  have b_b : |b| ≤ 35 * 10 ^ 9 := by
    have := abs_sub_abs_le_abs_sub b (b1 + c)
    linarith
  have b_r : |r| ≤ 16 / 100 := by
    have := abs_sub_abs_le_abs_sub r (15 / 100)
    rw [abs_of_pos (by norm_num : (0 : ℚ) < 15 / 100)] at this
    linarith
  have b_br : |b * r| ≤ 6 * 10 ^ 9 := by
    rw [abs_mul]
    have h0 : 0 ≤ |b| := abs_nonneg _
    have h1 : 0 ≤ |r| := abs_nonneg _
    nlinarith
  have b_t : |t| ≤ 7 * 10 ^ 9 := by
    have := abs_sub_abs_le_abs_sub t (b * r)
    linarith
  have b_bt : |b + t| ≤ 42 * 10 ^ 9 := by
    have := abs_add b t
    linarith
  have b_T : |T| ≤ 43 * 10 ^ 9 := by
    have := abs_sub_abs_le_abs_sub T (b + t)
    linarith
  have b_st : |st| ≤ 8 * 10 ^ 9 := by
    have := abs_sub_abs_le_abs_sub st t
    have h0 : 0 ≤ |st| := abs_nonneg _
    linarith
  have b_sT : |sT| ≤ 44 * 10 ^ 9 := by
    have := abs_sub_abs_le_abs_sub sT T
    have h0 : 0 ≤ |sT| := abs_nonneg _
    linarith
  have hsmall : (44 * 10 ^ 9 / 9007199254740992 : ℚ) ≤ 1 / 100000 := by norm_num
  have t1 : |st - t| ≤ 1 / 100000 := by linarith
  have t2 : |t - b * r| ≤ 1 / 100000 := by linarith
  have t3 : |sT - T| ≤ 1 / 100000 := by linarith
  have t4 : |T - (b + t)| ≤ 1 / 100000 := by linarith
  have e_b : |b - (Sq - Dq + Cq)| ≤ 4 / 1000 := by
    have heq : b - (Sq - Dq + Cq)
        = (b - (b1 + c)) + (b1 - (s - d)) + (s - Sq) - (d - Dq) + (c - Cq) := by ring
    rw [heq]
    have h1 := abs_add ((b - (b1 + c)) + (b1 - (s - d)) + (s - Sq) - (d - Dq)) (c - Cq)
    have h2 := abs_sub ((b - (b1 + c)) + (b1 - (s - d)) + (s - Sq)) (d - Dq)
    have h3 := abs_add ((b - (b1 + c)) + (b1 - (s - d))) (s - Sq)
    have h4 := abs_add (b - (b1 + c)) (b1 - (s - d))
    linarith
  have e_br : |b * r - (Sq - Dq + Cq) * (15 / 100)| ≤ 1 / 1000 := by
    have heq : b * r - (Sq - Dq + Cq) * (15 / 100)
        = (b - (Sq - Dq + Cq)) * r + (Sq - Dq + Cq) * (r - 15 / 100) := by ring
    rw [heq]
    have hB : |Sq - Dq + Cq| ≤ 3 * 10 ^ 10 := by
      have := abs_add (Sq - Dq) Cq
      have := abs_sub Sq Dq
      linarith
    have h1 : |(b - (Sq - Dq + Cq)) * r| ≤ 4 / 1000 * (16 / 100) := by
      rw [abs_mul]
      exact mul_le_mul e_b b_r (abs_nonneg _) (by positivity)
    have h2 : |(Sq - Dq + Cq) * (r - 15 / 100)|
        ≤ 3 * 10 ^ 10 * (15 / 100 / 9007199254740992) := by
      rw [abs_mul]
      exact mul_le_mul hB hr (abs_nonneg _) (by positivity)
    have h3 := abs_add ((b - (Sq - Dq + Cq)) * r) ((Sq - Dq + Cq) * (r - 15 / 100))
    have n2 : (3 * 10 ^ 10 * (15 / 100 / 9007199254740992) : ℚ) ≤ 1 / 100000 := by norm_num
    linarith
  rw [abs_le] at hτ hΘ t1 t2 t3 t4 e_b e_br
  constructor
  · rw [abs_lt]
    constructor <;> linarith
  · rw [abs_lt]
    constructor <;> linarith

theorem parseDecimalOrZero_eq (o : Option Int) :
    parseDecimalOrZero o = toDouble (ofCents (o.getD 0)) := by
  cases o with
  | none => simp [parseDecimalOrZero, ofCents, toDouble]
  | some c => rfl

/-- The tax and the total computed in doubles from a subtotal, a discount and a fee that
are each within a thousandth of a number of hundredths of at most `10 ^ 12`: the stored
tax is within one hundredth of 15% of `subtotal − discount + fee`, and the stored total is
within one hundredth of `subtotal − discount + fee` plus the stored tax. -/
theorem computed_totals_near (s d c : ℚ) (S D C : Int) (hS : |(S : ℚ)| ≤ 10 ^ 12)
    (hD : |(D : ℚ)| ≤ 10 ^ 12) (hC : |(C : ℚ)| ≤ 10 ^ 12)
    (hs : |s - ofCents S| ≤ 1 / 1000) (hd : |d - ofCents D| ≤ 1 / 1000)
    (hc : |c - ofCents C| ≤ 1 / 1000) :
    |(bindDecimal2 (taxOf (taxedBase s d c)) : ℚ) - ((S : ℚ) - D + C) * (15 / 100)| < 1 ∧
    |bindDecimal2 (totalOf (taxedBase s d c))
      - (S - D + C + bindDecimal2 (taxOf (taxedBase s d c)))| ≤ 1 := by
  have hcents : ∀ n : Int, |(n : ℚ)| ≤ 10 ^ 12 → |ofCents n| ≤ 10 ^ 10 := by
    intro n hn
    unfold ofCents
    rw [abs_div, abs_of_pos (by norm_num : (0 : ℚ) < 100), div_le_iff₀ (by norm_num)]
    linarith
  unfold totalOf taxOf taxedBase doubleAdd doubleSub doubleMul bindDecimal2 taxRate
  obtain ⟨h1, h2⟩ := totals_arith (ofCents S) (ofCents D) (ofCents C) s d c _ _ _ _ _ _ _ _ _
    (hcents S hS) (hcents D hD) (hcents C hC) hs hd hc
    (toDouble_err (s - d))
    (toDouble_err (toDouble (s - d) + c))
    (toDouble_err (15 / 100))
    (toDouble_err (toDouble (toDouble (s - d) + c) * toDouble (15 / 100)))
    (toDouble_err (toDouble (toDouble (s - d) + c)
      + toDouble (toDouble (toDouble (s - d) + c) * toDouble (15 / 100))))
    (shortestDecimal_err _) (shortestDecimal_err _) (decimal2_err _) (decimal2_err _)
  have hoS : ofCents S = (S : ℚ) / 100 := rfl
  have hoD : ofCents D = (D : ℚ) / 100 := rfl
  have hoC : ofCents C = (C : ℚ) / 100 := rfl
  constructor
  · have heq : ((S : ℚ) - D + C) * (15 / 100) = (ofCents S - ofCents D + ofCents C) * 15 := by
      rw [hoS, hoD, hoC]
      ring
    rw [heq]
    exact h1
  · have heq : (ofCents S - ofCents D + ofCents C) * 100 = ((S - D + C : Int) : ℚ) := by
      rw [hoS, hoD, hoC]
      push_cast
      ring
    rw [heq] at h2
    have hz : |decimal2 (shortestDecimal (toDouble (toDouble (toDouble (s - d) + c)
        + toDouble (toDouble (toDouble (s - d) + c) * toDouble (15 / 100)))))
        - (S - D + C + decimal2 (shortestDecimal (toDouble (toDouble (toDouble (s - d) + c)
          * toDouble (15 / 100)))))| < 2 := by
      have h3 := h2
      rw [← Int.cast_add, ← Int.cast_sub, ← Int.cast_abs] at h3
      exact_mod_cast h3
    rw [abs_lt] at hz
    rw [abs_le]
    constructor <;> omega

/-- A double read from a number of hundredths of at most `10 ^ 12` is within a thousandth
of it. -/
theorem toDouble_ofCents_close (n : Int) (hn : |(n : ℚ)| ≤ 10 ^ 12) :
    |toDouble (ofCents n) - ofCents n| ≤ 1 / 1000 := by
  have hcents : |ofCents n| ≤ 10 ^ 10 := by
    unfold ofCents
    rw [abs_div, abs_of_pos (by norm_num : (0 : ℚ) < 100), div_le_iff₀ (by norm_num)]
    linarith
  have h1 := toDouble_err (ofCents n)
  have h2 : |ofCents n| / 2 ^ 53 ≤ 10 ^ 10 / 2 ^ 53 :=
    div_le_div_of_nonneg_right hcents (by positivity)
  have h3 : ((10 : ℚ) ^ 10 / 2 ^ 53) ≤ 1 / 1000 := by norm_num
  linarith

/-- The totals that `updateInvoiceTotals` writes for stored amounts of at most `10 ^ 12`
hundredths: the tax is within one hundredth of 15% of `subtotal − discount + fee`, and the
total is within one hundredth of `subtotal − discount + fee` plus the stored tax. -/
theorem recomputed_totals_near (S D C : Int) (hS : |(S : ℚ)| ≤ 10 ^ 12)
    (hD : |(D : ℚ)| ≤ 10 ^ 12) (hC : |(C : ℚ)| ≤ 10 ^ 12) :
    |(bindDecimal2 (taxOf (taxedBase (toDouble (ofCents S)) (toDouble (ofCents D))
        (toDouble (ofCents C)))) : ℚ) - ((S : ℚ) - D + C) * (15 / 100)| < 1 ∧
    |bindDecimal2 (totalOf (taxedBase (toDouble (ofCents S)) (toDouble (ofCents D))
        (toDouble (ofCents C))))
      - (S - D + C + bindDecimal2 (taxOf (taxedBase (toDouble (ofCents S))
        (toDouble (ofCents D)) (toDouble (ofCents C)))))| ≤ 1 :=
  computed_totals_near _ _ _ S D C hS hD hC (toDouble_ofCents_close S hS)
    (toDouble_ofCents_close D hD) (toDouble_ofCents_close C hC)

/-- A double within a thousandth of a number of hundredths below `10 ^ 12` is written to a
`DECIMAL(p,2)` column as that number of hundredths. -/
theorem bindDecimal2_close (x : ℚ) (n : Int) (hn : |(n : ℚ)| ≤ 10 ^ 12)
    (hx : |x - ofCents n| ≤ 1 / 1000) : bindDecimal2 x = n := by
  unfold bindDecimal2
  apply decimal2_near
  have hs := shortestDecimal_err x
  have h53 : (2 : ℚ) ^ 53 = 9007199254740992 := by norm_num
  rw [h53] at hs
  have hv : |ofCents n| ≤ 10 ^ 10 := by
    unfold ofCents
    rw [abs_div, abs_of_pos (by norm_num : (0 : ℚ) < 100), div_le_iff₀ (by norm_num)]
    linarith
  have hxa : |x| ≤ 10 ^ 10 + 1 / 1000 := by
    have := abs_sub_abs_le_abs_sub x (ofCents n)
    linarith
  have hsa : |shortestDecimal x| ≤ |x| + |shortestDecimal x| / 9007199254740992 := by
    have := abs_sub_abs_le_abs_sub (shortestDecimal x) x
    linarith
  have hsb : |shortestDecimal x| ≤ 3 * 10 ^ 10 := by linarith
  have hd : |shortestDecimal x - ofCents n| ≤ 2 / 1000 := by
    have h1 : shortestDecimal x - ofCents n = (shortestDecimal x - x) + (x - ofCents n) := by
      ring
    rw [h1]
    have h2 := abs_add (shortestDecimal x - x) (x - ofCents n)
    have : |shortestDecimal x| / 9007199254740992 ≤ 3 * 10 ^ 10 / 9007199254740992 :=
      div_le_div_of_nonneg_right hsb (by norm_num)
    have hn3 : (3 * 10 ^ 10 / 9007199254740992 : ℚ) ≤ 1 / 1000 := by norm_num
    linarith
  have heq : shortestDecimal x * 100 - (n : ℚ) = (shortestDecimal x - ofCents n) * 100 := by
    unfold ofCents
    ring
  rw [heq, abs_mul, abs_of_pos (by norm_num : (0 : ℚ) < 100)]
  linarith

/-- One round of the loop `subtotal += item.quantity * item.unit_price` on amounts of
hundredths below `10 ^ 12`. -/
theorem subtotal_step (acc : ℚ) (A : Int) (it : InvoiceItemInput) (E : ℚ)
    (h2 : it.unit_price = ofCents (decimal2 it.unit_price))
    (hA : |(A : ℚ)| ≤ 10 ^ 12) (hT : |(exactLine it : ℚ)| ≤ 10 ^ 12)
    (hE : |acc - ofCents A| ≤ E) (hE1 : E ≤ 1) :
    |doubleAdd acc (lineTotal it) - ofCents (A + exactLine it)|
      ≤ E + 7 * 10 ^ 10 / 2 ^ 53 := by
  have hmul := doubleMul_err (it.quantity : ℚ) it.unit_price
  have heq : (it.quantity : ℚ) * it.unit_price = ofCents (exactLine it) := by
    conv_lhs => rw [h2]
    unfold ofCents exactLine
    push_cast
    ring
  rw [heq] at hmul
  have hline : lineTotal it = doubleMul (toDouble it.quantity) (toDouble it.unit_price) := rfl
  rw [← hline] at hmul
  have hadd := toDouble_err (acc + lineTotal it)
  have h53 : (2 : ℚ) ^ 53 = 9007199254740992 := by norm_num
  rw [h53] at hmul hadd ⊢
  have hcents : ∀ n : Int, |(n : ℚ)| ≤ 10 ^ 12 → |ofCents n| ≤ 10 ^ 10 := by
    intro n hn
    unfold ofCents
    rw [abs_div, abs_of_pos (by norm_num : (0 : ℚ) < 100), div_le_iff₀ (by norm_num)]
    linarith
  have hAq := hcents A hA
  have hTq := hcents _ hT
  have hmul' : |lineTotal it - ofCents (exactLine it)| ≤ 4 * 10 ^ 10 / 9007199254740992 := by
    have : 4 * |ofCents (exactLine it)| / 9007199254740992
        ≤ 4 * 10 ^ 10 / 9007199254740992 :=
      div_le_div_of_nonneg_right (by linarith) (by norm_num)
    linarith
  have hsum : |acc + lineTotal it| ≤ 3 * 10 ^ 10 := by
    have h1 := abs_add acc (lineTotal it)
    have h2 := abs_sub_abs_le_abs_sub acc (ofCents A)
    have h3 := abs_sub_abs_le_abs_sub (lineTotal it) (ofCents (exactLine it))
    have hn : (4 * 10 ^ 10 / 9007199254740992 : ℚ) ≤ 1 := by norm_num
    linarith
  have hadd' : |toDouble (acc + lineTotal it) - (acc + lineTotal it)|
      ≤ 3 * 10 ^ 10 / 9007199254740992 := by
    have : |acc + lineTotal it| / 9007199254740992 ≤ 3 * 10 ^ 10 / 9007199254740992 :=
      div_le_div_of_nonneg_right hsum (by norm_num)
    linarith
  unfold doubleAdd
  have hsplit : toDouble (acc + lineTotal it) - ofCents (A + exactLine it)
      = (toDouble (acc + lineTotal it) - (acc + lineTotal it)) + (acc - ofCents A)
        + (lineTotal it - ofCents (exactLine it)) := by
    unfold ofCents
    push_cast
    ring
  rw [hsplit]
  have h1 := abs_add ((toDouble (acc + lineTotal it) - (acc + lineTotal it)) + (acc - ofCents A))
    (lineTotal it - ofCents (exactLine it))
  have h2 := abs_add (toDouble (acc + lineTotal it) - (acc + lineTotal it)) (acc - ofCents A)
  have hn : (3 * 10 ^ 10 / 9007199254740992 + 4 * 10 ^ 10 / 9007199254740992 : ℚ)
      = 7 * 10 ^ 10 / 9007199254740992 := by norm_num
  linarith

/-- The loop `subtotal += item.quantity * item.unit_price` over items with unit prices of
at most two decimals whose exact totals, taken without sign, sum up to at most `10 ^ 12`
hundredths: each round adds an error of at most `7 · 10¹⁰ · 2⁻⁵³`. -/
theorem subtotal_loop : ∀ (items : List InvoiceItemInput) (acc : ℚ) (A : Int) (E : ℚ),
    (∀ it ∈ items, it.unit_price = ofCents (decimal2 it.unit_price)) →
    |(A : ℚ)| + ((items.map (fun it => |exactLine it|)).sum : Int) ≤ 10 ^ 12 →
    |acc - ofCents A| ≤ E →
    E + items.length * (7 * 10 ^ 10 / 2 ^ 53) ≤ 1 →
    |items.foldl (fun subtotal item => doubleAdd subtotal (lineTotal item)) acc
        - ofCents (A + (items.map exactLine).sum)|
      ≤ E + items.length * (7 * 10 ^ 10 / 2 ^ 53)
  | [], acc, A, E, _, _, hE, _ => by
    simpa using hE
  | it :: rest, acc, A, E, h2, hb, hE, hn => by
    have hsum0 : (0 : ℚ) ≤ ((rest.map (fun it => |exactLine it|)).sum : Int) := by
      have : (0 : Int) ≤ (rest.map (fun it => |exactLine it|)).sum := by
        apply List.sum_nonneg
        intro x hx
        obtain ⟨y, _, rfl⟩ := List.mem_map.1 hx
        exact abs_nonneg _
      exact_mod_cast this
    have hline0 : (0 : ℚ) ≤ |(exactLine it : ℚ)| := abs_nonneg _
    have hA0 : (0 : ℚ) ≤ |(A : ℚ)| := abs_nonneg _
    have hb' : |(A : ℚ)| + (|(exactLine it : ℚ)|
        + ((rest.map (fun it => |exactLine it|)).sum : Int)) ≤ 10 ^ 12 := by
      have := hb
      simp only [List.map_cons, List.sum_cons] at this
      rw [Int.cast_add, Int.cast_abs] at this
      exact this
    have hn' : E + ((rest.length : ℚ) + 1) * (7 * 10 ^ 10 / 2 ^ 53) ≤ 1 := by
      have := hn
      simp only [List.length_cons] at this
      push_cast at this
      exact this
    have hpos : (0 : ℚ) ≤ (rest.length : ℚ) * (7 * 10 ^ 10 / 2 ^ 53) := by positivity
    have hstepc : (0 : ℚ) ≤ 7 * 10 ^ 10 / 2 ^ 53 := by positivity
    have hstep := subtotal_step acc A it E (h2 it (List.mem_cons_self _ _))
      (by linarith) (by linarith) hE (by linarith)
    have hA' : |((A + exactLine it : Int) : ℚ)|
        + ((rest.map (fun it => |exactLine it|)).sum : Int) ≤ 10 ^ 12 := by
      have := abs_add (A : ℚ) (exactLine it : ℚ)
      rw [Int.cast_add]
      linarith
    have ih := subtotal_loop rest (doubleAdd acc (lineTotal it)) (A + exactLine it)
      (E + 7 * 10 ^ 10 / 2 ^ 53) (fun x hx => h2 x (List.mem_cons_of_mem _ hx)) hA' hstep
      (by linarith)
    simp only [List.map_cons, List.sum_cons, List.length_cons]
    push_cast
    simp only [List.foldl_cons]
    have heq : A + (exactLine it + (rest.map exactLine).sum)
        = A + exactLine it + (rest.map exactLine).sum := by ring
    rw [heq]
    linarith

/-! ## The item loop of the invoice requests -/

theorem insertItems_nil (invoiceId : Nat) (db : DB) : insertItems invoiceId [] db = .ok db := rfl

theorem insertItems_cons (invoiceId : Nat) (item : InvoiceItemInput)
    (rest : List InvoiceItemInput) (db : DB) :
    insertItems invoiceId (item :: rest) db =
      (db.insertInvoiceItem invoiceId item.material_name (orEmpty item.description)
        item.quantity (toDouble item.unit_price) (lineTotal item)
        (orNull item.material_id) (orEmpty item.notes)).bind (insertItems invoiceId rest) := by
  simp only [insertItems, List.foldlM_cons]
  rfl

theorem insertItems_ok {invoiceId : Nat} {items : List InvoiceItemInput} {db db' : DB}
    (h : insertItems invoiceId items db = .ok db') :
    db' = { db with
      invoice_items := db.invoice_items ++ itemRows invoiceId db.next_invoice_item_id items
      next_invoice_item_id := db.next_invoice_item_id + items.length } := by
  induction items generalizing db with
  | nil =>
    rw [insertItems_nil] at h
    cases h
    simp [itemRows]
  | cons item rest ih =>
    rw [insertItems_cons] at h
    unfold DB.insertInvoiceItem at h
    split_ifs at h with h1 h2
    · cases h
    · cases h
    · simp only [Except.bind] at h
      rw [ih h]
      simp [itemRows, Nat.add_assoc, Nat.add_comm 1]

theorem insertItems_succeeds (invoiceId : Nat) (items : List InvoiceItemInput) (db : DB)
    (hi : db.invoices.any (fun i => i.id == invoiceId) = true)
    (hm : items.all (fun it => db.materialRefOk (orNull it.material_id)) = true) :
    insertItems invoiceId items db = .ok { db with
      invoice_items := db.invoice_items ++ itemRows invoiceId db.next_invoice_item_id items
      next_invoice_item_id := db.next_invoice_item_id + items.length } := by
  induction items generalizing db with
  | nil => simp [insertItems_nil, itemRows]
  | cons item rest ih =>
    rw [List.all_cons, Bool.and_eq_true] at hm
    rw [insertItems_cons]
    unfold DB.insertInvoiceItem
    rw [if_neg (by simp only [hi]; simp), if_neg (by simp only [hm.1]; simp)]
    simp only [Except.bind]
    rw [ih _ (by simpa using hi) (by simpa [DB.materialRefOk] using hm.2)]
    simp [itemRows, Nat.add_assoc, Nat.add_comm 1]

theorem itemRows_forall₂ (invoiceId start : Nat) (items : List InvoiceItemInput) :
    List.Forall₂ (fun (row : InvoiceItem) (it : InvoiceItemInput) =>
      row.invoice_id = invoiceId ∧ row.quantity = it.quantity ∧
      row.unit_price = bindDecimal2 (toDouble it.unit_price) ∧
      row.total_price = bindDecimal2 (lineTotal it))
      (itemRows invoiceId start items) items := by
  induction items generalizing start with
  | nil => exact List.Forall₂.nil
  | cons item rest ih => exact List.Forall₂.cons ⟨rfl, rfl, rfl, rfl⟩ (ih _)

theorem itemRows_invoice_id (invoiceId start : Nat) (items : List InvoiceItemInput) :
    ∀ row ∈ itemRows invoiceId start items, row.invoice_id = invoiceId := by
  induction items generalizing start with
  | nil => simp [itemRows]
  | cons item rest ih =>
    intro row hrow
    simp only [itemRows, List.mem_cons] at hrow
    rcases hrow with h | h
    · rw [h]
    · exact ih _ _ h

theorem itemRows_total_sum (invoiceId start : Nat) (items : List InvoiceItemInput) :
    ((itemRows invoiceId start items).map (fun r => r.total_price)).sum =
      (items.map (fun it => bindDecimal2 (lineTotal it))).sum := by
  induction items generalizing start with
  | nil => simp [itemRows]
  | cons item rest ih => simp [itemRows, ih]

/-! ## The totals of a request with two-decimal amounts -/

theorem abs_exactLine_sum_le (items : List InvoiceItemInput) :
    |(items.map exactLine).sum| ≤ (items.map (fun it => |exactLine it|)).sum := by
  induction items with
  | nil => simp
  | cons it rest ih =>
    simp only [List.map_cons, List.sum_cons]
    have := abs_add (exactLine it) (rest.map exactLine).sum
    omega

theorem abs_exactLine_le_sum (items : List InvoiceItemInput) :
    ∀ it ∈ items, |exactLine it| ≤ (items.map (fun it => |exactLine it|)).sum := by
  induction items with
  | nil => simp
  | cons i rest ih =>
    intro it hit
    have h0 : (0 : Int) ≤ (rest.map (fun it => |exactLine it|)).sum := by
      apply List.sum_nonneg
      intro x hx
      rw [List.mem_map] at hx
      obtain ⟨y, _, rfl⟩ := hx
      exact abs_nonneg _
    simp only [List.map_cons, List.sum_cons]
    rcases List.mem_cons.mp hit with rfl | hmem
    · omega
    · have := ih it hmem
      have := abs_nonneg (exactLine i)
      omega

theorem parseFloatOrZero_eq (o : Option ℚ) : parseFloatOrZero o = toDouble (o.getD 0) := by
  cases o with
  | none => simp [parseFloatOrZero, toDouble]
  | some q => rfl

theorem parseFloatOrZero_close (o : Option ℚ)
    (h2 : o.getD 0 = ofCents (decimal2 (o.getD 0)))
    (hw : |decimal2 (o.getD 0)| ≤ 10 ^ 12) :
    |parseFloatOrZero o - ofCents (decimal2 (o.getD 0))| ≤ 1 / 1000 := by
  have hq : |((decimal2 (o.getD 0) : Int) : ℚ)| ≤ 10 ^ 12 := by
    rw [← Int.cast_abs]
    exact_mod_cast hw
  have h := toDouble_ofCents_close (decimal2 (o.getD 0)) hq
  have e : toDouble (o.getD 0) = toDouble (ofCents (decimal2 (o.getD 0))) :=
    congrArg toDouble h2
  rw [parseFloatOrZero_eq, e]
  exact h

/-- The subtotal that the handlers compute for a request with two-decimal amounts within
the width of the columns is within a thousandth of the exact sum of its items. -/
theorem itemsSubtotal_close (req : InvoiceInput) (h : req.TwoDecimalsFit) :
    |itemsSubtotal req.items - ofCents (req.items.map exactLine).sum| ≤ 1 / 1000 := by
  obtain ⟨h2, _, _, hlen, hsum, _, _⟩ := h
  have hq : (((req.items.map (fun it => |exactLine it|)).sum : Int) : ℚ) ≤ 10 ^ 12 := by
    exact_mod_cast hsum
  have hl : ((req.items.length : Nat) : ℚ) ≤ 100 := by exact_mod_cast hlen
  have h7 : (7 * 10 ^ 10 / 2 ^ 53 : ℚ) ≤ 1 / 100000 := by norm_num
  have h70 : (0 : ℚ) ≤ 7 * 10 ^ 10 / 2 ^ 53 := by positivity
  have hmul : (req.items.length : ℚ) * (7 * 10 ^ 10 / 2 ^ 53) ≤ 100 * (1 / 100000) :=
    mul_le_mul hl h7 h70 (by norm_num)
  have hloop := subtotal_loop req.items 0 0 0 h2
    (by simp only [Int.cast_zero, abs_zero, zero_add]; exact hq)
    (by simp [ofCents])
    (by linarith)
  unfold itemsSubtotal
  rw [zero_add] at hloop
  linarith

/-- The totals that the handlers of `POST /invoices` and `PUT /invoices/:id` store for a
request with two-decimal amounts within the width of the columns: the subtotal, the
discount and the fee are stored exactly, the tax is within one hundredth of 15% of
`subtotal − discount + fee`, and the total is within one hundredth of
`subtotal − discount + fee` plus the stored tax. -/
theorem request_totals (req : InvoiceInput) (h : req.TwoDecimalsFit) :
    bindDecimal2 (itemsSubtotal req.items) = (req.items.map exactLine).sum ∧
    bindDecimal2 (parseFloatOrZero req.discount) = decimal2 (req.discount.getD 0) ∧
    bindDecimal2 (parseFloatOrZero req.cutting_fee) = decimal2 (req.cutting_fee.getD 0) ∧
    |(bindDecimal2 (taxOf (computedBase req)) : ℚ)
      - ((((req.items.map exactLine).sum : Int) : ℚ) - decimal2 (req.discount.getD 0)
        + decimal2 (req.cutting_fee.getD 0)) * (15 / 100)| < 1 ∧
    |bindDecimal2 (totalOf (computedBase req))
      - ((req.items.map exactLine).sum - decimal2 (req.discount.getD 0)
        + decimal2 (req.cutting_fee.getD 0) + bindDecimal2 (taxOf (computedBase req)))| ≤ 1 := by
  have hs := itemsSubtotal_close req h
  obtain ⟨h2, hd2, hc2, hlen, hsum, hD, hC⟩ := h
  have hS : |(((req.items.map exactLine).sum : Int) : ℚ)| ≤ 10 ^ 12 := by
    rw [← Int.cast_abs]
    exact_mod_cast le_trans (abs_exactLine_sum_le req.items) hsum
  have hDq : |((decimal2 (req.discount.getD 0) : Int) : ℚ)| ≤ 10 ^ 12 := by
    rw [← Int.cast_abs]
    exact_mod_cast hD
  have hCq : |((decimal2 (req.cutting_fee.getD 0) : Int) : ℚ)| ≤ 10 ^ 12 := by
    rw [← Int.cast_abs]
    exact_mod_cast hC
  have hd := parseFloatOrZero_close req.discount hd2 hD
  have hc := parseFloatOrZero_close req.cutting_fee hc2 hC
  refine ⟨bindDecimal2_close _ _ hS hs, bindDecimal2_close _ _ hDq hd,
    bindDecimal2_close _ _ hCq hc, ?_⟩
  exact computed_totals_near _ _ _ _ _ _ hS hDq hCq hs hd hc

/-- The item rows of a request with two-decimal amounts within the width of the columns
store the exact item totals. -/
theorem itemRows_total_price (invoiceId start : Nat) (items : List InvoiceItemInput)
    (h2 : ∀ it ∈ items, it.unit_price = ofCents (decimal2 it.unit_price))
    (hw : ∀ it ∈ items, |exactLine it| ≤ 10 ^ 12) :
    (itemRows invoiceId start items).map (fun r => r.total_price) = items.map exactLine := by
  induction items generalizing start with
  | nil => simp [itemRows]
  | cons item rest ih =>
    have hq : |((item.quantity * decimal2 item.unit_price : Int) : ℚ)| ≤ 10 ^ 12 := by
      have := hw item (List.mem_cons_self _ _)
      unfold exactLine at this
      rw [← Int.cast_abs]
      exact_mod_cast this
    simp only [itemRows, List.map_cons]
    rw [ih _ (fun it hit => h2 it (List.mem_cons_of_mem _ hit))
      (fun it hit => hw it (List.mem_cons_of_mem _ hit)),
      bindDecimal2_lineTotal item _ (h2 item (List.mem_cons_self _ _)) hq]
    rfl

theorem request_item_totals (invoiceId start : Nat) (req : InvoiceInput)
    (h : req.TwoDecimalsFit) :
    (itemRows invoiceId start req.items).map (fun r => r.total_price)
      = req.items.map exactLine :=
  itemRows_total_price invoiceId start req.items h.1
    (fun it hit => le_trans (abs_exactLine_le_sum req.items it hit) h.2.2.2.2.1)

/-- The row that createInvoice inserts for a request with two-decimal amounts within the
width of the columns. -/
theorem createdInvoice_near (db : DB) (now userId : Nat) (req : InvoiceInput)
    (h : req.TwoDecimalsFit) :
    (createdInvoice db now userId req).subtotal = (req.items.map exactLine).sum ∧
    TotalsNear (createdInvoice db now userId req) := by
  obtain ⟨hs, hd, hc, ht, hT⟩ := request_totals req h
  refine ⟨hs, ?_, ?_⟩
  · simp only [createdInvoice, Option.getD_some]
    rw [hs, hd, hc]
    exact ht
  · simp only [createdInvoice, Option.getD_some]
    rw [hs, hd, hc]
    exact hT

/-- The row that `PUT /invoices/:id` writes for a request with two-decimal amounts within
the width of the columns. -/
theorem rewrittenInvoice_near (now : Nat) (req : InvoiceInput) (row : Invoice)
    (h : req.TwoDecimalsFit) :
    (rewrittenInvoice now req row).subtotal = (req.items.map exactLine).sum ∧
    TotalsNear (rewrittenInvoice now req row) := by
  obtain ⟨hs, hd, hc, ht, hT⟩ := request_totals req h
  refine ⟨hs, ?_, ?_⟩
  · simp only [rewrittenInvoice, Option.getD_some]
    rw [hs, hd, hc]
    exact ht
  · simp only [rewrittenInvoice, Option.getD_some]
    rw [hs, hd, hc]
    exact hT

/-! ## Recomputing the totals of an invoice -/

theorem find?_map_update (l : List Invoice) (i : Nat) (f : Invoice → Invoice)
    (hf : ∀ x, (f x).id = x.id) :
    (l.map (fun x => if x.id = i then f x else x)).find? (fun x => x.id == i)
      = (l.find? (fun x => x.id == i)).map f := by
  induction l with
  | nil => rfl
  | cons a t ih =>
    by_cases h : a.id = i
    · simp [List.find?_cons, h, hf]
    · simp [List.find?_cons, h, ih]

theorem updateInvoiceTotals_some {db : DB} {invoiceId : Nat} {row : Invoice} (now : Nat)
    (h : db.invoice? invoiceId = some row) :
    updateInvoiceTotals db now invoiceId = .ok (recomputed db now invoiceId row) := by
  unfold updateInvoiceTotals recomputed retotalled storedBase
  rw [h]

theorem updateInvoiceTotals_none {db : DB} {invoiceId : Nat} (now : Nat)
    (h : db.invoice? invoiceId = none) :
    updateInvoiceTotals db now invoiceId = .error (typeErrorUndefined "cutting_fee") := by
  unfold updateInvoiceTotals
  rw [h]

theorem recomputed_invoice? (db : DB) (now invoiceId : Nat) (row : Invoice)
    (h : db.invoice? invoiceId = some row) :
    (recomputed db now invoiceId row).invoice? invoiceId
      = some (retotalled db now invoiceId row row) := by
  unfold DB.invoice? at h ⊢
  unfold recomputed
  simp only
  rw [find?_map_update db.invoices invoiceId (retotalled db now invoiceId row) (fun _ => rfl), h]
  rfl

theorem recomputed_sumItems (db : DB) (now invoiceId : Nat) (row : Invoice) (j : Nat) :
    (recomputed db now invoiceId row).sumItems j = db.sumItems j := rfl

theorem recomputed_totals (db : DB) (now invoiceId : Nat) (row : Invoice)
    (h : db.invoice? invoiceId = some row) :
    TotalsRecomputed (recomputed db now invoiceId row) invoiceId :=
  ⟨_, recomputed_invoice? db now invoiceId row h, rfl, rfl, rfl⟩

theorem updateInvoiceTotals_recomputed {db db' : DB} {now invoiceId : Nat}
    (h : updateInvoiceTotals db now invoiceId = .ok db') : TotalsRecomputed db' invoiceId := by
  cases hrow : db.invoice? invoiceId with
  | none =>
    rw [updateInvoiceTotals_none now hrow] at h
    cases h
  | some row =>
    rw [updateInvoiceTotals_some now hrow] at h
    cases h
    exact recomputed_totals db now invoiceId row hrow

/-! ## Creating an invoice -/

/-- The transaction of `POST /invoices` on a request whose inserts the store accepts. -/
theorem createInvoiceTx_succeeds (db : DB) (now userId : Nat) (req : InvoiceInput)
    (ho : ∃ o ∈ db.orders, o.id = req.order_id)
    (hu : ∀ i ∈ db.invoices, i.invoice_number ≠ "INV-" ++ toString now)
    (hm : ∀ it ∈ req.items, db.materialRefOk (orNull it.material_id) = true) :
    createInvoiceTx db now userId req = .ok (db.next_invoice_id,
      { db with
        invoices := db.invoices ++ [createdInvoice db now userId req]
        next_invoice_id := db.next_invoice_id + 1
        invoice_items := db.invoice_items ++
          itemRows db.next_invoice_id db.next_invoice_item_id req.items
        next_invoice_item_id := db.next_invoice_item_id + req.items.length }) := by
  have h1 : db.invoices.any (fun i => i.invoice_number == "INV-" ++ toString now) = false := by
    rw [List.any_eq_false]
    intro i hi
    simpa using hu i hi
  have h2 : db.orders.any (fun o => o.id == req.order_id) = true := by
    obtain ⟨o, ho, hid⟩ := ho
    rw [List.any_eq_true]
    exact ⟨o, ho, by simpa using hid⟩
  unfold createInvoiceTx DB.insertInvoice
  simp only [h1, h2]
  simp only [bind, Except.bind, Bool.false_eq_true, if_false, Bool.not_true, pure, Except.pure]
  rw [insertItems_succeeds]
  · simp [createdInvoice, computedBase, Option.getD]
  · simp
  · rw [List.all_eq_true]
    intro it hit
    simpa [DB.materialRefOk] using hm it hit

/-- The handler of `POST /invoices` past its validators and its two order checks. -/
theorem createInvoice_of_checks (db : DB) (now userId : Nat) (req : InvoiceInput)
    (hv : validateInvoiceBody req = [])
    (ho : ∃ o ∈ db.orders, o.id = req.order_id ∧ o.status = "completed")
    (hn : ∀ i ∈ db.invoices, i.order_id ≠ req.order_id) :
    createInvoice db now userId req =
      match createInvoiceTx db now userId req with
      | .error _ => (serverError, db)
      | .ok (_, db2) => (serverError, db2) := by
  have h1 : (db.orders.find? (fun o => o.id == req.order_id && o.status == "completed")).isSome := by
    rw [List.find?_isSome]
    obtain ⟨o, ho, hid, hs⟩ := ho
    exact ⟨o, ho, by simp [hid, hs]⟩
  have h2 : db.invoices.find? (fun i => i.order_id == req.order_id) = none := by
    rw [List.find?_eq_none]
    intro i hi
    simpa using hn i hi
  obtain ⟨o, ho'⟩ := Option.isSome_iff_exists.mp h1
  unfold createInvoice
  rw [if_neg (by simp [hv]), ho', h2]
  simp only [NotificationService]

/-- C1, as amended. A createInvoice request that passes the validators and the order
checks, and whose rows the store accepts (unused invoice number, existing materials;
the width of the columns is not represented), appends one invoice and one invoice item
per request item. The handler computes `Σ quantity × unit_price`,
`(Σ − discount + fee) × 0.15` and `Σ − discount + fee + tax` in double arithmetic, and the invoice stores each of the three doubles as its `DECIMAL(_,2)`
column rounds it, as subtotal, tax and total; every item row stores the double
`quantity × unit_price`, rounded likewise, as its total price. When the amounts of the
request have at most two decimals and are within the width of the columns, the subtotal
and the item totals are the exact ones, the tax is within one hundredth of 15% of
`subtotal − discount + fee`, and the total is within one hundredth of
`subtotal − discount + fee + tax`. -/
theorem createInvoice_stores_rounded_totals (db : DB) (now userId : Nat) (req : InvoiceInput)
    (hv : validateInvoiceBody req = [])
    (ho : ∃ o ∈ db.orders, o.id = req.order_id ∧ o.status = "completed")
    (hn : ∀ i ∈ db.invoices, i.order_id ≠ req.order_id)
    (hu : ∀ i ∈ db.invoices, i.invoice_number ≠ "INV-" ++ toString now)
    (hm : ∀ it ∈ req.items, db.materialRefOk (orNull it.material_id) = true) :
    ∃ inv rows,
      (createInvoice db now userId req).2.invoices = db.invoices ++ [inv] ∧
      (createInvoice db now userId req).2.invoice_items = db.invoice_items ++ rows ∧
      inv.order_id = req.order_id ∧
      inv.subtotal = bindDecimal2 (itemsSubtotal req.items) ∧
      inv.tax = bindDecimal2 (taxOf (computedBase req)) ∧
      inv.total_amount = bindDecimal2 (totalOf (computedBase req)) ∧
      List.Forall₂ (fun (row : InvoiceItem) (it : InvoiceItemInput) =>
        row.invoice_id = inv.id ∧ row.quantity = it.quantity ∧
        row.unit_price = bindDecimal2 (toDouble it.unit_price) ∧
        row.total_price = bindDecimal2 (lineTotal it)) rows req.items ∧
      (req.TwoDecimalsFit →
        inv.subtotal = (req.items.map exactLine).sum ∧
        rows.map (fun r => r.total_price) = req.items.map exactLine ∧
        TotalsNear inv) := by
  have hex : ∃ o ∈ db.orders, o.id = req.order_id := by
    obtain ⟨o, ho1, hid, _⟩ := ho
    exact ⟨o, ho1, hid⟩
  rw [createInvoice_of_checks db now userId req hv ho hn,
    createInvoiceTx_succeeds db now userId req hex hu hm]
  exact ⟨createdInvoice db now userId req, _, rfl, rfl, rfl, rfl, rfl, rfl,
    itemRows_forall₂ _ _ _, fun h => ⟨(createdInvoice_near db now userId req h).1,
      request_item_totals _ _ req h, (createdInvoice_near db now userId req h).2⟩⟩

/-- C1 at a request for 2 × 10 and 1 × 5 on order 1, whose amounts have two decimals:
subtotal 25.00, tax 3.75, total 28.75, item totals 20.00 and 5.00, and the tax and the
total are within one hundredth of the exact ones. -/
theorem createInvoice_stores_rounded_totals_witness :
    validateInvoiceBody (invoiceFor [lineItem 2 10, lineItem 1 5]) = [] ∧
    (invoiceFor [lineItem 2 10, lineItem 1 5]).TwoDecimalsFit ∧
    (∃ inv rows,
      (createInvoice storeWithOrder 5 1 (invoiceFor [lineItem 2 10, lineItem 1 5])).2.invoices
        = storeWithOrder.invoices ++ [inv] ∧
      (createInvoice storeWithOrder 5 1 (invoiceFor [lineItem 2 10, lineItem 1 5])).2.invoice_items
        = storeWithOrder.invoice_items ++ rows ∧
      inv.order_id = 1 ∧ inv.subtotal = 2500 ∧ inv.tax = 375 ∧ inv.total_amount = 2875 ∧
      rows.map (fun r => r.total_price) = [2000, 500] ∧ TotalsNear inv) := by
  have hfit : (invoiceFor [lineItem 2 10, lineItem 1 5]).TwoDecimalsFit := by
    unfold InvoiceInput.TwoDecimalsFit
    refine ⟨by decide!, by decide!, by decide!, by decide!, by decide!, by decide!,
      by decide!⟩
  refine ⟨by decide, hfit, ?_⟩
  obtain ⟨inv, rows, h1, h2, h3, h4, h5, h6, _, h8⟩ :=
    createInvoice_stores_rounded_totals storeWithOrder 5 1
      (invoiceFor [lineItem 2 10, lineItem 1 5]) (by decide) (by decide) (by decide)
      (by decide) (by decide)
  obtain ⟨_, hrows, hnear⟩ := h8 hfit
  refine ⟨inv, rows, h1, h2, h3, ?_, ?_, ?_, ?_, hnear⟩
  · rw [h4]; decide!
  · rw [h5]; decide!
  · rw [h6]; decide!
  · rw [hrows]; decide!

/-- C1 as stated fails: for one item 1 × 1.23 the tax `1.23 × 0.15 = 0.1845` and the
total `1.4145` are stored as 0.18 and 1.41. For one item 1 × 1.5 the stored tax is 0.22,
not even the exact tax 0.225 rounded to two decimals, which is 0.23: the double
`1.5 * 0.15` is `0.22499999999999998`. -/
theorem createInvoice_totals_counterexample :
    (∃ inv ∈ (createInvoice storeWithOrder 5 1 (invoiceFor [lineItem 1 (123 / 100)])).2.invoices,
      inv.order_id = 1 ∧
      ofCents inv.subtotal = requestSubtotal [lineItem 1 (123 / 100)] ∧
      ofCents inv.tax ≠ requestBase (invoiceFor [lineItem 1 (123 / 100)]) * (15 / 100) ∧
      ofCents inv.total_amount ≠ requestBase (invoiceFor [lineItem 1 (123 / 100)])
        + requestBase (invoiceFor [lineItem 1 (123 / 100)]) * (15 / 100)) ∧
    (createInvoice storeWithOrder 5 1 (invoiceFor [lineItem 1 (3 / 2)])).2.invoices.map
      (fun i => (i.subtotal, i.tax, i.total_amount)) = [(150, 22, 173)] ∧
    requestBase (invoiceFor [lineItem 1 (3 / 2)]) * (15 / 100) = 225 / 1000 ∧
    decimal2 (requestBase (invoiceFor [lineItem 1 (3 / 2)]) * (15 / 100)) = 23 := by
  decide!

/-! ## The item routes of an invoice -/

theorem addItem_success {db : DB} {now invoiceId : Nat} {item : InvoiceItemInput}
    (h : (addItem db now invoiceId item).1.success = true) :
    ∃ db1, db.insertInvoiceItem invoiceId item.material_name (orEmpty item.description)
        item.quantity (toDouble item.unit_price) (lineTotal item)
        (orNull item.material_id) (orEmpty item.notes) = .ok db1 ∧
      updateInvoiceTotals db1 now invoiceId = .ok (addItem db now invoiceId item).2 := by
  by_cases hv : validateItemBody item = []
  · cases h1 : db.insertInvoiceItem invoiceId item.material_name (orEmpty item.description)
        item.quantity (toDouble item.unit_price) (lineTotal item)
        (orNull item.material_id) (orEmpty item.notes) with
    | error e => simp [addItem, hv, h1, Response.success, serverError] at h
    | ok db1 =>
      cases h2 : updateInvoiceTotals db1 now invoiceId with
      | error e => simp [addItem, hv, h1, h2, Response.success, serverError] at h
      | ok db2 => exact ⟨db1, rfl, by simp [addItem, hv, h1, h2]⟩
  · simp [addItem, hv, Response.success] at h

theorem updateItem_success {db : DB} {now invoiceId itemId : Nat} {item : InvoiceItemInput}
    (h : (updateItem db now invoiceId itemId item).1.success = true) :
    updateInvoiceTotals (db.updateInvoiceItem itemId invoiceId item.material_name
        (orEmpty item.description) item.quantity (toDouble item.unit_price)
        (lineTotal item) (orNull item.material_id)
        (orEmpty item.notes)) now invoiceId
      = .ok (updateItem db now invoiceId itemId item).2 := by
  unfold updateItem at h ⊢
  split_ifs at h ⊢ with hv h1 h2
  · simp [Response.success] at h
  · simp [Response.success] at h
  · simp [Response.success, serverError] at h
  · cases h2 : updateInvoiceTotals (db.updateInvoiceItem itemId invoiceId item.material_name
        (orEmpty item.description) item.quantity (toDouble item.unit_price)
        (lineTotal item) (orNull item.material_id)
        (orEmpty item.notes)) now invoiceId with
    | error e => simp [h2, Response.success, serverError] at h
    | ok db2 => simp [h2]

theorem deleteItem_success {db : DB} {now invoiceId itemId : Nat}
    (h : (deleteItem db now invoiceId itemId).1.success = true) :
    updateInvoiceTotals (db.deleteInvoiceItem itemId invoiceId) now invoiceId
      = .ok (deleteItem db now invoiceId itemId).2 := by
  unfold deleteItem at h ⊢
  split_ifs at h ⊢ with h1
  · simp [Response.success] at h
  · cases h2 : updateInvoiceTotals (db.deleteInvoiceItem itemId invoiceId) now invoiceId with
    | error e => simp [h2, Response.success, serverError] at h
    | ok db2 => simp [h2]

theorem itemCall_success_recomputed (db : DB) (now invoiceId : Nat) (c : ItemCall)
    (h : (itemCall db now invoiceId c).1.success = true) :
    TotalsRecomputed (itemCall db now invoiceId c).2 invoiceId := by
  cases c with
  | add item =>
    obtain ⟨db1, _, h2⟩ := addItem_success h
    exact updateInvoiceTotals_recomputed h2
  | update itemId item =>
    exact updateInvoiceTotals_recomputed (updateItem_success h)
  | delete itemId =>
    exact updateInvoiceTotals_recomputed (deleteItem_success h)

theorem recomputed_near {db : DB} {invoiceId : Nat} (h : TotalsRecomputed db invoiceId)
    (hf : db.AmountsFit invoiceId) :
    ∃ inv, db.invoice? invoiceId = some inv ∧ inv.subtotal = db.sumItems invoiceId ∧
      TotalsNear inv := by
  obtain ⟨inv, hinv, hs, ht, htot⟩ := h
  obtain ⟨hS, hrow⟩ := hf
  obtain ⟨hD, hC⟩ := hrow inv hinv
  have hsub : inv.subtotal = db.sumItems invoiceId := by
    rw [hs]
    exact bindDecimal2_toDouble_ofCents _ hS
  have hnear := recomputed_totals_near (db.sumItems invoiceId) (inv.discount.getD 0)
    (inv.cutting_fee.getD 0) hS hD hC
  refine ⟨inv, hinv, hsub, ?_⟩
  unfold TotalsNear
  rw [ht, htot, hsub]
  unfold storedBase
  rw [parseDecimalOrZero_eq, parseDecimalOrZero_eq]
  exact hnear

/-- C2 fails. Invoice 1 holds 2 × 10 and 1 × 5 without fee or discount (25.00 / 3.75 /
28.75); addItem of 1 × 0.50 answers 201 and leaves subtotal 25.50, tax 3.82 and total
29.33, while 25.50 + 3.82 = 29.32. On the invoice of one item 1 × 0.20, addItem of
1 × 0.50 leaves 0.70 / 0.11 / 0.80, while 0.70 + 0.11 = 0.81. In both stores the subtotal
is the sum of the items' total prices. -/
theorem addItem_total_off_by_a_hundredth :
    storeWithInvoice.invoices.map
      (fun i => (i.id, i.subtotal, i.discount, i.cutting_fee, i.tax, i.total_amount))
      = [(1, 2500, some 0, some 0, 375, 2875)] ∧
    (addItem storeWithInvoice 6 1 (lineItem 1 (1 / 2))).1.status = 201 ∧
    (addItem storeWithInvoice 6 1 (lineItem 1 (1 / 2))).2.invoice_items.map
      (fun it => (it.invoice_id, it.total_price)) = [(1, 2000), (1, 500), (1, 50)] ∧
    (addItem storeWithInvoice 6 1 (lineItem 1 (1 / 2))).2.invoices.map
      (fun i => (i.id, i.subtotal, i.discount, i.cutting_fee, i.tax, i.total_amount))
      = [(1, 2550, some 0, some 0, 382, 2933)] ∧
    (2933 : Int) ≠ 2550 - 0 + 0 + 382 ∧
    (addItem storeWithSmallInvoice 6 1 (lineItem 1 (1 / 2))).1.status = 201 ∧
    (addItem storeWithSmallInvoice 6 1 (lineItem 1 (1 / 2))).2.invoice_items.map
      (fun it => (it.invoice_id, it.total_price)) = [(1, 20), (1, 50)] ∧
    (addItem storeWithSmallInvoice 6 1 (lineItem 1 (1 / 2))).2.invoices.map
      (fun i => (i.id, i.subtotal, i.discount, i.cutting_fee, i.tax, i.total_amount))
      = [(1, 70, some 0, some 0, 11, 80)] ∧
    (80 : Int) ≠ 70 - 0 + 0 + 11 ∧
    decimal2 ((70 : ℚ) / 100 * (15 / 100)) = 11 := by
  refine ⟨by decide!, by decide!, by decide!, by decide!, by decide, by decide!, by decide!,
    by decide!, by decide, by decide!⟩

theorem invoice?_any {db : DB} {invoiceId : Nat} {inv : Invoice}
    (h : db.invoice? invoiceId = some inv) :
    db.invoices.any (fun i => i.id == invoiceId) = true := by
  unfold DB.invoice? at h
  rw [List.any_eq_true]
  have hp := List.find?_some h
  exact ⟨inv, List.mem_of_find?_eq_some h, hp⟩

theorem addItem_of_valid (db : DB) (now invoiceId : Nat) (item : InvoiceItemInput)
    (inv : Invoice) (hinv : db.invoice? invoiceId = some inv)
    (hname : item.material_name ≠ "")
    (hm : db.materialRefOk (orNull item.material_id) = true) :
    addItem db now invoiceId item =
      (⟨201, .message "تم إضافة العنصر بنجاح"⟩,
        recomputed { db with
          invoice_items := db.invoice_items ++ [{
            id := db.next_invoice_item_id
            invoice_id := invoiceId
            material_name := item.material_name
            description := orEmpty item.description
            quantity := item.quantity
            unit_price := bindDecimal2 (toDouble item.unit_price)
            total_price := bindDecimal2 (lineTotal item)
            material_id := orNull item.material_id
            notes := orEmpty item.notes }]
          next_invoice_item_id := db.next_invoice_item_id + 1 } now invoiceId inv) := by
  have hv : validateItemBody item = [] := by simp [validateItemBody, hname]
  have hany := invoice?_any hinv
  unfold addItem
  rw [if_neg (by simp [hv])]
  simp only [DB.insertInvoiceItem, hany, hm, Bool.not_true, Bool.false_eq_true, if_false]
  have hinv' : DB.invoice? { db with
      invoice_items := db.invoice_items ++ [{
        id := db.next_invoice_item_id
        invoice_id := invoiceId
        material_name := item.material_name
        description := orEmpty item.description
        quantity := item.quantity
        unit_price := bindDecimal2 (toDouble item.unit_price)
        total_price := bindDecimal2 (lineTotal item)
        material_id := orNull item.material_id
        notes := orEmpty item.notes }]
      next_invoice_item_id := db.next_invoice_item_id + 1 } invoiceId = some inv := hinv
  rw [updateInvoiceTotals_some now hinv']

/-- C3, as amended. On an invoice whose subtotal equals the sum of its items' total
prices, addItem with quantity `q` and unit price `p` (a named item whose material, if any,
exists; amounts within the width of their columns) answers 201 and leaves fee and discount
as they were. The new subtotal is the old one plus the total price stored for the new
item, the double `q × p` as its column rounds it, which is `q × p` itself when `p` has at
most two decimals. The new tax and total are the doubles that the recomputation gets for
`(subtotal' − discount + cutting_fee) × 0.15` and `subtotal' − discount + cutting_fee +
tax`, each as its column rounds it: the tax is within one hundredth of
`(subtotal' − discount + cutting_fee) × 0.15`, and the total within one hundredth of
`subtotal' − discount + cutting_fee + tax'`. -/
theorem addItem_totals (db : DB) (now invoiceId : Nat) (item : InvoiceItemInput)
    (inv : Invoice) (hinv : db.invoice? invoiceId = some inv)
    (hsub : inv.subtotal = db.sumItems invoiceId)
    (hname : item.material_name ≠ "")
    (hm : db.materialRefOk (orNull item.material_id) = true)
    (hw : |((inv.subtotal + bindDecimal2 (lineTotal item) : Int) : ℚ)| ≤ 10 ^ 12)
    (hd : |((inv.discount.getD 0 : Int) : ℚ)| ≤ 10 ^ 12)
    (hc : |((inv.cutting_fee.getD 0 : Int) : ℚ)| ≤ 10 ^ 12) :
    (addItem db now invoiceId item).1.status = 201 ∧
    ∃ inv', (addItem db now invoiceId item).2.invoice? invoiceId = some inv' ∧
      inv'.cutting_fee = inv.cutting_fee ∧ inv'.discount = inv.discount ∧
      inv'.subtotal = inv.subtotal + bindDecimal2 (lineTotal item) ∧
      (∀ k : Int, item.unit_price = ofCents k → |((item.quantity * k : Int) : ℚ)| ≤ 10 ^ 12 →
        inv'.subtotal = inv.subtotal + item.quantity * k) ∧
      inv'.tax = bindDecimal2 (taxOf (taxedBase (toDouble (ofCents inv'.subtotal))
        (parseDecimalOrZero inv.discount) (parseDecimalOrZero inv.cutting_fee))) ∧
      inv'.total_amount = bindDecimal2 (totalOf (taxedBase (toDouble (ofCents inv'.subtotal))
        (parseDecimalOrZero inv.discount) (parseDecimalOrZero inv.cutting_fee))) ∧
      TotalsNear inv' := by
  rw [addItem_of_valid db now invoiceId item inv hinv hname hm]
  have hsum : DB.sumItems { db with
      invoice_items := db.invoice_items ++ [{
        id := db.next_invoice_item_id
        invoice_id := invoiceId
        material_name := item.material_name
        description := orEmpty item.description
        quantity := item.quantity
        unit_price := bindDecimal2 (toDouble item.unit_price)
        total_price := bindDecimal2 (lineTotal item)
        material_id := orNull item.material_id
        notes := orEmpty item.notes }]
      next_invoice_item_id := db.next_invoice_item_id + 1 } invoiceId
      = inv.subtotal + bindDecimal2 (lineTotal item) := by
    simp [DB.sumItems, DB.itemsOf, List.filter_append, hsub]
  have hstored : (retotalled { db with
      invoice_items := db.invoice_items ++ [{
        id := db.next_invoice_item_id
        invoice_id := invoiceId
        material_name := item.material_name
        description := orEmpty item.description
        quantity := item.quantity
        unit_price := bindDecimal2 (toDouble item.unit_price)
        total_price := bindDecimal2 (lineTotal item)
        material_id := orNull item.material_id
        notes := orEmpty item.notes }]
      next_invoice_item_id := db.next_invoice_item_id + 1 } now invoiceId inv inv).subtotal
      = inv.subtotal + bindDecimal2 (lineTotal item) := by
    simp only [retotalled]
    rw [hsum]
    exact bindDecimal2_toDouble_ofCents _ hw
  refine ⟨rfl, _, recomputed_invoice? _ now invoiceId inv (by simpa [DB.invoice?] using hinv),
    rfl, rfl, hstored, ?_, ?_, ?_, ?_⟩
  · intro k hk hwk
    rw [hstored, bindDecimal2_lineTotal item k hk hwk]
  · rw [hstored]
    simp only [retotalled, storedBase]
    rw [hsum]
  · rw [hstored]
    simp only [retotalled, storedBase]
    rw [hsum]
  · have hnear := recomputed_totals_near (inv.subtotal + bindDecimal2 (lineTotal item))
      (inv.discount.getD 0) (inv.cutting_fee.getD 0) hw hd hc
    unfold TotalsNear
    rw [hstored]
    simp only [retotalled, storedBase]
    rw [hsum, parseDecimalOrZero_eq, parseDecimalOrZero_eq]
    exact hnear

/-- C3 on the invoice of 2 × 10 and 1 × 5 without fee or discount (25 / 3.75 / 28.75):
adding 1 × 10 gives 35 / 5.25 / 40.25. -/
theorem addItem_totals_witness :
    storeWithInvoice.invoices.map (fun i => (i.id, i.subtotal, i.tax, i.total_amount))
      = [(1, 2500, 375, 2875)] ∧
    (addItem storeWithInvoice 6 1 (lineItem 1 10)).1.status = 201 ∧
    (addItem storeWithInvoice 6 1 (lineItem 1 10)).2.invoices.map
      (fun i => (i.id, i.subtotal, i.tax, i.total_amount)) = [(1, 3500, 525, 4025)] := by
  refine ⟨by decide!, ?_, by decide!⟩
  exact (addItem_totals storeWithInvoice 6 1 (lineItem 1 10)
    { id := 1, invoice_number := "INV-5", order_id := 1, customer_name := "customer",
      customer_phone := none, customer_address := none, subtotal := 2500,
      cutting_fee := some 0, discount := some 0, tax := 375, total_amount := 2875,
      status := "draft", created_by := 1, approved_by := none, approved_at := none,
      paid_at := none, notes := none, created_at := 5, updated_at := 5 }
    (by decide!) (by decide!) (by decide) (by decide)
    (by
      have h : bindDecimal2 (lineTotal (lineItem 1 10)) = 1000 := by decide!
      rw [h]
      norm_num)
    (by norm_num) (by norm_num)).1

/-- C3 as stated fails: adding 1 × 1.23 to the invoice of 2 × 10 and 1 × 5 gives subtotal
26.23, whose 15% is 3.9345, and the stored tax is 3.93 and the stored total 30.16. -/
theorem addItem_totals_counterexample :
    ∃ inv' ∈ (addItem storeWithInvoice 6 1 (lineItem 1 (123 / 100))).2.invoices,
      inv'.id = 1 ∧
      ofCents inv'.subtotal = 25 + 1 * (123 / 100) ∧
      ofCents inv'.tax ≠ (ofCents inv'.subtotal - 0 + 0) * (15 / 100) ∧
      ofCents inv'.total_amount
        ≠ ofCents inv'.subtotal - 0 + 0 + (ofCents inv'.subtotal - 0 + 0) * (15 / 100) := by
  decide!

/-! ## Recomputing twice -/

theorem recomputed_recomputed (db : DB) (t1 t2 invoiceId : Nat) (row : Invoice) :
    recomputed (recomputed db t1 invoiceId row) t2 invoiceId
        (retotalled db t1 invoiceId row row)
      = recomputed db t2 invoiceId row := by
  unfold recomputed
  simp only [List.map_map]
  congr 1
  apply List.map_congr_left
  intro x _
  by_cases hx : x.id = invoiceId
  · simp [hx, retotalled, storedBase, DB.sumItems, DB.itemsOf]
  · simp [hx]

/-- C4. On a store containing the invoice, `updateInvoiceTotals` succeeds, and running it
again succeeds with the store that a single run at the later clock reading gives: the
second run leaves every subtotal, tax and total amount as the first left them, and
changes nothing at all when the clock reading is the same. -/
theorem updateInvoiceTotals_idempotent (db : DB) (t1 t2 invoiceId : Nat)
    (h : (db.invoice? invoiceId).isSome = true) :
    ∃ db1 db2, updateInvoiceTotals db t1 invoiceId = .ok db1 ∧
      updateInvoiceTotals db1 t2 invoiceId = .ok db2 ∧
      updateInvoiceTotals db t2 invoiceId = .ok db2 ∧
      db2.invoices.map (fun x => (x.id, x.subtotal, x.tax, x.total_amount))
        = db1.invoices.map (fun x => (x.id, x.subtotal, x.tax, x.total_amount)) ∧
      db2.invoice_items = db1.invoice_items ∧
      (t2 = t1 → db2 = db1) := by
  obtain ⟨row, hrow⟩ := Option.isSome_iff_exists.mp h
  have h1 := updateInvoiceTotals_some t1 hrow
  have hrow1 := recomputed_invoice? db t1 invoiceId row hrow
  have h2 := updateInvoiceTotals_some t2 hrow1
  rw [recomputed_recomputed] at h2
  refine ⟨_, _, h1, h2, updateInvoiceTotals_some t2 hrow, ?_, rfl, ?_⟩
  · unfold recomputed
    simp only [List.map_map]
    apply List.map_congr_left
    intro x _
    by_cases hx : x.id = invoiceId
    · simp [hx, retotalled]
    · simp [hx]
  · intro ht
    rw [ht]

/-- C4 on the invoice of 2 × 10 and 1 × 5: a second recomputation at the same clock
reading returns the store of the first. -/
theorem updateInvoiceTotals_idempotent_witness :
    (storeWithInvoice.invoice? 1).isSome = true ∧
    ∃ db1, updateInvoiceTotals storeWithInvoice 9 1 = .ok db1 ∧
      updateInvoiceTotals db1 9 1 = .ok db1 := by
  refine ⟨by decide!, ?_⟩
  obtain ⟨db1, db2, h1, h2, _, _, _, h6⟩ :=
    updateInvoiceTotals_idempotent storeWithInvoice 9 9 1 (by decide!)
  exact ⟨db1, h1, by rw [h2, h6 rfl]⟩

/-! ## Which routes write the totals -/

theorem createInvoiceTx_ok {db : DB} {now userId : Nat} {req : InvoiceInput} {r : Nat × DB}
    (h : createInvoiceTx db now userId req = .ok r) :
    r = (db.next_invoice_id,
      { db with
        invoices := db.invoices ++ [createdInvoice db now userId req]
        next_invoice_id := db.next_invoice_id + 1
        invoice_items := db.invoice_items ++
          itemRows db.next_invoice_id db.next_invoice_item_id req.items
        next_invoice_item_id := db.next_invoice_item_id + req.items.length }) := by
  unfold createInvoiceTx DB.insertInvoice at h
  split_ifs at h with h1 h2
  · simp [bind, Except.bind] at h
  · simp [bind, Except.bind] at h
  · simp only [bind, Except.bind, pure, Except.pure] at h
    split at h
    · cases h
    · rename_i db2 h3
      cases h
      rw [insertItems_ok h3]
      simp [createdInvoice, computedBase, Option.getD]

theorem insertItems_ok_any {invoiceId : Nat} {item : InvoiceItemInput}
    {rest : List InvoiceItemInput} {db db' : DB}
    (h : insertItems invoiceId (item :: rest) db = .ok db') :
    db.invoices.any (fun i => i.id == invoiceId) = true := by
  rw [insertItems_cons] at h
  unfold DB.insertInvoiceItem at h
  split_ifs at h with h1 h2
  · cases h
  · cases h
  · simpa using h1

theorem createInvoice_cases (db : DB) (now userId : Nat) (req : InvoiceInput) :
    (createInvoice db now userId req).2 = db ∨
    ∃ r, createInvoiceTx db now userId req = .ok r ∧
      (createInvoice db now userId req).2 = r.2 ∧
      db.invoices.find? (fun i => i.order_id == req.order_id) = none := by
  unfold createInvoice
  split_ifs with hv
  · exact Or.inl rfl
  · split
    · exact Or.inl rfl
    · split
      · exact Or.inl rfl
      · cases htx : createInvoiceTx db now userId req with
        | error e => exact Or.inl rfl
        | ok r =>
          rename_i hnone
          exact Or.inr ⟨r, rfl, rfl, hnone⟩


theorem updateInvoice_written (db : DB) (now invoiceId : Nat) (req : InvoiceInput)
    (h : (updateInvoice db now invoiceId req).1.success = true) :
    ∃ row, db.invoice? invoiceId = some row ∧
      (updateInvoice db now invoiceId req).2.invoice? invoiceId
        = some (rewrittenInvoice now req row) ∧
      (updateInvoice db now invoiceId req).2.itemsOf invoiceId
        = itemRows invoiceId db.next_invoice_item_id req.items := by
  unfold updateInvoice at h ⊢
  split_ifs at h ⊢ with hv
  · simp [Response.success] at h
  · cases htx : updateInvoiceTx db now invoiceId req with
    | error e => simp [htx, Response.success, serverError] at h
    | ok db2 =>
      simp only
      have hitems : req.items ≠ [] := by
        intro hnil
        apply hv
        simp [validateInvoiceUpdate, validateInvoiceBody, hnil]
      obtain ⟨a, t, hat⟩ := List.exists_cons_of_ne_nil hitems
      unfold updateInvoiceTx at htx
      simp only at htx
      have hany := htx
      rw [hat] at hany
      have hany := insertItems_ok_any hany
      rw [insertItems_ok htx]
      have hsome : (db.invoices.find? (fun i => i.id == invoiceId)).isSome = true := by
        rw [List.find?_isSome]
        rw [List.any_eq_true] at hany
        obtain ⟨x, hx, hxid⟩ := hany
        simp only [DB.deleteInvoiceItems, DB.updateInvoiceRow, List.mem_map] at hx
        obtain ⟨y, hy, hyx⟩ := hx
        refine ⟨y, hy, ?_⟩
        by_cases hyid : y.id = invoiceId
        · simp [hyid]
        · simp only [hyid, if_false] at hyx
          rw [hyx]
          exact hxid
      obtain ⟨row, hrow⟩ := Option.isSome_iff_exists.mp hsome
      have hfilter : (db.invoice_items.filter (fun it => !(it.invoice_id == invoiceId))).filter
          (fun it => it.invoice_id == invoiceId) = [] := by
        rw [List.filter_eq_nil_iff]
        intro it hit
        have := (List.mem_filter.mp hit).2
        simpa using this
      have hrows : ∀ start, (itemRows invoiceId start req.items).filter
          (fun it => it.invoice_id == invoiceId) = itemRows invoiceId start req.items := by
        intro start
        rw [List.filter_eq_self]
        intro it hit
        simp [itemRows_invoice_id _ _ _ it hit]
      have hmap : (db.updateInvoiceRow now invoiceId req.customer_name req.customer_phone
          req.customer_address (itemsSubtotal req.items) (parseFloatOrZero req.cutting_fee)
          (parseFloatOrZero req.discount)
          (taxOf (taxedBase (itemsSubtotal req.items) (parseFloatOrZero req.discount)
            (parseFloatOrZero req.cutting_fee)))
          (totalOf (taxedBase (itemsSubtotal req.items) (parseFloatOrZero req.discount)
            (parseFloatOrZero req.cutting_fee))) req.notes).invoices
          = db.invoices.map (fun i =>
              if i.id = invoiceId then rewrittenInvoice now req i else i) := rfl
      refine ⟨row, hrow, ?_, ?_⟩
      · simp only [DB.invoice?, DB.deleteInvoiceItems]
        rw [hmap, find?_map_update db.invoices invoiceId (rewrittenInvoice now req)
          (fun _ => rfl), hrow]
        rfl
      · simp only [DB.itemsOf, DB.deleteInvoiceItems, DB.updateInvoiceRow,
          List.filter_append, hfilter, hrows, List.nil_append]

/-- C5, as amended. createInvoice and `PUT /invoices/:id` write subtotal, tax and total
as the handler computes them from the items, fee and discount of the request, and insert
the items of the request; they do not go through the recomputation. When the amounts of
the request have at most two decimals and are within the width of the columns, the
subtotal they write is the sum of the total prices of the items they insert, the tax is
within one hundredth of 15% of `subtotal − discount + cutting_fee`, and the total is
within one hundredth of `subtotal − discount + cutting_fee + tax`. After a successful
addItem, updateItem or deleteItem the totals of the invoice are those that the
recomputation gets from its stored items, fee and discount: with amounts within the
width of their columns, the subtotal is the sum of the total prices of the stored items,
and the tax and the total are within one hundredth in the same way. The seeding route is
not among these writers. -/
theorem invoice_totals_writers (db : DB) (now : Nat) :
    (∀ userId req, (createInvoice db now userId req).2 ≠ db →
      (createInvoice db now userId req).2.invoices
        = db.invoices ++ [createdInvoice db now userId req] ∧
      (createInvoice db now userId req).2.invoice_items
        = db.invoice_items ++ itemRows db.next_invoice_id db.next_invoice_item_id req.items ∧
      (req.TwoDecimalsFit →
        (createdInvoice db now userId req).subtotal
          = ((itemRows db.next_invoice_id db.next_invoice_item_id req.items).map
              (fun r => r.total_price)).sum ∧
        TotalsNear (createdInvoice db now userId req))) ∧
    (∀ invoiceId req, (updateInvoice db now invoiceId req).1.success = true →
      ∃ row, db.invoice? invoiceId = some row ∧
        (updateInvoice db now invoiceId req).2.invoice? invoiceId
          = some (rewrittenInvoice now req row) ∧
        (updateInvoice db now invoiceId req).2.itemsOf invoiceId
          = itemRows invoiceId db.next_invoice_item_id req.items ∧
        (req.TwoDecimalsFit →
          (rewrittenInvoice now req row).subtotal
            = (updateInvoice db now invoiceId req).2.sumItems invoiceId ∧
          TotalsNear (rewrittenInvoice now req row))) ∧
    (∀ invoiceId call, (itemCall db now invoiceId call).1.success = true →
      TotalsRecomputed (itemCall db now invoiceId call).2 invoiceId ∧
      ((itemCall db now invoiceId call).2.AmountsFit invoiceId →
        ∃ inv, (itemCall db now invoiceId call).2.invoice? invoiceId = some inv ∧
          inv.subtotal = (itemCall db now invoiceId call).2.sumItems invoiceId ∧
          TotalsNear inv)) := by
  refine ⟨?_, ?_, ?_⟩
  · intro userId req hw
    rcases createInvoice_cases db now userId req with hsame | ⟨r, htx, hr, _⟩
    · exact absurd hsame hw
    · rw [hr, createInvoiceTx_ok htx]
      refine ⟨rfl, rfl, fun h => ⟨?_, (createdInvoice_near db now userId req h).2⟩⟩
      rw [request_item_totals _ _ req h]
      exact (createdInvoice_near db now userId req h).1
  · intro invoiceId req h
    obtain ⟨row, hrow, hput, hitems⟩ := updateInvoice_written db now invoiceId req h
    refine ⟨row, hrow, hput, hitems, fun hf => ⟨?_, (rewrittenInvoice_near now req row hf).2⟩⟩
    have hsum : (updateInvoice db now invoiceId req).2.sumItems invoiceId
        = (((updateInvoice db now invoiceId req).2.itemsOf invoiceId).map
            (fun r => r.total_price)).sum := rfl
    rw [hsum, hitems, request_item_totals _ _ req hf]
    exact (rewrittenInvoice_near now req row hf).1
  · intro invoiceId call h
    have hrec := itemCall_success_recomputed db now invoiceId call h
    exact ⟨hrec, fun hf => recomputed_near hrec hf⟩

/-- C5 on the invoice of 2 × 10 and 1 × 5: `PUT /invoices/1` with the single item
3 × 1.99 answers 200 and leaves subtotal 5.97, tax 0.90 and total 6.87 over one stored
item of 5.97; adding 1 × 10 instead leaves subtotal 35.00 over items of 20.00, 5.00 and
10.00. -/
theorem invoice_totals_writers_witness :
    (updateInvoice storeWithInvoice 9 1 (invoiceFor [lineItem 3 (199 / 100)])).1.status = 200 ∧
    (∃ row, storeWithInvoice.invoice? 1 = some row ∧
      (updateInvoice storeWithInvoice 9 1 (invoiceFor [lineItem 3 (199 / 100)])).2.invoice? 1
        = some (rewrittenInvoice 9 (invoiceFor [lineItem 3 (199 / 100)]) row)) ∧
    (updateInvoice storeWithInvoice 9 1 (invoiceFor [lineItem 3 (199 / 100)])).2.invoices.map
      (fun i => (i.subtotal, i.tax, i.total_amount)) = [(597, 90, 687)] ∧
    (updateInvoice storeWithInvoice 9 1 (invoiceFor [lineItem 3 (199 / 100)])).2.invoice_items.map
      (fun it => it.total_price) = [597] ∧
    TotalsRecomputed (itemCall storeWithInvoice 9 1 (.add (lineItem 1 10))).2 1 ∧
    (itemCall storeWithInvoice 9 1 (.add (lineItem 1 10))).2.invoices.map
      (fun i => (i.subtotal, i.tax, i.total_amount)) = [(3500, 525, 4025)] ∧
    (itemCall storeWithInvoice 9 1 (.add (lineItem 1 10))).2.invoice_items.map
      (fun it => it.total_price) = [2000, 500, 1000] := by
  have h := invoice_totals_writers storeWithInvoice 9
  obtain ⟨row, hrow, hput, _, _⟩ := h.2.1 1 (invoiceFor [lineItem 3 (199 / 100)]) (by decide!)
  have hitem := (h.2.2 1 (.add (lineItem 1 10)) (by decide!)).1
  exact ⟨by decide!, ⟨row, hrow, hput⟩, by decide!, by decide!, hitem, by decide!, by decide!⟩

/-- C5 as stated fails on the seeding route: on a store holding material 1 and no order
or invoice, `POST /invoices/seed` by an admin answers 200 and inserts two invoices with
subtotals 10000 and 15000 and no invoice item at all. It fails on `PUT /invoices/:id` as
well: with the single item 1 × 0.70 the route answers 200 and stores 0.70 / 0.11 / 0.80,
while 0.70 + 0.11 = 0.81. -/
theorem seed_totals_counterexample :
    (seedInvoicesRoute storeWithMaterial 7 1 "admin").1.status = 200 ∧
    (seedInvoicesRoute storeWithMaterial 7 1 "admin").2.invoice_items = [] ∧
    (seedInvoicesRoute storeWithMaterial 7 1 "admin").2.invoices.map
      (fun i => (i.id, ofCents i.subtotal, ofCents i.tax, ofCents i.total_amount))
      = [(1, 10000, 1500, 11500), (2, 15000, 2250, 17250)] ∧
    (∃ inv ∈ (seedInvoicesRoute storeWithMaterial 7 1 "admin").2.invoices,
      inv.subtotal ≠ (seedInvoicesRoute storeWithMaterial 7 1 "admin").2.sumItems inv.id) ∧
    (updateInvoice storeWithInvoice 9 1 (invoiceFor [lineItem 1 (7 / 10)])).1.status = 200 ∧
    (updateInvoice storeWithInvoice 9 1 (invoiceFor [lineItem 1 (7 / 10)])).2.invoices.map
      (fun i => (i.subtotal, i.discount, i.cutting_fee, i.tax, i.total_amount))
      = [(70, some 0, some 0, 11, 80)] ∧
    (80 : Int) ≠ 70 - 0 + 0 + 11 := by
  refine ⟨by decide!, by decide!, by decide!, by decide!, by decide!, by decide!, by decide⟩

/-! ## The order checks of createInvoice -/

theorem createInvoiceTx_ok_invoices {db : DB} {now userId : Nat} {req : InvoiceInput}
    {r : Nat × DB} (h : createInvoiceTx db now userId req = .ok r) :
    r.2.invoices = db.invoices ++ [createdInvoice db now userId req] := by
  rw [createInvoiceTx_ok h]

theorem createInvoice_keeps_one_per_order (db : DB) (now userId : Nat) (req : InvoiceInput)
    (h : db.OneInvoicePerOrder) : (createInvoice db now userId req).2.OneInvoicePerOrder := by
  rcases createInvoice_cases db now userId req with hsame | ⟨r, htx, hr, hnone⟩
  · rw [hsame]; exact h
  · rw [hr]
    unfold DB.OneInvoicePerOrder at h ⊢
    rw [createInvoiceTx_ok_invoices htx, List.map_append, List.nodup_append]
    refine ⟨h, by simp, ?_⟩
    rw [List.find?_eq_none] at hnone
    intro a ha hb
    simp only [List.map_cons, List.map_nil, List.mem_singleton, createdInvoice] at hb
    rw [List.mem_map] at ha
    obtain ⟨i, hi, hia⟩ := ha
    have := hnone i hi
    simp only [beq_iff_eq] at this
    exact this (by rw [hia, hb])

/-- C6, as amended. When an invoice already exists for the order of a request,
createInvoice answers 400 and leaves the store as it was; the answer is the
duplicate-invoice message when the request passes the validators and the order exists
with status `completed`, and the validation or order-not-completed answer otherwise.
Consequently a store with at most one invoice per order keeps at most one invoice per
order through every sequence of createInvoice calls. -/
theorem createInvoice_existing_invoice (db : DB) (calls : List (Nat × Nat × InvoiceInput)) :
    (∀ now userId req, (∃ i ∈ db.invoices, i.order_id = req.order_id) →
      (createInvoice db now userId req).1.status = 400 ∧
      (createInvoice db now userId req).2 = db ∧
      (validateInvoiceBody req = [] →
        (∃ o ∈ db.orders, o.id = req.order_id ∧ o.status = "completed") →
        (createInvoice db now userId req).1 = duplicateInvoice)) ∧
    (db.OneInvoicePerOrder → (createInvoices db calls).OneInvoicePerOrder) := by
  constructor
  · intro now userId req hex
    have hsome : (db.invoices.find? (fun i => i.order_id == req.order_id)).isSome = true := by
      rw [List.find?_isSome]
      obtain ⟨i, hi, hio⟩ := hex
      exact ⟨i, hi, by simp [hio]⟩
    obtain ⟨inv, hinv⟩ := Option.isSome_iff_exists.mp hsome
    refine ⟨?_, ?_, ?_⟩
    · unfold createInvoice
      split_ifs with hv
      · rfl
      · split
        · rfl
        · rw [hinv]
    · unfold createInvoice
      split_ifs with hv
      · rfl
      · split
        · rfl
        · rw [hinv]
    · intro hv ho
      have h1 : (db.orders.find?
          (fun o => o.id == req.order_id && o.status == "completed")).isSome := by
        rw [List.find?_isSome]
        obtain ⟨o, ho, hid, hs⟩ := ho
        exact ⟨o, ho, by simp [hid, hs]⟩
      obtain ⟨o, ho'⟩ := Option.isSome_iff_exists.mp h1
      unfold createInvoice
      rw [if_neg (by simp [hv]), ho', hinv]
      rfl
  · intro h
    induction calls generalizing db with
    | nil => exact h
    | cons c rest ih =>
      obtain ⟨now, userId, req⟩ := c
      exact ih _ (createInvoice_keeps_one_per_order db now userId req h)

/-- C6 on the invoiced order 1: a second request for it is answered with the
duplicate-invoice message and changes nothing, and two further requests keep one invoice
per order. -/
theorem createInvoice_existing_invoice_witness :
    (∃ i ∈ storeWithInvoice.invoices, i.order_id = (invoiceFor [lineItem 1 1]).order_id) ∧
    (createInvoice storeWithInvoice 9 1 (invoiceFor [lineItem 1 1])).1 = duplicateInvoice ∧
    (createInvoice storeWithInvoice 9 1 (invoiceFor [lineItem 1 1])).2 = storeWithInvoice ∧
    storeWithInvoice.OneInvoicePerOrder ∧
    (createInvoices storeWithInvoice
      [(9, 1, invoiceFor [lineItem 1 1]), (10, 1, invoiceFor [lineItem 2 2])]).OneInvoicePerOrder := by
  have hone : storeWithInvoice.OneInvoicePerOrder := by
    unfold DB.OneInvoicePerOrder
    decide!
  have h := createInvoice_existing_invoice storeWithInvoice
    [(9, 1, invoiceFor [lineItem 1 1]), (10, 1, invoiceFor [lineItem 2 2])]
  have hex : ∃ i ∈ storeWithInvoice.invoices,
      i.order_id = (invoiceFor [lineItem 1 1]).order_id := by decide!
  obtain ⟨_, hsame, hdup⟩ := h.1 9 1 (invoiceFor [lineItem 1 1]) hex
  exact ⟨hex, hdup (by decide) (by decide!), hsame, hone, h.2 hone⟩

/-- C6 as stated fails: order 1 has an invoice and was set back to `pending`; a request
to invoice it again is refused with the order-not-completed message, not with the
duplicate-invoice one. -/
theorem createInvoice_conflict_counterexample :
    (∃ i ∈ storeWithReopenedOrder.invoices, i.order_id = 1) ∧
    (createInvoice storeWithReopenedOrder 9 1 (invoiceFor [lineItem 1 1])).1
      = orderNotCompleted ∧
    (createInvoice storeWithReopenedOrder 9 1 (invoiceFor [lineItem 1 1])).1
      ≠ duplicateInvoice := by
  decide!

/-- C7. When no order with the id of the request has status `completed` (the order is
absent, or its status is another), createInvoice answers 400 and leaves the store as it
was: no invoice and no invoice item is inserted. -/
theorem createInvoice_rejects_uncompleted (db : DB) (now userId : Nat) (req : InvoiceInput)
    (h : ∀ o ∈ db.orders, o.id = req.order_id → o.status ≠ "completed") :
    (createInvoice db now userId req).1.status = 400 ∧
    (createInvoice db now userId req).2 = db := by
  have hnone : db.orders.find? (fun o => o.id == req.order_id && o.status == "completed")
      = none := by
    rw [List.find?_eq_none]
    intro o ho
    have := h o ho
    simp only [Bool.and_eq_true, beq_iff_eq, not_and]
    exact this
  unfold createInvoice
  split_ifs with hv
  · exact ⟨rfl, rfl⟩
  · rw [hnone]
    exact ⟨rfl, rfl⟩

/-- C7 on a store without orders and on the store whose order 1 is `pending`. -/
theorem createInvoice_rejects_uncompleted_witness :
    (createInvoice DB.empty 9 1 (invoiceFor [lineItem 1 1])).1 = orderNotCompleted ∧
    (createInvoice DB.empty 9 1 (invoiceFor [lineItem 1 1])).2 = DB.empty ∧
    (createInvoice storeWithReopenedOrder 9 1 (invoiceFor [lineItem 1 1])).1.status = 400 ∧
    (createInvoice storeWithReopenedOrder 9 1 (invoiceFor [lineItem 1 1])).2
      = storeWithReopenedOrder := by
  have h1 := createInvoice_rejects_uncompleted DB.empty 9 1 (invoiceFor [lineItem 1 1])
    (by decide)
  have h2 := createInvoice_rejects_uncompleted storeWithReopenedOrder 9 1
    (invoiceFor [lineItem 1 1]) (by decide!)
  exact ⟨by decide!, h1.2, h2.1, h2.2⟩


/-! ## Creating an order -/

/-- C8 fails on the scenario of the specification: ordering 5 of X (10 in stock) and 3 of
Y (3 in stock, cost 60). The second loop reads Y again after the reservation, divides the
cost by the quantity 0 that is left, and the `Infinity` it gets is refused by the
`unit_price` column: the handler rolls back and answers 500, the store is as before. With
2 of Y instead, the order is committed and X and Y are left with 5 and 1, `reserved`. -/
theorem createOrder_whole_stock_fails :
    (createOrder storeXY 7 1 (orderFor "direct" [orderLine 1 5, orderLine 2 3])).1
      = orderError (.sql "numeric field overflow") ∧
    (createOrder storeXY 7 1 (orderFor "direct" [orderLine 1 5, orderLine 2 3])).2 = storeXY ∧
    (createOrder storeXY 7 1 (orderFor "direct" [orderLine 1 5, orderLine 2 2])).2.orders.map
      (fun o => (o.id, o.status)) = [(1, "pending")] ∧
    (createOrder storeXY 7 1 (orderFor "direct" [orderLine 1 5, orderLine 2 2])).2.materials.map
      (fun m => (m.id, m.quantity, m.status)) = [(1, 5, "reserved"), (2, 1, "reserved")] := by
  decide!

theorem adjustMaterial_cannotServe (db : DB) (q : Int) (k : Nat) (item : OrderItemInput)
    (h : db.cannotServe item) : (db.adjustMaterial q "reserved" k).cannotServe item := by
  intro m hm hid hs
  simp only [DB.adjustMaterial, List.mem_map] at hm
  obtain ⟨x, hx, hxm⟩ := hm
  unfold adjustRow at hxm
  by_cases hk : x.id = k
  · rw [if_pos hk] at hxm
    rw [← hxm] at hs
    simp at hs
  · rw [if_neg hk] at hxm
    rw [← hxm] at hid hs ⊢
    exact h x hx hid hs

theorem reserveItem_cannotServe (dm : String) (acc : Reservation) (item : OrderItemInput)
    (h : acc.db.cannotServe item) : ∃ e, reserveItem dm acc item = .error e := by
  unfold reserveItem
  split
  · exact ⟨_, rfl⟩
  · rename_i material hfind
    have hmem := List.mem_of_find?_eq_some hfind
    have hp := List.find?_some hfind
    simp only [Bool.and_eq_true, beq_iff_eq] at hp
    rw [if_pos (h material hmem hp.1 hp.2)]
    exact ⟨_, rfl⟩

theorem reserveItem_ok_db {dm : String} {acc acc' : Reservation} {item : OrderItemInput}
    (h : reserveItem dm acc item = .ok acc') :
    acc'.db = acc.db.adjustMaterial (-item.quantity) "reserved" item.material_id := by
  unfold reserveItem at h
  split at h
  · cases h
  · split_ifs at h <;> cases h <;> rfl

theorem reserve_loop_cannotServe (dm : String) (items : List OrderItemInput)
    (acc : Reservation) (h : ∃ item ∈ items, acc.db.cannotServe item) :
    ∃ e, items.foldlM (reserveItem dm) acc = .error e := by
  induction items generalizing acc with
  | nil => simp at h
  | cons a t ih =>
    rw [List.foldlM_cons]
    cases hstep : reserveItem dm acc a with
    | error e => exact ⟨e, rfl⟩
    | ok acc' =>
      obtain ⟨item, hmem, hbad⟩ := h
      rcases List.mem_cons.mp hmem with hitem | hitem
      · subst hitem
        obtain ⟨e, he⟩ := reserveItem_cannotServe dm acc item hbad
        rw [he] at hstep
        cases hstep
      · have hdb := reserveItem_ok_db hstep
        have := ih acc' ⟨item, hitem, by
          rw [hdb]; exact adjustMaterial_cannotServe _ _ _ _ hbad⟩
        simpa [bind, Except.bind] using this

/-- C9. If some item of a createOrder request refers to a material that no `available`
row of `materials` can serve in the quantity asked (the material is absent, is not
`available`, or holds less), createOrder answers with an error, 400 or 500, and the store
is as before the call: no material quantity or status has changed, the items before the
failing one included, and no order or order item has been added. -/
theorem createOrder_failure_atomic (db : DB) (now userId : Nat) (req : OrderInput)
    (h : ∃ item ∈ req.items, db.cannotServe item) :
    ((createOrder db now userId req).1.status = 400 ∨
      (createOrder db now userId req).1.status = 500) ∧
    (createOrder db now userId req).2 = db := by
  unfold createOrder
  split_ifs with hv
  · exact ⟨Or.inl rfl, rfl⟩
  · obtain ⟨e, he⟩ := reserve_loop_cannotServe req.delivery_method req.items ⟨db, .fin 0, 0⟩ h
    have htx : createOrderTx db now userId req = .error e := by
      unfold createOrderTx
      rw [he]
      rfl
    rw [htx]
    exact ⟨Or.inr rfl, rfl⟩

/-- C9 on the scenario store: 5 of X, then 4 of Y of which only 3 are in stock. The call
answers 500 and X still holds 10, `available`. -/
theorem createOrder_failure_atomic_witness :
    (∃ item ∈ (orderFor "direct" [orderLine 1 5, orderLine 2 4]).items,
      storeXY.cannotServe item) ∧
    (createOrder storeXY 7 1 (orderFor "direct" [orderLine 1 5, orderLine 2 4])).1.status = 500 ∧
    (createOrder storeXY 7 1 (orderFor "direct" [orderLine 1 5, orderLine 2 4])).2 = storeXY := by
  have hbad : ∃ item ∈ (orderFor "direct" [orderLine 1 5, orderLine 2 4]).items,
      storeXY.cannotServe item := by
    refine ⟨orderLine 2 4, by simp [orderFor], ?_⟩
    unfold DB.cannotServe
    decide!
  have h := createOrder_failure_atomic storeXY 7 1
    (orderFor "direct" [orderLine 1 5, orderLine 2 4]) hbad
  exact ⟨hbad, by decide!, h.2⟩

/-! ## Reserving and releasing material rows -/

theorem adjustRow_id (d : Int) (s : String) (k : Nat) (m : Material) :
    (adjustRow d s k m).id = m.id := by
  unfold adjustRow
  split <;> rfl

theorem adjustRow_of_ne (d : Int) (s : String) (k : Nat) (m : Material) (h : m.id ≠ k) :
    adjustRow d s k m = m := by
  unfold adjustRow
  rw [if_neg h]

theorem reserveRow_cons (p : Nat × Int) (t : List (Nat × Int)) (m : Material) :
    reserveRow (p :: t) m = reserveRow t (adjustRow (-p.2) "reserved" p.1 m) := rfl

theorem releaseRow_cons (p : Nat × Int) (t : List (Nat × Int)) (m : Material) :
    releaseRow (p :: t) m = releaseRow t (adjustRow p.2 "available" p.1 m) := rfl

theorem reserveRow_id (pairs : List (Nat × Int)) (m : Material) :
    (reserveRow pairs m).id = m.id := by
  induction pairs generalizing m with
  | nil => rfl
  | cons p t ih => rw [reserveRow_cons, ih, adjustRow_id]

theorem reserveRow_untouched (pairs : List (Nat × Int)) (m : Material)
    (h : ∀ p ∈ pairs, p.1 ≠ m.id) : reserveRow pairs m = m := by
  induction pairs generalizing m with
  | nil => rfl
  | cons p t ih =>
    rw [reserveRow_cons,
      adjustRow_of_ne _ _ _ _ (fun hm => h p (List.mem_cons_self _ _) hm.symm)]
    exact ih m (fun q hq => h q (List.mem_cons_of_mem _ hq))

theorem releaseRow_untouched (pairs : List (Nat × Int)) (m : Material)
    (h : ∀ p ∈ pairs, p.1 ≠ m.id) : releaseRow pairs m = m := by
  induction pairs generalizing m with
  | nil => rfl
  | cons p t ih =>
    rw [releaseRow_cons,
      adjustRow_of_ne _ _ _ _ (fun hm => h p (List.mem_cons_self _ _) hm.symm)]
    exact ih m (fun q hq => h q (List.mem_cons_of_mem _ hq))

/-- Releasing what was reserved gives the row back, when each material is reserved once
and was `available`. -/
theorem releaseRow_reserveRow (pairs : List (Nat × Int)) (m : Material)
    (hnd : (pairs.map (fun p => p.1)).Nodup)
    (hav : ∀ p ∈ pairs, p.1 = m.id → m.status = "available") :
    releaseRow pairs (reserveRow pairs m) = m := by
  induction pairs generalizing m with
  | nil => rfl
  | cons p t ih =>
    rw [List.map_cons, List.nodup_cons] at hnd
    rw [reserveRow_cons, releaseRow_cons]
    by_cases hp : m.id = p.1
    · have hrest : ∀ q ∈ t, q.1 ≠ m.id := by
        intro q hq hqm
        apply hnd.1
        rw [← hp, ← hqm]
        exact List.mem_map_of_mem _ hq
      have hst := hav p (List.mem_cons_self _ _) hp.symm
      rw [reserveRow_untouched t _ (by simpa [adjustRow_id] using hrest)]
      rw [releaseRow_untouched t _ (by simpa [adjustRow_id] using hrest)]
      unfold adjustRow
      simp only [hp, if_true]
      cases m
      simp only at hst hp
      simp [hst, hp]
    · rw [adjustRow_of_ne _ _ _ m hp]
      have hid : (reserveRow t m).id ≠ p.1 := by rw [reserveRow_id]; exact hp
      rw [adjustRow_of_ne _ _ _ _ hid]
      exact ih m hnd.2 (fun q hq => hav q (List.mem_cons_of_mem _ hq))

/-! ## The two loops of createOrder -/

theorem reserve_loop_ok {dm : String} {items : List OrderItemInput} {acc r : Reservation}
    (h : items.foldlM (reserveItem dm) acc = .ok r) :
    r.db = { acc.db with materials := acc.db.materials.map (reserveRow (orderPairs items)) } := by
  induction items generalizing acc with
  | nil =>
    simp only [List.foldlM_nil, pure, Except.pure, Except.ok.injEq] at h
    rw [← h]
    have hid : reserveRow (orderPairs []) = id := rfl
    rw [hid, List.map_id]
  | cons a t ih =>
    rw [List.foldlM_cons] at h
    cases hstep : reserveItem dm acc a with
    | error e =>
      rw [hstep] at h
      cases h
    | ok acc' =>
      rw [hstep] at h
      simp only [bind, Except.bind] at h
      rw [ih h, reserveItem_ok_db hstep]
      simp only [DB.adjustMaterial, List.map_map]
      congr 1

theorem reserveItem_ok_available {dm : String} {acc acc' : Reservation}
    {item : OrderItemInput} (h : reserveItem dm acc item = .ok acc') :
    ∃ m ∈ acc.db.materials, m.id = item.material_id ∧ m.status = "available" := by
  unfold reserveItem at h
  split at h
  · cases h
  · rename_i material hfind
    have hp := List.find?_some hfind
    simp only [Bool.and_eq_true, beq_iff_eq] at hp
    exact ⟨material, List.mem_of_find?_eq_some hfind, hp.1, hp.2⟩

theorem reserve_loop_distinct {dm : String} {items : List OrderItemInput}
    {acc r : Reservation} (h : items.foldlM (reserveItem dm) acc = .ok r) :
    ((orderPairs items).map (fun p => p.1)).Nodup ∧
    ∀ it ∈ items, ∃ m ∈ acc.db.materials, m.id = it.material_id ∧ m.status = "available" := by
  induction items generalizing acc with
  | nil => simp [orderPairs]
  | cons a t ih =>
    rw [List.foldlM_cons] at h
    cases hstep : reserveItem dm acc a with
    | error e =>
      rw [hstep] at h
      cases h
    | ok acc' =>
      rw [hstep] at h
      simp only [bind, Except.bind] at h
      obtain ⟨hnd, hav⟩ := ih h
      have hdb := reserveItem_ok_db hstep
      have hback : ∀ it ∈ t, it.material_id ≠ a.material_id ∧
          ∃ m ∈ acc.db.materials, m.id = it.material_id ∧ m.status = "available" := by
        intro it hit
        obtain ⟨m', hm', hid', hs'⟩ := hav it hit
        rw [hdb] at hm'
        simp only [DB.adjustMaterial, List.mem_map] at hm'
        obtain ⟨x, hx, hxm⟩ := hm'
        unfold adjustRow at hxm
        by_cases hk : x.id = a.material_id
        · rw [if_pos hk] at hxm
          rw [← hxm] at hs'
          simp at hs'
        · rw [if_neg hk] at hxm
          rw [← hxm] at hid' hs'
          exact ⟨fun heq => hk (by rw [hid', heq]), x, hx, hid', hs'⟩
      refine ⟨?_, ?_⟩
      · simp only [orderPairs, List.map_cons, List.nodup_cons, List.map_map] at hnd ⊢
        refine ⟨?_, hnd⟩
        intro hmem
        rw [List.mem_map] at hmem
        obtain ⟨it, hit, heq⟩ := hmem
        exact (hback it hit).1 heq
      · intro it hit
        rcases List.mem_cons.mp hit with heq | hmem
        · rw [heq]
          exact reserveItem_ok_available hstep
        · exact (hback it hmem).2

theorem insertOrder_ok {db : DB} {now : Nat} {order_number customer_name : String}
    {customer_phone customer_address : Option String} {plate_count : Option Int}
    {notes : Option String} {delivery_method : String} {total_amount cutting_fee : JsNum}
    {status : Option String} {created_by : Nat} {r : Nat × DB}
    (h : db.insertOrder now order_number customer_name customer_phone customer_address
      plate_count notes delivery_method total_amount cutting_fee status created_by = .ok r) :
    ∃ row : Order, row.id = db.next_order_id ∧ toPgDec total_amount = .ok row.total_amount ∧
      toPgDec cutting_fee = .ok row.cutting_fee ∧
      r = (db.next_order_id,
        { db with orders := db.orders ++ [row], next_order_id := db.next_order_id + 1 }) := by
  unfold DB.insertOrder at h
  split at h
  · rename_i total fee htotal hfee
    split_ifs at h
    cases h
    exact ⟨_, rfl, htotal, hfee, rfl⟩
  · cases h

theorem insertOrderItem_ok {db db' : DB} {order_id material_id : Nat} {quantity : Int}
    {weight : Option JsNum} {unit_price total_price : JsNum} {notes : Option String}
    (h : db.insertOrderItem order_id material_id quantity weight unit_price total_price notes
      = .ok db') :
    ∃ row : OrderItem, row.order_id = order_id ∧ row.material_id = material_id ∧
      row.quantity = quantity ∧ toPgDec unit_price = .ok row.unit_price ∧
      toPgDec total_price = .ok row.total_price ∧
      db' = { db with
        order_items := db.order_items ++ [row]
        next_order_item_id := db.next_order_item_id + 1 } := by
  unfold DB.insertOrderItem at h
  split at h
  · rename_i w up tp hw hup htp
    split_ifs at h
    cases h
    exact ⟨_, rfl, rfl, rfl, hup, htp, rfl⟩
  · cases h

theorem item_loop_ok {orderId : Nat} {items : List OrderItemInput} {db db' : DB}
    (h : items.foldlM (insertItemOf orderId) db = .ok db') :
    ∃ rows : List OrderItem,
      db' = { db with
        order_items := db.order_items ++ rows
        next_order_item_id := db.next_order_item_id + rows.length } ∧
      rows.map (fun r => (r.material_id, r.quantity)) = orderPairs items ∧
      ∀ r ∈ rows, r.order_id = orderId := by
  induction items generalizing db with
  | nil =>
    simp only [List.foldlM_nil, pure, Except.pure, Except.ok.injEq] at h
    exact ⟨[], by simp [← h], rfl, by simp⟩
  | cons a t ih =>
    rw [List.foldlM_cons] at h
    cases hstep : insertItemOf orderId db a with
    | error e =>
      rw [hstep] at h
      cases h
    | ok db1 =>
      rw [hstep] at h
      simp only [bind, Except.bind] at h
      obtain ⟨rows, hdb', hpairs, hord⟩ := ih h
      unfold insertItemOf at hstep
      split at hstep
      · cases hstep
      · obtain ⟨row, hro, hrm, hrq, _, _, hdb1⟩ := insertOrderItem_ok hstep
        refine ⟨row :: rows, ?_, ?_, ?_⟩
        · rw [hdb', hdb1]
          simp [Nat.add_assoc, Nat.add_comm 1]
        · simp [orderPairs, hrm, hrq] at hpairs ⊢
          exact hpairs
        · intro r hr
          rcases List.mem_cons.mp hr with heq | hmem
          · rw [heq]; exact hro
          · exact hord r hmem

theorem createOrderTx_ok {db : DB} {now userId : Nat} {req : OrderInput} {r : Nat × DB}
    (h : createOrderTx db now userId req = .ok r) :
    ∃ (row : Order) (rows : List OrderItem),
      row.id = db.next_order_id ∧
      ((orderPairs req.items).map (fun p => p.1)).Nodup ∧
      (∀ it ∈ req.items, ∃ m ∈ db.materials, m.id = it.material_id ∧ m.status = "available") ∧
      rows.map (fun x => (x.material_id, x.quantity)) = orderPairs req.items ∧
      (∀ x ∈ rows, x.order_id = db.next_order_id) ∧
      r = (db.next_order_id,
        { db with
          materials := db.materials.map (reserveRow (orderPairs req.items))
          orders := db.orders ++ [row]
          next_order_id := db.next_order_id + 1
          order_items := db.order_items ++ rows
          next_order_item_id := db.next_order_item_id + rows.length }) := by
  unfold createOrderTx at h
  cases h1 : req.items.foldlM (reserveItem req.delivery_method) ⟨db, .fin 0, 0⟩ with
  | error e =>
    rw [h1] at h
    cases h
  | ok res =>
    rw [h1] at h
    simp only [bind, Except.bind] at h
    cases h2 : res.db.insertOrder now ("ORD-" ++ toString now) req.customer_name
        req.customer_phone req.customer_address req.plate_count req.notes req.delivery_method
        (res.totalAmount.add (.fin res.cuttingFee)) (.fin res.cuttingFee) none userId with
    | error e =>
      rw [h2] at h
      cases h
    | ok p =>
      rw [h2] at h
      obtain ⟨row, hrow, _, _, hp⟩ := insertOrder_ok h2
      rw [hp] at h
      simp only at h
      cases h3 : req.items.foldlM (insertItemOf res.db.next_order_id)
          { res.db with
            orders := res.db.orders ++ [row]
            next_order_id := res.db.next_order_id + 1 } with
      | error e =>
        rw [h3] at h
        cases h
      | ok db2 =>
        rw [h3] at h
        simp only [pure, Except.pure, Except.ok.injEq] at h
        obtain ⟨rows, hdb2, hpairs, hord⟩ := item_loop_ok h3
        obtain ⟨hnd, hav⟩ := reserve_loop_distinct h1
        have hres := reserve_loop_ok h1
        simp only at hres
        rw [hres] at hrow hord hdb2 h
        refine ⟨row, rows, hrow, hnd, hav, hpairs, hord, ?_⟩
        rw [← h, hdb2]

/-! ## Deleting an order -/

theorem createOrder_cases (db : DB) (now userId : Nat) (req : OrderInput) :
    (createOrder db now userId req).2 = db ∨
    ∃ r, createOrderTx db now userId req = .ok r ∧ (createOrder db now userId req).2 = r.2 := by
  unfold createOrder
  split_ifs with hv
  · exact Or.inl rfl
  · cases htx : createOrderTx db now userId req with
    | error e => exact Or.inl rfl
    | ok r => exact Or.inr ⟨r, rfl, rfl⟩

theorem release_loop (rows : List OrderItem) (db : DB) :
    rows.foldl (fun d item => d.adjustMaterial item.quantity "available" item.material_id) db
      = { db with
          materials := db.materials.map
            (releaseRow (rows.map (fun x => (x.material_id, x.quantity)))) } := by
  induction rows generalizing db with
  | nil =>
    have hid : releaseRow [] = id := rfl
    simp [hid]
  | cons a t ih =>
    rw [List.foldl_cons, ih]
    simp only [DB.adjustMaterial, List.map_map, List.map_cons]
    congr 1

theorem deleteOrderTx_created (db : DB) (row : Order) (rows : List OrderItem)
    (pairs : List (Nat × Int))
    (hk : db.OrderKeysFresh) (hrow : row.id = db.next_order_id)
    (hpairs : rows.map (fun x => (x.material_id, x.quantity)) = pairs)
    (hord : ∀ x ∈ rows, x.order_id = db.next_order_id)
    (hrestore : ∀ m ∈ db.materials, releaseRow pairs (reserveRow pairs m) = m) (n k : Nat) :
    deleteOrderTx
      { db with
        materials := db.materials.map (reserveRow pairs)
        orders := db.orders ++ [row]
        next_order_id := n
        order_items := db.order_items ++ rows
        next_order_item_id := k } db.next_order_id
      = .ok { db with next_order_id := n, next_order_item_id := k } := by
  obtain ⟨hko, hki, hkv⟩ := hk
  have hf1 : db.order_items.filter (fun it => it.order_id == db.next_order_id) = [] := by
    rw [List.filter_eq_nil_iff]
    intro it hit
    have := hki it hit
    simp; omega
  have hf2 : rows.filter (fun it => it.order_id == db.next_order_id) = rows := by
    rw [List.filter_eq_self]
    intro it hit
    simp [hord it hit]
  have hf3 : db.order_items.filter (fun it => !(it.order_id == db.next_order_id))
      = db.order_items := by
    rw [List.filter_eq_self]
    intro it hit
    have := hki it hit
    simp; omega
  have hf4 : rows.filter (fun it => !(it.order_id == db.next_order_id)) = [] := by
    rw [List.filter_eq_nil_iff]
    intro it hit
    simp [hord it hit]
  have hf5 : db.orders.filter (fun o => !(o.id == db.next_order_id)) = db.orders := by
    rw [List.filter_eq_self]
    intro o ho
    have := hko o ho
    simp; omega
  have hinv : db.invoices.any (fun i => i.order_id == db.next_order_id) = false := by
    rw [List.any_eq_false]
    intro i hi
    have := hkv i hi
    simp; omega
  have hmats : (db.materials.map (reserveRow pairs)).map (releaseRow pairs) = db.materials := by
    rw [List.map_map]
    conv_rhs => rw [← List.map_id db.materials]
    apply List.map_congr_left
    intro m hm
    exact hrestore m hm
  unfold deleteOrderTx
  simp only [List.filter_append, hf1, hf2, List.nil_append, release_loop, hpairs, hmats, hf3,
    hf4, List.append_nil, List.any_append, hinv, hrow, List.any_cons, List.any_nil,
    beq_self_eq_true, Bool.or_false, Bool.or_true, Bool.not_true, Bool.false_eq_true,
    if_false, hf5, List.filter_cons, List.filter_nil, Bool.not_true]

theorem restore_of_committed {db : DB} {items : List OrderItemInput}
    (hu : db.MaterialKeysUnique)
    (hnd : ((orderPairs items).map (fun p => p.1)).Nodup)
    (hav : ∀ it ∈ items, ∃ m ∈ db.materials, m.id = it.material_id ∧ m.status = "available") :
    ∀ m ∈ db.materials, releaseRow (orderPairs items) (reserveRow (orderPairs items) m) = m := by
  intro m hm
  apply releaseRow_reserveRow _ _ hnd
  intro p hp hpm
  simp only [orderPairs, List.mem_map] at hp
  obtain ⟨it, hit, hitp⟩ := hp
  obtain ⟨m', hm', hid', hs'⟩ := hav it hit
  have hsame : m' = m := by
    apply List.inj_on_of_nodup_map hu hm' hm
    rw [hid', ← hpm, ← hitp]
  rw [← hsame]
  exact hs'

/-- C10. In a store with unique material keys and order keys below the next key, whenever
createOrder commits an order (the store changes), the order has the next key, and
deleteOrder on it answers 200 and leaves `materials` as it was before the creation, every
material of the request with its quantity of then and status `available`, and `orders`
and `order_items` as they were before the creation: the order and its items are gone. -/
theorem deleteOrder_restores (db : DB) (now userId : Nat) (req : OrderInput)
    (hk : db.OrderKeysFresh) (hu : db.MaterialKeysUnique)
    (hc : (createOrder db now userId req).2 ≠ db) :
    (∃ o ∈ (createOrder db now userId req).2.orders, o.id = db.next_order_id) ∧
    (deleteOrder (createOrder db now userId req).2 db.next_order_id).1.status = 200 ∧
    (deleteOrder (createOrder db now userId req).2 db.next_order_id).2.materials
      = db.materials ∧
    (∀ it ∈ req.items, ∃ m ∈ db.materials, m.id = it.material_id ∧ m.status = "available") ∧
    (deleteOrder (createOrder db now userId req).2 db.next_order_id).2.orders = db.orders ∧
    (deleteOrder (createOrder db now userId req).2 db.next_order_id).2.order_items
      = db.order_items := by
  rcases createOrder_cases db now userId req with hsame | ⟨r, htx, hr⟩
  · exact absurd hsame hc
  · obtain ⟨row, rows, hrow, hnd, hav, hpairs, hord, hshape⟩ := createOrderTx_ok htx
    rw [hr, hshape]
    have hdel := deleteOrderTx_created db row rows (orderPairs req.items) hk hrow hpairs hord
      (restore_of_committed hu hnd hav) (db.next_order_id + 1)
      (db.next_order_item_id + rows.length)
    refine ⟨⟨row, by simp, hrow⟩, ?_, ?_, hav, ?_, ?_⟩ <;>
      · unfold deleteOrder
        simp only
        rw [hdel]

/-- C10 on the scenario store: ordering 5 of X and 2 of Y commits order 1 and leaves X
and Y at 5 and 1, `reserved`; deleting order 1 answers 200 and gives back 10 and 3,
`available`, with no order and no order item left. -/
theorem deleteOrder_restores_witness :
    (createOrder storeXY 7 1 (orderFor "direct" [orderLine 1 5, orderLine 2 2])).2.materials.map
      (fun m => (m.id, m.quantity, m.status)) = [(1, 5, "reserved"), (2, 1, "reserved")] ∧
    (deleteOrder (createOrder storeXY 7 1
      (orderFor "direct" [orderLine 1 5, orderLine 2 2])).2 1).1.status = 200 ∧
    (deleteOrder (createOrder storeXY 7 1
      (orderFor "direct" [orderLine 1 5, orderLine 2 2])).2 1).2.materials = storeXY.materials ∧
    (deleteOrder (createOrder storeXY 7 1
      (orderFor "direct" [orderLine 1 5, orderLine 2 2])).2 1).2.orders = [] ∧
    (deleteOrder (createOrder storeXY 7 1
      (orderFor "direct" [orderLine 1 5, orderLine 2 2])).2 1).2.order_items = [] := by
  have h := deleteOrder_restores storeXY 7 1 (orderFor "direct" [orderLine 1 5, orderLine 2 2])
    (by unfold DB.OrderKeysFresh; decide!) (by unfold DB.MaterialKeysUnique; decide!)
    (by decide!)
  exact ⟨by decide!, h.2.1, h.2.2.1, h.2.2.2.2.1, h.2.2.2.2.2⟩

/-! ## The amounts of an order -/

/-- C11 fails on a committed order: 5 of X (10 in stock, cost 100) and 2 of Y (3 in stock,
cost 60), direct delivery. The order row has total 90.00, priced from the quantities read
before the reservation (5 × 10 + 2 × 20), with fee 0; its two item rows have unit prices
20.00 and 60.00 and total prices 100.00 and 120.00, priced from the quantities left after
it, and sum to 220.00. -/
theorem createOrder_total_differs_from_items :
    storeWithOrderXY.orders.map (fun o => (o.id, o.total_amount, o.cutting_fee))
      = [(1, .val 9000, .val 0)] ∧
    storeWithOrderXY.order_items.map
      (fun it => (it.order_id, it.quantity, it.unit_price, it.total_price))
      = [(1, 5, .val 2000, .val 10000), (1, 2, .val 6000, .val 12000)] ∧
    (9000 : Int) ≠ 10000 + 12000 + 0 := by
  decide!

theorem reserveItem_ok_fee {dm : String} {acc acc' : Reservation} {item : OrderItemInput}
    (h : reserveItem dm acc item = .ok acc') :
    acc'.cuttingFee
      = if includes dm "cut" then acc.cuttingFee + 10 * item.quantity else acc.cuttingFee := by
  unfold reserveItem at h
  split at h
  · cases h
  · split_ifs at h <;> cases h <;> simp [*]

theorem reserve_loop_fee {dm : String} {items : List OrderItemInput} {acc r : Reservation}
    (h : items.foldlM (reserveItem dm) acc = .ok r) :
    r.cuttingFee = acc.cuttingFee +
      (if includes dm "cut" then 10 * (items.map (fun it => it.quantity)).sum else 0) := by
  induction items generalizing acc with
  | nil =>
    simp only [List.foldlM_nil, pure, Except.pure, Except.ok.injEq] at h
    rw [← h]
    simp
  | cons a t ih =>
    rw [List.foldlM_cons] at h
    cases hstep : reserveItem dm acc a with
    | error e =>
      rw [hstep] at h
      cases h
    | ok acc' =>
      rw [hstep] at h
      simp only [bind, Except.bind] at h
      rw [ih h, reserveItem_ok_fee hstep]
      split_ifs
      · simp only [List.map_cons, List.sum_cons]; ring
      · simp

theorem decimal2_intCast (n : Int) : decimal2 (n : ℚ) = 100 * n := by
  have h : (n : ℚ) = ofCents (100 * n) := by
    simp [ofCents]
  rw [h, decimal2_ofCents]

theorem createOrderTx_ok_fee {db : DB} {now userId : Nat} {req : OrderInput} {r : Nat × DB}
    (h : createOrderTx db now userId req = .ok r) :
    ∃ o ∈ r.2.orders, o.id = db.next_order_id ∧
      o.cutting_fee = .val (100 * requestCuttingFee req) := by
  unfold createOrderTx at h
  cases h1 : req.items.foldlM (reserveItem req.delivery_method) ⟨db, .fin 0, 0⟩ with
  | error e =>
    rw [h1] at h
    cases h
  | ok res =>
    rw [h1] at h
    simp only [bind, Except.bind] at h
    cases h2 : res.db.insertOrder now ("ORD-" ++ toString now) req.customer_name
        req.customer_phone req.customer_address req.plate_count req.notes req.delivery_method
        (res.totalAmount.add (.fin res.cuttingFee)) (.fin res.cuttingFee) none userId with
    | error e =>
      rw [h2] at h
      cases h
    | ok p =>
      rw [h2] at h
      obtain ⟨row, hrow, _, hfee, hp⟩ := insertOrder_ok h2
      rw [hp] at h
      simp only at h
      cases h3 : req.items.foldlM (insertItemOf res.db.next_order_id)
          { res.db with
            orders := res.db.orders ++ [row]
            next_order_id := res.db.next_order_id + 1 } with
      | error e =>
        rw [h3] at h
        cases h
      | ok db2 =>
        rw [h3] at h
        simp only [pure, Except.pure, Except.ok.injEq] at h
        obtain ⟨rows, hdb2, _, _⟩ := item_loop_ok h3
        have hres := reserve_loop_ok h1
        have hcf := reserve_loop_fee h1
        simp only at hres hcf
        rw [← h, hdb2]
        refine ⟨row, by simp, ?_, ?_⟩
        · rw [hrow, hres]
        · simp only [toPgDec, Except.ok.injEq] at hfee
          rw [← hfee, decimal2_intCast, hcf]
          simp [requestCuttingFee]

/-- C12. Whenever createOrder commits an order, the order row has the next key and its
cutting fee is `10 × Σ item.quantity` when the delivery method contains `cut`, and 0
otherwise (the column holds hundredths); of the four delivery methods the validator
accepts, `cut_then_delivery` and `sort_cut_delivery` contain `cut`, `direct` and
`sort_then_delivery` do not. -/
theorem createOrder_cutting_fee (db : DB) (now userId : Nat) (req : OrderInput)
    (hc : (createOrder db now userId req).2 ≠ db) :
    (∃ o ∈ (createOrder db now userId req).2.orders, o.id = db.next_order_id ∧
      o.cutting_fee = .val (100 *
        (if includes req.delivery_method "cut"
          then 10 * (req.items.map (fun it => it.quantity)).sum else 0))) ∧
    includes "cut_then_delivery" "cut" = true ∧ includes "sort_cut_delivery" "cut" = true ∧
    includes "direct" "cut" = false ∧ includes "sort_then_delivery" "cut" = false := by
  refine ⟨?_, by decide, by decide, by decide, by decide⟩
  rcases createOrder_cases db now userId req with hsame | ⟨r, htx, hr⟩
  · exact absurd hsame hc
  · rw [hr]
    exact createOrderTx_ok_fee htx

/-- C12 on the scenario store: 5 of X and 2 of Y with `cut_then_delivery` commits order 1
with cutting fee 70.00, and with `direct` with cutting fee 0. -/
theorem createOrder_cutting_fee_witness :
    (createOrder storeXY 7 1 (orderFor "cut_then_delivery"
      [orderLine 1 5, orderLine 2 2])).2.orders.map (fun o => (o.id, o.cutting_fee))
      = [(1, .val 7000)] ∧
    storeWithOrderXY.orders.map (fun o => (o.id, o.cutting_fee)) = [(1, .val 0)] ∧
    ∃ o ∈ (createOrder storeXY 7 1 (orderFor "cut_then_delivery"
        [orderLine 1 5, orderLine 2 2])).2.orders,
      o.id = 1 ∧ o.cutting_fee = .val (100 * (10 * (5 + 2))) := by
  refine ⟨by decide!, by decide!, ?_⟩
  obtain ⟨o, ho, hid, hfee⟩ := (createOrder_cutting_fee storeXY 7 1
    (orderFor "cut_then_delivery" [orderLine 1 5, orderLine 2 2]) (by decide!)).1
  refine ⟨o, ho, hid, ?_⟩
  rw [hfee]
  decide

/-! ## The status of an order -/

theorem setStatus_of_existing (db : DB) (now orderId : Nat) (status : String)
    (notes : Option String) (hv : validateOrderStatus status = [])
    (h : ∃ o ∈ db.orders, o.id = orderId) :
    setStatus db now orderId status notes =
      if status = "completed" then
        (statusUpdated,
          ((db.updateOrderStatus now status notes orderId).order_items.filter
            (fun it => it.order_id == orderId)).foldl
            (fun d item => d.setMaterialStatus "available" item.material_id)
            (db.updateOrderStatus now status notes orderId))
      else (statusUpdated, db.updateOrderStatus now status notes orderId) := by
  have hany : db.orders.any (fun o => o.id == orderId) = true := by
    rw [List.any_eq_true]
    obtain ⟨o, ho, hid⟩ := h
    exact ⟨o, ho, by simp [hid]⟩
  unfold setStatus
  rw [if_neg (by simp [hv]), if_neg (by simp [hany])]
  rfl

theorem complete_loop (rows : List OrderItem) (db : DB) :
    rows.foldl (fun d item => d.setMaterialStatus "available" item.material_id) db
      = { db with
          materials := db.materials.map (completedRow (rows.map (fun it => it.material_id))) } := by
  induction rows generalizing db with
  | nil =>
    have hid : completedRow [] = id := by
      funext m
      simp [completedRow]
    simp [hid]
  | cons a t ih =>
    rw [List.foldl_cons, ih]
    simp only [DB.setMaterialStatus, List.map_map, List.map_cons]
    congr 1
    apply List.map_congr_left
    intro m _
    simp only [Function.comp, completedRow, statusRow, List.mem_cons]
    by_cases hm : m.id = a.material_id
    · by_cases ht : a.material_id ∈ t.map (fun it => it.material_id)
      · simp [hm, ht]
      · simp [hm, ht]
    · simp [hm]

/-- C13. On an existing order, setStatus to `completed` answers 200; afterwards every
material that an item of the order refers to has status `available`, every other material
row is as it was, and no material quantity has changed. -/
theorem setStatus_completed (db : DB) (now orderId : Nat) (notes : Option String)
    (h : ∃ o ∈ db.orders, o.id = orderId) :
    (setStatus db now orderId "completed" notes).1.status = 200 ∧
    (setStatus db now orderId "completed" notes).2.materials
      = db.materials.map (completedRow (db.materialsOfOrder orderId)) ∧
    (∀ m ∈ (setStatus db now orderId "completed" notes).2.materials,
      m.id ∈ db.materialsOfOrder orderId → m.status = "available") ∧
    (setStatus db now orderId "completed" notes).2.materials.map (fun m => (m.id, m.quantity))
      = db.materials.map (fun m => (m.id, m.quantity)) := by
  have hM : (setStatus db now orderId "completed" notes).2.materials
      = db.materials.map (completedRow (db.materialsOfOrder orderId)) := by
    rw [setStatus_of_existing db now orderId "completed" notes (by decide) h, if_pos rfl,
      complete_loop]
    rfl
  have hS : (setStatus db now orderId "completed" notes).1.status = 200 := by
    rw [setStatus_of_existing db now orderId "completed" notes (by decide) h, if_pos rfl]
    rfl
  refine ⟨hS, hM, ?_, ?_⟩
  · rw [hM]
    intro m hm href
    rw [List.mem_map] at hm
    obtain ⟨x, _, hx⟩ := hm
    unfold completedRow at hx
    by_cases hxr : x.id ∈ db.materialsOfOrder orderId
    · rw [if_pos hxr] at hx
      rw [← hx]
    · rw [if_neg hxr] at hx
      rw [← hx] at href
      exact absurd href hxr
  · rw [hM, List.map_map]
    apply List.map_congr_left
    intro m _
    simp only [Function.comp, completedRow]
    split <;> rfl

/-- C13 on order 1 of the scenario: after completion X and Y are `available` and still
hold 5 and 1. -/
theorem setStatus_completed_witness :
    (∃ o ∈ storeWithOrderXY.orders, o.id = 1) ∧
    storeWithOrderXY.materials.map (fun m => (m.id, m.quantity, m.status))
      = [(1, 5, "reserved"), (2, 1, "reserved")] ∧
    (setStatus storeWithOrderXY 8 1 "completed" none).1.status = 200 ∧
    (setStatus storeWithOrderXY 8 1 "completed" none).2.materials.map
      (fun m => (m.id, m.quantity, m.status)) = [(1, 5, "available"), (2, 1, "available")] := by
  have hex : ∃ o ∈ storeWithOrderXY.orders, o.id = 1 := by decide!
  have h := setStatus_completed storeWithOrderXY 8 1 none hex
  exact ⟨hex, by decide!, h.1, by decide!⟩

/-- C14, as amended. On an existing order, setStatus to one of `pending`, `processing`,
`sorting`, `cutting`, `cancelled` answers 200 and rewrites, in the rows of that order
only, the status, the notes, which it takes from the request, and the update timestamp;
every other column and every other table, `materials` and `order_items` included, is as
it was. -/
theorem setStatus_plain_write (db : DB) (now orderId : Nat) (status : String)
    (notes : Option String)
    (hs : status ∈ ["pending", "processing", "sorting", "cutting", "cancelled"])
    (h : ∃ o ∈ db.orders, o.id = orderId) :
    (setStatus db now orderId status notes).1.status = 200 ∧
    (setStatus db now orderId status notes).2 =
      { db with
        orders := db.orders.map (fun o =>
          if o.id = orderId then { o with status := status, notes := notes, updated_at := now }
          else o) } ∧
    (setStatus db now orderId status notes).2.materials = db.materials ∧
    (setStatus db now orderId status notes).2.order_items = db.order_items := by
  have hv : validateOrderStatus status = [] := by
    simp only [List.mem_cons, List.mem_singleton, List.not_mem_nil, or_false] at hs
    rcases hs with rfl | rfl | rfl | rfl | rfl <;> decide
  have hne : status ≠ "completed" := by
    simp only [List.mem_cons, List.mem_singleton, List.not_mem_nil, or_false] at hs
    rcases hs with rfl | rfl | rfl | rfl | rfl <;> decide
  rw [setStatus_of_existing db now orderId status notes hv h, if_neg hne]
  exact ⟨rfl, rfl, rfl, rfl⟩

/-- C14 on order 1 of the scenario: `processing` with the note `started`. -/
theorem setStatus_plain_write_witness :
    (setStatus storeWithOrderXY 8 1 "processing" (some "started")).1.status = 200 ∧
    (setStatus storeWithOrderXY 8 1 "processing" (some "started")).2.orders.map
      (fun o => (o.id, o.status, o.notes, o.updated_at))
      = [(1, "processing", some "started", 8)] ∧
    (setStatus storeWithOrderXY 8 1 "processing" (some "started")).2.materials
      = storeWithOrderXY.materials := by
  have h := setStatus_plain_write storeWithOrderXY 8 1 "processing" (some "started")
    (by decide) (by decide!)
  exact ⟨h.1, by decide!, h.2.2.1⟩

/-- C14 as stated fails: order 1 was created with the note `fragile`; setStatus to
`processing` by a request without notes answers 200 and leaves the order without
notes. -/
theorem setStatus_notes_counterexample :
    storeWithNotedOrder.orders.map (fun o => (o.id, o.status, o.notes))
      = [(1, "pending", some "fragile")] ∧
    (setStatus storeWithNotedOrder 8 1 "processing" none).1.status = 200 ∧
    (setStatus storeWithNotedOrder 8 1 "processing" none).2.orders.map
      (fun o => (o.id, o.status, o.notes)) = [(1, "processing", none)] := by
  decide!

/-- C15, as amended. setStatus on an existing order writes any of the six statuses,
whatever the status of the order was: afterwards every row of that order has the new
status, so no status is terminal and no order of the transitions is imposed. A status
outside the six is refused with 400 and nothing changes. -/
theorem setStatus_any_transition (db : DB) (now orderId : Nat) (status : String)
    (notes : Option String) :
    (validateOrderStatus status = [] → (∃ o ∈ db.orders, o.id = orderId) →
      (setStatus db now orderId status notes).1.status = 200 ∧
      (∃ o ∈ (setStatus db now orderId status notes).2.orders, o.id = orderId) ∧
      ∀ o ∈ (setStatus db now orderId status notes).2.orders, o.id = orderId →
        o.status = status) ∧
    (validateOrderStatus status ≠ [] →
      (setStatus db now orderId status notes).1.status = 400 ∧
      (setStatus db now orderId status notes).2 = db) := by
  constructor
  · intro hv h
    have horders : (setStatus db now orderId status notes).2.orders
        = (db.updateOrderStatus now status notes orderId).orders := by
      rw [setStatus_of_existing db now orderId status notes hv h]
      split_ifs
      · rw [complete_loop]
      · rfl
    have hst : (setStatus db now orderId status notes).1.status = 200 := by
      rw [setStatus_of_existing db now orderId status notes hv h]
      split_ifs <;> rfl
    refine ⟨hst, ?_, ?_⟩
    · obtain ⟨o, ho, hid⟩ := h
      rw [horders]
      refine ⟨{ o with status := status, notes := notes, updated_at := now }, ?_, hid⟩
      simp only [DB.updateOrderStatus, List.mem_map]
      exact ⟨o, ho, by rw [if_pos hid]⟩
    · intro o ho hid
      rw [horders] at ho
      simp only [DB.updateOrderStatus, List.mem_map] at ho
      obtain ⟨x, _, hx⟩ := ho
      by_cases hxid : x.id = orderId
      · rw [if_pos hxid] at hx
        rw [← hx]
      · rw [if_neg hxid] at hx
        rw [← hx] at hid
        exact absurd hid hxid
  · intro hv
    unfold setStatus
    rw [if_pos hv]
    exact ⟨rfl, rfl⟩

/-- C15 on the completed order 1: it is set to `cancelled`, and a status `shipped` is
refused. -/
theorem setStatus_any_transition_witness :
    storeWithOrder.orders.map (fun o => (o.id, o.status)) = [(1, "completed")] ∧
    (setStatus storeWithOrder 8 1 "cancelled" none).1.status = 200 ∧
    (∀ o ∈ (setStatus storeWithOrder 8 1 "cancelled" none).2.orders, o.id = 1 →
      o.status = "cancelled") ∧
    (setStatus storeWithOrder 8 1 "shipped" none).1.status = 400 := by
  have h := (setStatus_any_transition storeWithOrder 8 1 "cancelled" none).1 (by decide)
    (by decide)
  have h' := (setStatus_any_transition storeWithOrder 8 1 "shipped" none).2 (by decide)
  exact ⟨by decide, h.1, h.2.2, h'.1⟩

/-- C15 as stated fails: order 1 is `completed`; setStatus to `pending` answers 200 and
the order is `pending`, and from there `cutting` is accepted directly. -/
theorem setStatus_terminal_counterexample :
    storeWithOrder.orders.map (fun o => (o.id, o.status)) = [(1, "completed")] ∧
    (setStatus storeWithOrder 8 1 "pending" none).1.status = 200 ∧
    (setStatus storeWithOrder 8 1 "pending" none).2.orders.map (fun o => (o.id, o.status))
      = [(1, "pending")] ∧
    (setStatus (setStatus storeWithOrder 8 1 "pending" none).2 9 1 "cutting" none).2.orders.map
      (fun o => (o.id, o.status)) = [(1, "cutting")] := by
  decide!

/-- C16, as amended. Cancelling an existing order (setStatus to `cancelled`) is a plain
status write: it answers 200, leaves the rows of the order with status `cancelled`, and
leaves every row of `materials`, quantity and status, and every row of `order_items` as
it was. What the order reserved stays reserved; of the order routes only deleteOrder
returns it. -/
theorem setStatus_cancelled_keeps_stock (db : DB) (now orderId : Nat) (notes : Option String)
    (h : ∃ o ∈ db.orders, o.id = orderId) :
    (setStatus db now orderId "cancelled" notes).1.status = 200 ∧
    (∀ o ∈ (setStatus db now orderId "cancelled" notes).2.orders,
      o.id = orderId → o.status = "cancelled") ∧
    (setStatus db now orderId "cancelled" notes).2.materials = db.materials ∧
    (setStatus db now orderId "cancelled" notes).2.order_items = db.order_items := by
  rw [setStatus_of_existing db now orderId "cancelled" notes (by decide) h,
    if_neg (by decide)]
  refine ⟨rfl, ?_, rfl, rfl⟩
  intro o ho hid
  simp only [DB.updateOrderStatus, List.mem_map] at ho
  obtain ⟨x, _, hx⟩ := ho
  by_cases hxid : x.id = orderId
  · rw [if_pos hxid] at hx
    rw [← hx]
  · rw [if_neg hxid] at hx
    rw [← hx] at hid
    exact absurd hid hxid

/-- C16 on order 1 of the scenario (5 of X and 2 of Y reserved): cancelling it leaves the
materials as they were. -/
theorem setStatus_cancelled_keeps_stock_witness :
    (∃ o ∈ storeWithOrderXY.orders, o.id = 1) ∧
    (setStatus storeWithOrderXY 8 1 "cancelled" none).1.status = 200 ∧
    (setStatus storeWithOrderXY 8 1 "cancelled" none).2.materials
      = storeWithOrderXY.materials ∧
    (setStatus storeWithOrderXY 8 1 "cancelled" none).2.order_items
      = storeWithOrderXY.order_items := by
  have hex : ∃ o ∈ storeWithOrderXY.orders, o.id = 1 := by decide!
  have h := setStatus_cancelled_keeps_stock storeWithOrderXY 8 1 none hex
  exact ⟨hex, h.1, h.2.2.1, h.2.2.2⟩

/-- C16 as stated fails on order 1 of the scenario (5 of X and 2 of Y reserved): setStatus
to `cancelled` answers 200 and leaves X and Y at 5 and 1, `reserved`, whereas deleteOrder
gives back 10 and 3, `available`. -/
theorem cancel_keeps_reservation :
    (setStatus storeWithOrderXY 8 1 "cancelled" none).1.status = 200 ∧
    (setStatus storeWithOrderXY 8 1 "cancelled" none).2.orders.map (fun o => (o.id, o.status))
      = [(1, "cancelled")] ∧
    (setStatus storeWithOrderXY 8 1 "cancelled" none).2.materials.map
      (fun m => (m.id, m.quantity, m.status)) = [(1, 5, "reserved"), (2, 1, "reserved")] ∧
    (deleteOrder storeWithOrderXY 1).2.materials.map
      (fun m => (m.id, m.quantity, m.status)) = [(1, 10, "available"), (2, 3, "available")] := by
  decide!

/-! ## Deleting an absent order -/

/-- C17. deleteOrder on an id that no row of `orders` has fails with the not-found error
thrown inside its transaction (the response carries its message, with status 500), and
the store is as before: no material, order or order item has changed. -/
theorem deleteOrder_absent (db : DB) (orderId : Nat) (h : ∀ o ∈ db.orders, o.id ≠ orderId) :
    deleteOrderTx db orderId = .error orderNotFound ∧
    (deleteOrder db orderId).1 = ⟨500, .message "الطلب غير موجود"⟩ ∧
    (deleteOrder db orderId).2 = db := by
  have hany : db.orders.any (fun o => o.id == orderId) = false := by
    rw [List.any_eq_false]
    intro o ho
    simpa using h o ho
  have htx : deleteOrderTx db orderId = .error orderNotFound := by
    unfold deleteOrderTx
    simp only [release_loop, hany, Bool.not_false, if_true]
    rfl
  refine ⟨htx, ?_, ?_⟩ <;>
    · unfold deleteOrder
      rw [htx]
      try rfl

/-- C17 on order 1 of the scenario: deleting order 2, which does not exist, changes
nothing. -/
theorem deleteOrder_absent_witness :
    (∀ o ∈ storeWithOrderXY.orders, o.id ≠ 2) ∧
    (deleteOrder storeWithOrderXY 2).1 = ⟨500, .message "الطلب غير موجود"⟩ ∧
    (deleteOrder storeWithOrderXY 2).2 = storeWithOrderXY := by
  have h := deleteOrder_absent storeWithOrderXY 2 (by decide!)
  exact ⟨by decide!, h.2.1, h.2.2⟩

/-- C18 fails: on the scenario store, `POST /orders` for 4 of Y (3 in stock) and for the
absent material 9 both answer 500, and `DELETE /orders/2`, an absent order, answers 500;
the status route answers 404 for the same absent order. -/
theorem order_errors_answer_500 :
    (createOrder storeXY 7 1 (orderFor "direct" [orderLine 2 4])).1
      = ⟨500, .message "الكمية غير كافية للمادة Y"⟩ ∧
    (createOrder storeXY 7 1 (orderFor "direct" [orderLine 9 1])).1
      = ⟨500, .message "المادة 9 غير متوفرة"⟩ ∧
    (deleteOrder storeXY 2).1 = ⟨500, .message "الطلب غير موجود"⟩ ∧
    (setStatus storeXY 8 2 "cancelled" none).1.status = 404 := by
  decide!

/-! ## Stock movements -/

theorem deleteOrderTx_ok_movements {db db' : DB} {orderId : Nat}
    (h : deleteOrderTx db orderId = .ok db') : db'.stock_movements = db.stock_movements := by
  unfold deleteOrderTx at h
  simp only [release_loop] at h
  split_ifs at h
  cases h
  rfl

theorem insertStockMovement_ok {db db' : DB} {material_id warehouse_id : Nat}
    {movement_type : String} {quantity : Int} {weight : Option ℚ} {reference_id : Option Nat}
    {reference_type notes : Option String} {created_by : Nat}
    (h : db.insertStockMovement material_id warehouse_id movement_type quantity weight
      reference_id reference_type notes created_by = .ok db') :
    ∃ row : StockMovement, row.material_id = material_id ∧ row.warehouse_id = warehouse_id ∧
      row.movement_type = movement_type ∧ row.quantity = quantity ∧
      db' = { db with
        stock_movements := db.stock_movements ++ [row]
        next_stock_movement_id := db.next_stock_movement_id + 1 } := by
  unfold DB.insertStockMovement at h
  split_ifs at h
  cases h
  exact ⟨_, rfl, rfl, rfl, rfl, rfl⟩

theorem creditTarget_ok_movements {db db' : DB} {req : TransferInput} {material : Material}
    (h : creditTarget db req material = .ok db') :
    db'.stock_movements = db.stock_movements := by
  unfold creditTarget at h
  split at h
  · cases h
    rfl
  · unfold DB.insertMaterial at h
    split_ifs at h
    cases h
    rfl

theorem transferTx_ok_movements {db db' : DB} {userId : Nat} {req : TransferInput}
    {material : Material} (h : transferTx db userId req material = .ok db') :
    ∃ out inn : StockMovement,
      db'.stock_movements = db.stock_movements ++ [out, inn] ∧
      out.movement_type = "transfer_out" ∧ out.warehouse_id = req.from_warehouse_id ∧
      out.quantity = req.quantity ∧
      inn.movement_type = "transfer_in" ∧ inn.warehouse_id = req.to_warehouse_id ∧
      inn.quantity = req.quantity := by
  unfold transferTx at h
  split at h
  · cases h
  · rename_i db2 h2
    split at h
    · cases h
    · rename_i db3 h3
      obtain ⟨out, _, ho2, ho3, ho4, hdb3⟩ := insertStockMovement_ok h3
      obtain ⟨inn, _, hi2, hi3, hi4, hdb'⟩ := insertStockMovement_ok h
      refine ⟨out, inn, ?_, ho3, ho2, ho4, hi3, hi2, hi4⟩
      rw [hdb', hdb3]
      simp only [List.append_assoc, List.singleton_append]
      rw [creditTarget_ok_movements h2]
      rfl

/-- C19 fails: createOrder for 5 of X and 2 of Y changes the quantities of both
materials, deleteOrder changes them back, and reserve and release change the quantity of
X; each call succeeds in changing the store, and `stock_movements` stays empty. The
transfer route does record its two movements. -/
theorem quantity_changes_without_movement :
    storeXY.materials.map (fun m => (m.id, m.quantity)) = [(1, 10), (2, 3)] ∧
    storeWithOrderXY.materials.map (fun m => (m.id, m.quantity)) = [(1, 5), (2, 1)] ∧
    storeWithOrderXY.stock_movements = [] ∧
    (deleteOrder storeWithOrderXY 1).1.status = 200 ∧
    (deleteOrder storeWithOrderXY 1).2.materials.map (fun m => (m.id, m.quantity))
      = [(1, 10), (2, 3)] ∧
    (deleteOrder storeWithOrderXY 1).2.stock_movements = [] ∧
    (reserve storeXY 1 4).1.status = 200 ∧
    (reserve storeXY 1 4).2.materials.map (fun m => (m.id, m.quantity)) = [(1, 6), (2, 3)] ∧
    (reserve storeXY 1 4).2.stock_movements = [] ∧
    (release storeXY 1 4).1.status = 200 ∧
    (release storeXY 1 4).2.materials.map (fun m => (m.id, m.quantity)) = [(1, 14), (2, 3)] ∧
    (release storeXY 1 4).2.stock_movements = [] ∧
    (transfer storeTwoWarehouses 1 ⟨1, 1, 2, 4, none⟩).2.stock_movements.map
      (fun s => (s.material_id, s.warehouse_id, s.movement_type, s.quantity))
      = [(1, 1, "transfer_out", 4), (1, 2, "transfer_in", 4)] := by
  refine ⟨by decide!, by decide!, by decide!, by decide!, by decide!, by decide!, by decide!,
    by decide!, by decide!, by decide!, by decide!, by decide!, by decide!⟩

/-- C20 fails: the validator of `POST /materials/:id/release` accepts the quantity −5; on
the scenario store, where Y holds 3, the route answers 200 and leaves Y with −2. The
transfer route accepts −4 as well and leaves the target row of X with −4. -/
theorem release_negative_quantity :
    (∀ m ∈ storeXY.materials, 0 ≤ m.quantity) ∧
    (release storeXY 2 (-5)).1.status = 200 ∧
    (release storeXY 2 (-5)).2.materials.map (fun m => (m.id, m.quantity))
      = [(1, 10), (2, -2)] ∧
    (transfer storeTwoWarehouses 1 ⟨1, 1, 2, -4, none⟩).1.status = 200 ∧
    (transfer storeTwoWarehouses 1 ⟨1, 1, 2, -4, none⟩).2.materials.map
      (fun m => (m.id, m.warehouse_id, m.quantity)) = [(1, 1, 14), (2, 1, 3), (3, 2, -4)] := by
  decide!

/-! ## The shape of a successful transfer -/

theorem quantityRow_id (d : Int) (k : Nat) (m : Material) : (quantityRow d k m).id = m.id := by
  unfold quantityRow
  split_ifs <;> rfl

theorem quantityRow_name (d : Int) (k : Nat) (m : Material) :
    (quantityRow d k m).name = m.name := by
  unfold quantityRow
  split_ifs <;> rfl

theorem quantityRow_warehouse (d : Int) (k : Nat) (m : Material) :
    (quantityRow d k m).warehouse_id = m.warehouse_id := by
  unfold quantityRow
  split_ifs <;> rfl

theorem quantityRow_of_ne {d : Int} {k : Nat} {m : Material} (h : m.id ≠ k) :
    quantityRow d k m = m := by
  simp [quantityRow, h]

theorem quantityRow_of_eq {d : Int} {k : Nat} {m : Material} (h : m.id = k) :
    quantityRow d k m = { m with quantity := m.quantity + d } := by
  simp [quantityRow, h]

theorem map_quantityRow_ids (d : Int) (k : Nat) (l : List Material) :
    (l.map (quantityRow d k)).map (fun m => m.id) = l.map (fun m => m.id) := by
  rw [List.map_map]
  apply List.map_congr_left
  intro m _
  exact quantityRow_id d k m

theorem map_quantityRow_absent {d : Int} {k : Nat} {l : List Material}
    (h : ∀ x ∈ l, x.id ≠ k) : l.map (quantityRow d k) = l := by
  conv_rhs => rw [← List.map_id l]
  apply List.map_congr_left
  intro m hm
  exact quantityRow_of_ne (h m hm)

/-- One `UPDATE ... SET quantity = quantity + d WHERE id = k` on a table with unique ids
and a row of id `k` adds `d` to the sum of the quantities. -/
theorem sum_quantityRow {d : Int} {k : Nat} :
    ∀ {l : List Material}, (l.map (fun m => m.id)).Nodup → (∃ x ∈ l, x.id = k) →
      ((l.map (quantityRow d k)).map (fun m => m.quantity)).sum
        = (l.map (fun m => m.quantity)).sum + d
  | [], _, h => by
    obtain ⟨x, hx, _⟩ := h
    cases hx
  | a :: t, hnd, h => by
    rw [List.map_cons, List.nodup_cons] at hnd
    by_cases ha : a.id = k
    · have habs : ∀ x ∈ t, x.id ≠ k := by
        intro x hx hxk
        apply hnd.1
        rw [List.mem_map]
        exact ⟨x, hx, by rw [hxk, ha]⟩
      rw [List.map_cons, map_quantityRow_absent habs, quantityRow_of_eq ha]
      simp only [List.map_cons, List.sum_cons]
      ring
    · have hex : ∃ x ∈ t, x.id = k := by
        obtain ⟨x, hx, hxk⟩ := h
        rcases List.mem_cons.1 hx with rfl | hx
        · exact absurd hxk ha
        · exact ⟨x, hx, hxk⟩
      rw [List.map_cons, quantityRow_of_ne ha]
      simp only [List.map_cons, List.sum_cons]
      rw [sum_quantityRow hnd.2 hex]
      ring

/-- A transfer that answers 200 found the material in the source warehouse and ran its
transaction to the end. -/
theorem transfer_ok {db : DB} {userId : Nat} {req : TransferInput}
    (h200 : (transfer db userId req).1.status = 200) :
    ∃ m, db.materials.find?
        (fun m => m.id == req.material_id && m.warehouse_id == req.from_warehouse_id) = some m ∧
      ¬ m.quantity < req.quantity ∧
      transferTx db userId req m = .ok (transfer db userId req).2 := by
  unfold transfer at h200 ⊢
  cases hfind : db.materials.find?
      (fun m => m.id == req.material_id && m.warehouse_id == req.from_warehouse_id) with
  | none => simp [hfind] at h200
  | some material =>
    simp only [hfind] at h200 ⊢
    by_cases hq : material.quantity < req.quantity
    · simp [hq] at h200
    · simp only [hq, if_false] at h200 ⊢
      cases htx : transferTx db userId req material with
      | error e => simp [htx, serverError] at h200
      | ok db2 => exact ⟨material, rfl, hq, htx⟩

theorem insertStockMovement_ok_materials {db db' : DB} {material_id warehouse_id : Nat}
    {movement_type : String} {quantity : Int} {weight : Option ℚ} {reference_id : Option Nat}
    {reference_type notes : Option String} {created_by : Nat}
    (h : db.insertStockMovement material_id warehouse_id movement_type quantity weight
      reference_id reference_type notes created_by = .ok db') :
    db'.materials = db.materials := by
  obtain ⟨row, _, _, _, _, hdb⟩ := insertStockMovement_ok h
  rw [hdb]

/-- The material rows after the statements of a transfer. -/
theorem transferTx_ok_materials {db db' : DB} {userId : Nat} {req : TransferInput}
    {material : Material} (h : transferTx db userId req material = .ok db') :
    (∃ t, (db.materials.map (quantityRow (-req.quantity) req.material_id)).find?
        (fun m => m.name == material.name && m.warehouse_id == req.to_warehouse_id) = some t ∧
      db'.materials = (db.materials.map (quantityRow (-req.quantity) req.material_id)).map
        (quantityRow req.quantity t.id)) ∨
    ((db.materials.map (quantityRow (-req.quantity) req.material_id)).find?
        (fun m => m.name == material.name && m.warehouse_id == req.to_warehouse_id) = none ∧
      db'.materials = db.materials.map (quantityRow (-req.quantity) req.material_id)
        ++ [transferredRow db req material]) := by
  unfold transferTx at h
  split at h
  · cases h
  · rename_i db2 h2
    split at h
    · cases h
    · rename_i db3 h3
      rw [insertStockMovement_ok_materials h, insertStockMovement_ok_materials h3]
      unfold creditTarget at h2
      simp only [DB.addQuantity] at h2
      split at h2
      · rename_i t ht
        cases h2
        exact Or.inl ⟨t, ht, rfl⟩
      · rename_i hnone
        unfold DB.insertMaterial at h2
        split_ifs at h2
        cases h2
        exact Or.inr ⟨hnone, rfl⟩

/-! ## The statuses of the invoices -/

theorem valid_of_invoices_eq {db db' : DB} (h : db'.invoices = db.invoices)
    (hv : db.InvoiceStatusesValid) : db'.InvoiceStatusesValid := by
  unfold DB.InvoiceStatusesValid
  rw [h]
  exact hv

theorem valid_map {db db' : DB} (f : Invoice → Invoice)
    (hf : ∀ i, (f i).status = i.status ∨ (f i).status ∈ invoiceStatuses)
    (h : db'.invoices = db.invoices.map f) (hv : db.InvoiceStatusesValid) :
    db'.InvoiceStatusesValid := by
  unfold DB.InvoiceStatusesValid
  rw [h]
  intro i hi
  obtain ⟨j, hj, rfl⟩ := List.mem_map.1 hi
  rcases hf j with h1 | h1
  · rw [h1]
    exact hv j hj
  · exact h1

theorem valid_append {db db' : DB} (row : Invoice) (hrow : row.status ∈ invoiceStatuses)
    (h : db'.invoices = db.invoices ++ [row]) (hv : db.InvoiceStatusesValid) :
    db'.InvoiceStatusesValid := by
  unfold DB.InvoiceStatusesValid
  rw [h]
  intro i hi
  rcases List.mem_append.1 hi with h1 | h1
  · exact hv i h1
  · rw [List.mem_singleton.1 h1]
    exact hrow

theorem draft_mem : "draft" ∈ invoiceStatuses := by
  unfold invoiceStatuses
  decide

theorem approved_mem : "approved" ∈ invoiceStatuses := by
  unfold invoiceStatuses
  decide

theorem paid_mem : "paid" ∈ invoiceStatuses := by
  unfold invoiceStatuses
  decide

theorem createInvoice_valid (db : DB) (now userId : Nat) (req : InvoiceInput)
    (hv : db.InvoiceStatusesValid) : (createInvoice db now userId req).2.InvoiceStatusesValid := by
  rcases createInvoice_cases db now userId req with h | ⟨r, htx, hr, _⟩
  · rw [h]
    exact hv
  · apply valid_append (createdInvoice db now userId req) _ _ hv
    · exact draft_mem
    · rw [hr]
      exact createInvoiceTx_ok_invoices htx

theorem updateInvoiceTotals_valid {db db' : DB} {now invoiceId : Nat}
    (h : updateInvoiceTotals db now invoiceId = .ok db') (hv : db.InvoiceStatusesValid) :
    db'.InvoiceStatusesValid := by
  unfold updateInvoiceTotals at h
  split at h
  · cases h
  · cases h
    refine valid_map _ ?_ rfl hv
    intro i
    left
    split_ifs <;> rfl

theorem insertInvoiceItem_ok_invoices {db db' : DB} {invoice_id : Nat}
    {material_name description : String} {quantity : Int} {unit_price total_price : ℚ}
    {material_id : Option Nat} {notes : String}
    (h : db.insertInvoiceItem invoice_id material_name description quantity unit_price
      total_price material_id notes = .ok db') : db'.invoices = db.invoices := by
  unfold DB.insertInvoiceItem at h
  split_ifs at h
  cases h
  rfl

theorem itemCall_valid (db : DB) (now invoiceId : Nat) (c : ItemCall)
    (hv : db.InvoiceStatusesValid) : (itemCall db now invoiceId c).2.InvoiceStatusesValid := by
  cases c with
  | add item =>
    simp only [itemCall, addItem]
    split_ifs
    · exact hv
    · split
      · exact hv
      · rename_i db1 h1
        have hv1 := valid_of_invoices_eq (insertInvoiceItem_ok_invoices h1) hv
        split
        · exact hv1
        · rename_i db2 h2
          exact updateInvoiceTotals_valid h2 hv1
  | update itemId item =>
    simp only [itemCall, updateItem]
    split_ifs
    · exact hv
    · exact hv
    · exact hv
    · have hv1 : (db.updateInvoiceItem itemId invoiceId item.material_name
          (orEmpty item.description) item.quantity (toDouble item.unit_price)
          (lineTotal item) (orNull item.material_id)
          (orEmpty item.notes)).InvoiceStatusesValid := valid_of_invoices_eq rfl hv
      split
      · exact hv1
      · rename_i db2 h2
        exact updateInvoiceTotals_valid h2 hv1
  | delete itemId =>
    simp only [itemCall, deleteItem]
    split_ifs
    · exact hv
    · have hv1 : (db.deleteInvoiceItem itemId invoiceId).InvoiceStatusesValid :=
        valid_of_invoices_eq rfl hv
      split
      · exact hv1
      · rename_i db2 h2
        exact updateInvoiceTotals_valid h2 hv1

theorem updateInvoice_valid (db : DB) (now invoiceId : Nat) (req : InvoiceInput)
    (hv : db.InvoiceStatusesValid) : (updateInvoice db now invoiceId req).2.InvoiceStatusesValid := by
  unfold updateInvoice
  split_ifs
  · exact hv
  · cases htx : updateInvoiceTx db now invoiceId req with
    | error e => exact hv
    | ok db2 =>
      unfold updateInvoiceTx at htx
      simp only at htx
      have h := insertItems_ok htx
      refine valid_map _ ?_ (by rw [h]; rfl) hv
      intro i
      left
      split_ifs <;> rfl

theorem setInvoiceStatus_valid (db : DB) (now invoiceId : Nat) (status : String)
    (hv : db.InvoiceStatusesValid) :
    (setInvoiceStatus db now invoiceId status).2.InvoiceStatusesValid := by
  unfold setInvoiceStatus
  split_ifs with h1 h2
  · exact hv
  · exact hv
  · have hs : status ∈ invoiceStatuses := by
      unfold validateInvoiceStatus at h1
      by_contra hn
      apply h1
      unfold invoiceStatuses at hn
      simp [hn]
    refine valid_map _ ?_ rfl hv
    intro i
    split_ifs
    · exact Or.inr hs
    · exact Or.inl rfl

theorem approveInvoice_valid (db : DB) (now userId invoiceId : Nat)
    (hv : db.InvoiceStatusesValid) :
    (approveInvoice db now userId invoiceId).2.InvoiceStatusesValid := by
  unfold approveInvoice
  split_ifs
  · exact hv
  · refine valid_map _ ?_ rfl hv
    intro i
    split_ifs
    · exact Or.inr approved_mem
    · exact Or.inl rfl

theorem payInvoice_valid (db : DB) (now invoiceId : Nat) (hv : db.InvoiceStatusesValid) :
    (payInvoice db now invoiceId).2.InvoiceStatusesValid := by
  unfold payInvoice
  split_ifs
  · exact hv
  · refine valid_map _ ?_ rfl hv
    intro i
    split_ifs
    · exact Or.inr paid_mem
    · exact Or.inl rfl

theorem deleteInvoice_valid (db : DB) (invoiceId : Nat) (hv : db.InvoiceStatusesValid) :
    (deleteInvoice db invoiceId).2.InvoiceStatusesValid := by
  unfold deleteInvoice
  split_ifs
  · exact hv
  · intro i hi
    exact hv i (List.mem_filter.1 hi).1

theorem seedOrderItems_invoices (orderId : Nat) (ms : List SampleMaterial) (db : DB) :
    (∀ d, seedOrderItems orderId ms db = .ok d → d.invoices = db.invoices) ∧
    (∀ x, seedOrderItems orderId ms db = .error x → x.2.invoices = db.invoices) := by
  induction ms generalizing db with
  | nil =>
    constructor
    · intro d h
      cases h
      rfl
    · intro x h
      cases h
  | cons m rest ih =>
    unfold seedOrderItems
    split
    · constructor
      · intro d h
        cases h
      · intro x h
        cases h
        rfl
    · rename_i db1 h1
      obtain ⟨row, _, _, _, _, _, hdb1⟩ := insertOrderItem_ok h1
      have h1i : db1.invoices = db.invoices := by rw [hdb1]
      constructor
      · intro d h
        rw [(ih db1).1 d h, h1i]
      · intro x h
        rw [(ih db1).2 x h, h1i]

theorem seedOrders_invoices (now userId : Nat) (os : List SampleOrder) (db : DB) :
    (∀ d, seedOrders now userId os db = .ok d → d.invoices = db.invoices) ∧
    (∀ x, seedOrders now userId os db = .error x → x.2.invoices = db.invoices) := by
  induction os generalizing db with
  | nil =>
    constructor
    · intro d h
      cases h
      rfl
    · intro x h
      cases h
  | cons o rest ih =>
    unfold seedOrders
    split
    · constructor
      · intro d h
        cases h
      · intro x h
        cases h
        rfl
    · rename_i orderId db1 h1
      obtain ⟨row, _, _, _, hp⟩ := insertOrder_ok h1
      have h1i : db1.invoices = db.invoices := by
        cases hp
        rfl
      split
      · rename_i x hx
        constructor
        · intro d h
          cases h
        · intro y h
          cases h
          rw [(seedOrderItems_invoices orderId sampleMaterials db1).2 _ hx, h1i]
      · rename_i db2 h2
        have h2i : db2.invoices = db.invoices := by
          rw [(seedOrderItems_invoices orderId sampleMaterials db1).1 _ h2, h1i]
        constructor
        · intro d h
          rw [(ih db2).1 d h, h2i]
        · intro x h
          rw [(ih db2).2 x h, h2i]

theorem insertInvoice_valid {db : DB} {now : Nat} {invoice_number : String} {order_id : Nat}
    {customer_name : String} {customer_phone customer_address : Option String}
    {subtotal : ℚ} {cutting_fee discount : Option ℚ} {tax total_amount : ℚ}
    {status : Option String} {notes : Option String} {created_by : Nat} {r : Nat × DB}
    (h : db.insertInvoice now invoice_number order_id customer_name customer_phone
      customer_address subtotal cutting_fee discount tax total_amount status notes created_by
      = .ok r) (hs : status.getD "draft" ∈ invoiceStatuses) (hv : db.InvoiceStatusesValid) :
    r.2.InvoiceStatusesValid := by
  unfold DB.insertInvoice at h
  split_ifs at h
  cases h
  exact valid_append _ hs rfl hv

theorem seedInvoices_valid (now userId : Nat) (is : List SampleInvoice) (db : DB)
    (hs : ∀ i ∈ is, i.status ∈ invoiceStatuses) (hv : db.InvoiceStatusesValid) :
    (∀ d, seedInvoices now userId is db = .ok d → d.InvoiceStatusesValid) ∧
    (∀ x, seedInvoices now userId is db = .error x → x.2.InvoiceStatusesValid) := by
  induction is generalizing db with
  | nil =>
    constructor
    · intro d h
      cases h
      exact hv
    · intro x h
      cases h
  | cons i rest ih =>
    unfold seedInvoices
    split
    · constructor
      · intro d h
        cases h
      · intro x h
        cases h
        exact hv
    · rename_i k db1 h1
      have hv1 : db1.InvoiceStatusesValid :=
        insertInvoice_valid h1 (hs i (List.mem_cons_self _ _)) hv
      exact ih db1 (fun j hj => hs j (List.mem_cons_of_mem _ hj)) hv1

theorem sampleInvoices_statuses (order0 order1 : Nat) :
    ∀ i ∈ sampleInvoices order0 order1, i.status ∈ invoiceStatuses := by
  intro i hi
  simp only [sampleInvoices, List.mem_cons, List.mem_singleton, List.not_mem_nil, or_false] at hi
  rcases hi with rfl | rfl
  · exact paid_mem
  · exact approved_mem

theorem seedInvoicesRoute_valid (db : DB) (now userId : Nat) (userType : String)
    (hv : db.InvoiceStatusesValid) :
    (seedInvoicesRoute db now userId userType).2.InvoiceStatusesValid := by
  unfold seedInvoicesRoute
  split_ifs with h1 h2
  · exact hv
  · exact hv
  · simp only
    have hprep : ∀ r : Except (Fault × DB) (List Nat × DB),
        (if (db.completedOrderIds.take 2).length = 0 then
          match seedOrders now userId sampleOrders db with
          | .error x => .error x
          | .ok db1 =>
            .ok (db.completedOrderIds.take 2
              ++ (db1.completedOrderIds.insertionSort (fun a b => b ≤ a)).take 2, db1)
        else .ok (db.completedOrderIds.take 2, db)) = r →
        (∀ x, r = .error x → x.2.InvoiceStatusesValid) ∧
        (∀ p, r = .ok p → p.2.InvoiceStatusesValid) := by
      intro r hr
      split_ifs at hr
      · split at hr
        · rename_i x hx
          subst hr
          constructor
          · intro y hy
            cases hy
            exact valid_of_invoices_eq ((seedOrders_invoices now userId sampleOrders db).2 _ hx) hv
          · intro p hp
            cases hp
        · rename_i db1 hx
          subst hr
          constructor
          · intro y hy
            cases hy
          · intro p hp
            cases hp
            exact valid_of_invoices_eq ((seedOrders_invoices now userId sampleOrders db).1 _ hx) hv
      · subst hr
        constructor
        · intro y hy
          cases hy
        · intro p hp
          cases hp
          exact hv
    split
    · rename_i e db1 heq
      exact ((hprep _ heq).1 _ rfl)
    · rename_i order0 order1 rest db1 heq
      have hv1 : db1.InvoiceStatusesValid := (hprep _ heq).2 _ rfl
      split
      · rename_i e db2 h2
        exact (seedInvoices_valid now userId _ db1 (sampleInvoices_statuses order0 order1) hv1).2
          _ h2
      · rename_i db2 h2
        exact (seedInvoices_valid now userId _ db1 (sampleInvoices_statuses order0 order1) hv1).1
          _ h2
    · rename_i l db1 hne heq
      exact (hprep _ heq).2 _ rfl

theorem createOrder_invoices (db : DB) (now userId : Nat) (req : OrderInput) :
    (createOrder db now userId req).2.invoices = db.invoices := by
  rcases createOrder_cases db now userId req with h | ⟨r, htx, hr⟩
  · rw [h]
  · obtain ⟨row, rows, _, _, _, _, _, hshape⟩ := createOrderTx_ok htx
    rw [hr, hshape]

theorem setStatus_invoices (db : DB) (now orderId : Nat) (status : String)
    (notes : Option String) : (setStatus db now orderId status notes).2.invoices = db.invoices := by
  unfold setStatus
  split_ifs
  · rfl
  · rfl
  · simp only [complete_loop]
    rfl
  · rfl

theorem deleteOrder_invoices (db : DB) (orderId : Nat) :
    (deleteOrder db orderId).2.invoices = db.invoices := by
  unfold deleteOrder
  split
  · rfl
  · rename_i db2 h
    unfold deleteOrderTx at h
    simp only [release_loop] at h
    split_ifs at h
    cases h
    rfl

theorem reserve_invoices (db : DB) (materialId : Nat) (quantity : Int) :
    (reserve db materialId quantity).2.invoices = db.invoices := by
  unfold reserve
  split
  · rfl
  · split_ifs <;> rfl

theorem release_invoices (db : DB) (materialId : Nat) (quantity : ℚ) :
    (release db materialId quantity).2.invoices = db.invoices := by
  unfold release
  split_ifs <;> rfl

theorem transferTx_ok_invoices {db db' : DB} {userId : Nat} {req : TransferInput}
    {material : Material} (h : transferTx db userId req material = .ok db') :
    db'.invoices = db.invoices := by
  unfold transferTx at h
  split at h
  · cases h
  · rename_i db2 h2
    split at h
    · cases h
    · rename_i db3 h3
      obtain ⟨_, _, _, _, _, hdb3⟩ := insertStockMovement_ok h3
      obtain ⟨_, _, _, _, _, hdb'⟩ := insertStockMovement_ok h
      have h2i : db2.invoices = db.invoices := by
        unfold creditTarget at h2
        split at h2
        · cases h2
          rfl
        · unfold DB.insertMaterial at h2
          split_ifs at h2
          cases h2
          rfl
      rw [hdb', hdb3]
      exact h2i

theorem transfer_invoices (db : DB) (userId : Nat) (req : TransferInput) :
    (transfer db userId req).2.invoices = db.invoices := by
  unfold transfer
  split
  · rfl
  · split_ifs
    · rfl
    · split
      · rfl
      · rename_i db2 h
        exact transferTx_ok_invoices h

theorem createCount_invoices (db : DB) (userId warehouse_id material_id : Nat)
    (counted_quantity : Int) (notes : Option String) :
    (createCount db userId warehouse_id material_id counted_quantity notes).2.invoices
      = db.invoices := by
  unfold createCount
  split
  · rfl
  · simp only
    split
    · rfl
    · rename_i db1 h
      unfold DB.insertInventoryCount at h
      split_ifs at h
      cases h
      rfl

theorem approveCount_invoices (db : DB) (userId countId : Nat) :
    (approveCount db userId countId).2.invoices = db.invoices := by
  unfold approveCount
  split
  · rfl
  · simp only [DB.approveCountRow]
    rfl

theorem deleteMaterial_invoices (db : DB) (materialId : Nat) :
    (deleteMaterial db materialId).2.invoices = db.invoices := by
  unfold deleteMaterial
  simp only
  split_ifs
  · rfl
  · rfl
  · split
    · rfl
    · rename_i db1 h
      unfold DB.deleteMaterialRow at h
      split_ifs at h
      cases h
      rfl

theorem bulkDeleteLoop_invoices (ids : List Nat) (db : DB) :
    (bulkDeleteLoop ids db).2.invoices = db.invoices := by
  induction ids generalizing db with
  | nil => rfl
  | cons k rest ih =>
    unfold bulkDeleteLoop
    simp only
    split_ifs
    · rfl
    · split
      · rfl
      · rename_i db1 h
        rw [ih db1]
        unfold DB.deleteWarehouseRow at h
        split_ifs at h
        cases h
        rfl

/-- Every modelled route keeps the statuses of the invoices in the set of five. -/
theorem handle_valid (db : DB) (now : Nat) (c : Call) (hv : db.InvoiceStatusesValid) :
    (handle db now c).2.InvoiceStatusesValid := by
  cases c with
  | createInvoice userId req => exact createInvoice_valid db now userId req hv
  | updateInvoice invoiceId req => exact updateInvoice_valid db now invoiceId req hv
  | item invoiceId c => exact itemCall_valid db now invoiceId c hv
  | setInvoiceStatus invoiceId status => exact setInvoiceStatus_valid db now invoiceId status hv
  | approveInvoice userId invoiceId => exact approveInvoice_valid db now userId invoiceId hv
  | payInvoice invoiceId => exact payInvoice_valid db now invoiceId hv
  | deleteInvoice invoiceId => exact deleteInvoice_valid db invoiceId hv
  | seedInvoices userId userType => exact seedInvoicesRoute_valid db now userId userType hv
  | createOrder userId req => exact valid_of_invoices_eq (createOrder_invoices db now userId req) hv
  | setStatus orderId status notes =>
    exact valid_of_invoices_eq (setStatus_invoices db now orderId status notes) hv
  | deleteOrder orderId => exact valid_of_invoices_eq (deleteOrder_invoices db orderId) hv
  | reserve materialId quantity =>
    exact valid_of_invoices_eq (reserve_invoices db materialId quantity) hv
  | release materialId quantity =>
    exact valid_of_invoices_eq (release_invoices db materialId quantity) hv
  | transfer userId req => exact valid_of_invoices_eq (transfer_invoices db userId req) hv
  | createCount userId warehouse_id material_id counted_quantity notes =>
    exact valid_of_invoices_eq
      (createCount_invoices db userId warehouse_id material_id counted_quantity notes) hv
  | approveCount userId countId =>
    exact valid_of_invoices_eq (approveCount_invoices db userId countId) hv
  | deleteMaterial materialId =>
    exact valid_of_invoices_eq (deleteMaterial_invoices db materialId) hv
  | bulkDeleteWarehouses warehouse_ids =>
    exact valid_of_invoices_eq (bulkDeleteLoop_invoices warehouse_ids db) hv

theorem run_valid (calls : List (Nat × Call)) :
    ∀ db : DB, db.InvoiceStatusesValid → (run db calls).InvoiceStatusesValid := by
  induction calls with
  | nil =>
    intro db hv
    exact hv
  | cons c rest ih =>
    intro db hv
    obtain ⟨now, c⟩ := c
    exact ih _ (handle_valid db now c hv)

/-! ## Reserving and releasing through the material routes -/

/-- C21 fails: material 1 holds 5 and is `damaged`; `POST /materials/1/reserve` for 2
answers 200 and leaves it with 3, `reserved`. The route reads the status and tests the
quantity only: for 6 it answers 400, and for an absent material 404, changing nothing. -/
theorem reserve_ignores_status :
    storeDamaged.materials.map (fun m => (m.id, m.quantity, m.status)) = [(1, 5, "damaged")] ∧
    (reserve storeDamaged 1 2).1.status = 200 ∧
    (reserve storeDamaged 1 2).2.materials.map (fun m => (m.id, m.quantity, m.status))
      = [(1, 3, "reserved")] ∧
    (reserve storeDamaged 1 6).1.status = 400 ∧ (reserve storeDamaged 1 6).2 = storeDamaged ∧
    (reserve storeDamaged 9 1).1.status = 404 ∧ (reserve storeDamaged 9 1).2 = storeDamaged := by
  decide!

/-- C22, as amended. `POST /materials/:id/release` with an integer quantity `q` of the
`INTEGER` range, when no row of the material would leave that range, answers 200: every
row of the material then holds its old quantity plus `q` and has status `available`,
whatever its status was and however much was reserved, and every other row and table is
as it was. With a quantity that is not an integer of that range, or when the sum leaves
the range for some row of the material, the route answers 500 and changes nothing. -/
theorem release_in_range (db : DB) (materialId : Nat) :
    (∀ q : Int, inInteger q = true →
      (∀ m ∈ db.materials, m.id = materialId → inInteger (m.quantity + q) = true) →
      (release db materialId q).1.status = 200 ∧
      (release db materialId q).2
        = { db with materials := db.materials.map (adjustRow q "available" materialId) } ∧
      (∀ m ∈ db.materials, m.id = materialId →
        { m with quantity := m.quantity + q, status := "available" }
          ∈ (release db materialId q).2.materials) ∧
      (∀ m ∈ db.materials, m.id ≠ materialId → m ∈ (release db materialId q).2.materials)) ∧
    (∀ quantity : ℚ,
      (quantity.den ≠ 1 ∨ inInteger quantity.num = false ∨
        ∃ m ∈ db.materials, m.id = materialId ∧ inInteger (m.quantity + quantity.num) = false) →
      (release db materialId quantity).1.status = 500 ∧
      (release db materialId quantity).2 = db) := by
  constructor
  · intro q hq hr
    have hden : ((q : ℚ)).den = 1 := Rat.intCast_den q
    have hnum : ((q : ℚ)).num = q := Rat.intCast_num q
    have hany : db.materials.any
        (fun m => m.id == materialId && !inInteger (m.quantity + ((q : ℚ)).num)) = false := by
      rw [List.any_eq_false]
      intro m hm
      rw [hnum]
      by_cases hid : m.id = materialId
      · simp [hid, hr m hm hid]
      · simp [hid]
    have hrel : release db materialId q
        = (⟨200, .message "تم إلغاء حجز المواد بنجاح"⟩,
            db.adjustMaterial q "available" materialId) := by
      unfold release
      rw [if_neg (by rw [hden, hnum, hq]; simp), hany, hnum]
      simp
    rw [hrel]
    refine ⟨rfl, rfl, ?_, ?_⟩
    · intro m hm hid
      simp only [DB.adjustMaterial, List.mem_map]
      exact ⟨m, hm, by simp [adjustRow, hid]⟩
    · intro m hm hid
      simp only [DB.adjustMaterial, List.mem_map]
      exact ⟨m, hm, by simp [adjustRow, hid]⟩
  · intro quantity h
    unfold release
    by_cases h1 : quantity.den ≠ 1 ∨ inInteger quantity.num = false
    · rw [if_pos h1]
      exact ⟨rfl, rfl⟩
    · rw [if_neg h1]
      rcases h with h | h | ⟨m, hm, hid, hover⟩
      · exact absurd (Or.inl h) h1
      · exact absurd (Or.inr h) h1
      · have hany : db.materials.any
            (fun m => m.id == materialId && !inInteger (m.quantity + quantity.num)) = true := by
          rw [List.any_eq_true]
          exact ⟨m, hm, by simp [hid, hover]⟩
        rw [hany]
        exact ⟨rfl, rfl⟩

/-- C22 on order 1 of the scenario, where X holds 5 and is `reserved`: releasing 5 gives
10, `available`; releasing 1 from the `damaged` material gives 6, `available`. -/
theorem release_in_range_witness :
    (release storeWithOrderXY 1 5).1.status = 200 ∧
    (release storeWithOrderXY 1 5).2.materials.map (fun m => (m.id, m.quantity, m.status))
      = [(1, 10, "available"), (2, 1, "reserved")] ∧
    (release storeDamaged 1 1).2.materials.map (fun m => (m.id, m.quantity, m.status))
      = [(1, 6, "available")] := by
  have h := (release_in_range storeWithOrderXY 1).1 5 (by decide) (by decide!)
  exact ⟨by exact_mod_cast h.1, by decide!, by decide!⟩

/-- C22 as stated fails: on the scenario store, where X holds 10, releasing 2147483647
of X answers 500 and changes nothing, the sum being out of the range of the `INTEGER`
column; releasing 2.5, which the validator accepts, answers 500 as well. -/
theorem release_failure_counterexample :
    storeXY.materials.map (fun m => (m.id, m.quantity)) = [(1, 10), (2, 3)] ∧
    (release storeXY 1 2147483647).1.status = 500 ∧
    (release storeXY 1 2147483647).2 = storeXY ∧
    (release storeXY 1 (5 / 2)).1.status = 500 ∧
    (release storeXY 1 (5 / 2)).2 = storeXY := by
  refine ⟨by decide!, by decide!, by decide!, by decide!, by decide!⟩

/-! ## The checks of a transfer -/

/-- C24. A transfer of a material that has no row in the source warehouse answers 404,
and a transfer of more than the row read in the source warehouse holds answers 400; in
both cases the store is as before: no material row and no stock movement is changed or
added. -/
theorem transfer_rejections (db : DB) (userId : Nat) (req : TransferInput) :
    ((∀ m ∈ db.materials,
        ¬(m.id = req.material_id ∧ m.warehouse_id = req.from_warehouse_id)) →
      (transfer db userId req).1.status = 404 ∧ (transfer db userId req).2 = db) ∧
    (∀ m, db.materials.find?
        (fun m => m.id == req.material_id && m.warehouse_id == req.from_warehouse_id) = some m →
      m.quantity < req.quantity →
      (transfer db userId req).1.status = 400 ∧ (transfer db userId req).2 = db) := by
  constructor
  · intro h
    have hnone : db.materials.find?
        (fun m => m.id == req.material_id && m.warehouse_id == req.from_warehouse_id) = none := by
      rw [List.find?_eq_none]
      intro m hm
      simpa using h m hm
    unfold transfer
    rw [hnone]
    exact ⟨rfl, rfl⟩
  · intro m hfind hq
    unfold transfer
    rw [hfind]
    simp only [hq, if_true]
    exact ⟨trivial, trivial⟩

/-- C24 on the scenario store with two warehouses: material X is not in warehouse 2, and
warehouse 1 holds 10 of it, fewer than 11. -/
theorem transfer_rejections_witness :
    (transfer storeTwoWarehouses 1 ⟨1, 2, 1, 4, none⟩).1.status = 404 ∧
    (transfer storeTwoWarehouses 1 ⟨1, 2, 1, 4, none⟩).2 = storeTwoWarehouses ∧
    (transfer storeTwoWarehouses 1 ⟨1, 1, 2, 11, none⟩).1.status = 400 ∧
    (transfer storeTwoWarehouses 1 ⟨1, 1, 2, 11, none⟩).2 = storeTwoWarehouses := by
  have h1 := (transfer_rejections storeTwoWarehouses 1 ⟨1, 2, 1, 4, none⟩).1 (by decide!)
  have h2 := (transfer_rejections storeTwoWarehouses 1 ⟨1, 1, 2, 11, none⟩).2
    { id := 1, name := "X", weight := 2, quantity := 10, warehouse_id := 1, cost := 100,
      status := "available" } (by decide!) (by decide)
  exact ⟨h1.1, h1.2, h2.1, h2.2⟩

/-! ## Approving an inventory count -/

/-- C25 fails: count 1 records 7 for material Y, which the books hold at 3 (variance 4).
`PUT /inventory/counts/1/approve` sets Y to 7 and then fails on its second statement,
which names a column `updated_at` that `inventory_counts` does not have: the route
answers 500, no stock movement is appended and the count is still `pending`. -/
theorem approveCount_records_no_movement :
    storeWithCount.inventory_counts.map
      (fun c => (c.id, c.material_id, c.counted_quantity, c.system_quantity, c.variance,
        c.status)) = [(1, 2, 7, 3, 4, "pending")] ∧
    (approveCount storeWithCount 1 1).1.status = 500 ∧
    (approveCount storeWithCount 1 1).2.materials.map (fun m => (m.id, m.quantity))
      = [(1, 10), (2, 7)] ∧
    (approveCount storeWithCount 1 1).2.stock_movements = [] ∧
    (approveCount storeWithCount 1 1).2.inventory_counts.map (fun c => (c.id, c.status))
      = [(1, "pending")] := by
  decide!

/-! ## Deleting a material -/

/-- C26. `DELETE /materials/:id` on a material that a row of `order_items` refers to
answers 400 and leaves the store as it was: nothing is deleted. -/
theorem deleteMaterial_referenced (db : DB) (materialId : Nat)
    (h : ∃ it ∈ db.order_items, it.material_id = materialId) :
    (deleteMaterial db materialId).1.status = 400 ∧ (deleteMaterial db materialId).2 = db := by
  have hpos : (db.order_items.filter (fun it => it.material_id == materialId)).length > 0 := by
    obtain ⟨it, hit, hid⟩ := h
    apply List.length_pos_of_mem (a := it)
    rw [List.mem_filter]
    exact ⟨hit, by simp [hid]⟩
  unfold deleteMaterial
  simp only [hpos, if_true]
  exact ⟨trivial, trivial⟩

/-- C26 on order 1 of the scenario: material X is in an order item and is not deleted. -/
theorem deleteMaterial_referenced_witness :
    (∃ it ∈ storeWithOrderXY.order_items, it.material_id = 1) ∧
    (deleteMaterial storeWithOrderXY 1).1.status = 400 ∧
    (deleteMaterial storeWithOrderXY 1).2 = storeWithOrderXY ∧
    (deleteMaterial storeXY 1).1.status = 200 := by
  have hex : ∃ it ∈ storeWithOrderXY.order_items, it.material_id = 1 := by decide!
  have h := deleteMaterial_referenced storeWithOrderXY 1 hex
  exact ⟨hex, h.1, h.2, by decide!⟩

/-! ## The response of createOrder after its commit -/

/-- C27 fails on every order that is committed: on the scenario store, `POST /orders` for
5 of X and 2 of Y inserts order 1 with its two items and reserves both materials, and
answers 500. The notification step comes after `COMMIT` inside the same `try`, and the
`NotificationService` that `orders.js` imports is undefined. -/
theorem createOrder_error_after_commit :
    (createOrder storeXY 7 1 (orderFor "direct" [orderLine 1 5, orderLine 2 2])).1
      = ⟨500, .message
          "Cannot read properties of undefined (reading createNewOrderNotification)"⟩ ∧
    (createOrder storeXY 7 1 (orderFor "direct" [orderLine 1 5, orderLine 2 2])).2.orders.map
      (fun o => (o.id, o.status)) = [(1, "pending")] ∧
    (createOrder storeXY 7 1 (orderFor "direct"
      [orderLine 1 5, orderLine 2 2])).2.order_items.length = 2 ∧
    (createOrder storeXY 7 1 (orderFor "direct" [orderLine 1 5, orderLine 2 2])).2.materials.map
      (fun m => (m.id, m.quantity, m.status)) = [(1, 5, "reserved"), (2, 1, "reserved")] ∧
    storeXY.materials.map (fun m => (m.id, m.quantity, m.status))
      = [(1, 10, "available"), (2, 3, "available")] := by
  decide!

/-! ## Deleting warehouses in bulk -/

/-- C28 fails: warehouse 2 is empty and warehouse 1 holds the materials X and Y; the bulk
`delete` of the list 2, 1 deletes warehouse 2, then answers 400 for warehouse 1, and
warehouse 2 stays deleted. -/
theorem bulkDelete_partial :
    storeTwoWarehouses.warehouses.map (fun w => w.id) = [1, 2] ∧
    (bulkDeleteWarehouses storeTwoWarehouses [2, 1]).1
      = ⟨400, .message "لا يمكن حذف المستودع 1 لأنه يحتوي على مواد"⟩ ∧
    (bulkDeleteWarehouses storeTwoWarehouses [2, 1]).2.warehouses.map (fun w => w.id) = [1] := by
  decide!

/-! ## What a successful transfer does -/

/-- C23, as amended. Let the ids of `materials` be unique and let the source warehouse A
and the target warehouse B of a transfer request differ. If the transfer of Q of material
M answers 200, then the row of M in A holds its old quantity minus Q afterwards; either a
row of M's name existed in B and holds its old quantity plus Q, or none existed and one
row with quantity Q, M's name and warehouse B was appended; and exactly two stock
movements were appended, a `transfer_out` for A and a `transfer_in` for B, both with
quantity Q. -/
theorem transfer_moves_quantity (db : DB) (userId : Nat) (req : TransferInput)
    (hu : db.MaterialKeysUnique) (hne : req.from_warehouse_id ≠ req.to_warehouse_id)
    (h200 : (transfer db userId req).1.status = 200) :
    ∃ m ∈ db.materials, m.id = req.material_id ∧ m.warehouse_id = req.from_warehouse_id ∧
      { m with quantity := m.quantity - req.quantity } ∈ (transfer db userId req).2.materials ∧
      ((∃ t ∈ db.materials, t.name = m.name ∧ t.warehouse_id = req.to_warehouse_id ∧
          (transfer db userId req).2.materials = db.materials.map
            (fun r => quantityRow req.quantity t.id
              (quantityRow (-req.quantity) req.material_id r)) ∧
          { t with quantity := t.quantity + req.quantity }
            ∈ (transfer db userId req).2.materials) ∨
       ((∀ t ∈ db.materials, ¬(t.name = m.name ∧ t.warehouse_id = req.to_warehouse_id)) ∧
          (transfer db userId req).2.materials
            = db.materials.map (quantityRow (-req.quantity) req.material_id)
              ++ [transferredRow db req m] ∧
          (transferredRow db req m).name = m.name ∧
          (transferredRow db req m).warehouse_id = req.to_warehouse_id ∧
          (transferredRow db req m).quantity = req.quantity)) ∧
      ∃ out inn : StockMovement,
        (transfer db userId req).2.stock_movements = db.stock_movements ++ [out, inn] ∧
        out.movement_type = "transfer_out" ∧ out.warehouse_id = req.from_warehouse_id ∧
        out.quantity = req.quantity ∧
        inn.movement_type = "transfer_in" ∧ inn.warehouse_id = req.to_warehouse_id ∧
        inn.quantity = req.quantity := by
  obtain ⟨m, hfind, _, htx⟩ := transfer_ok h200
  have hm : m ∈ db.materials := List.mem_of_find?_eq_some hfind
  have hp := List.find?_some hfind
  simp only [Bool.and_eq_true, beq_iff_eq] at hp
  obtain ⟨hid, hwh⟩ := hp
  have hdebit : quantityRow (-req.quantity) req.material_id m
      = { m with quantity := m.quantity - req.quantity } := by
    rw [quantityRow_of_eq hid, sub_eq_add_neg]
  refine ⟨m, hm, hid, hwh, ?_, ?_, transferTx_ok_movements htx⟩
  · rcases transferTx_ok_materials htx with ⟨t1, ht1, hmat⟩ | ⟨_, hmat⟩
    · have hp1 := List.find?_some ht1
      simp only [Bool.and_eq_true, beq_iff_eq] at hp1
      obtain ⟨t, ht, rfl⟩ := List.mem_map.1 (List.mem_of_find?_eq_some ht1)
      rw [quantityRow_warehouse] at hp1
      rw [quantityRow_id] at hmat
      have htid : t.id ≠ m.id := by
        intro heq
        have : t = m := List.inj_on_of_nodup_map hu ht hm heq
        rw [this, hwh] at hp1
        exact hne hp1.2
      rw [hmat, List.mem_map]
      refine ⟨_, List.mem_map.2 ⟨m, hm, rfl⟩, ?_⟩
      rw [hdebit]
      exact quantityRow_of_ne (Ne.symm htid)
    · rw [hmat, List.mem_append]
      exact Or.inl (List.mem_map.2 ⟨m, hm, hdebit⟩)
  · rcases transferTx_ok_materials htx with ⟨t1, ht1, hmat⟩ | ⟨hnone, hmat⟩
    · left
      have hp1 := List.find?_some ht1
      simp only [Bool.and_eq_true, beq_iff_eq] at hp1
      obtain ⟨t, ht, rfl⟩ := List.mem_map.1 (List.mem_of_find?_eq_some ht1)
      rw [quantityRow_warehouse, quantityRow_name] at hp1
      rw [quantityRow_id] at hmat
      have htid : t.id ≠ req.material_id := by
        intro heq
        have : t = m := List.inj_on_of_nodup_map hu ht hm (heq.trans hid.symm)
        rw [this, hwh] at hp1
        exact hne hp1.2
      have hmat2 : (transfer db userId req).2.materials = db.materials.map
          (fun r => quantityRow req.quantity t.id
            (quantityRow (-req.quantity) req.material_id r)) := by
        rw [hmat, List.map_map]
        rfl
      refine ⟨t, ht, hp1.1, hp1.2, hmat2, ?_⟩
      rw [hmat2, List.mem_map]
      refine ⟨t, ht, ?_⟩
      show quantityRow req.quantity t.id (quantityRow (-req.quantity) req.material_id t) = _
      rw [quantityRow_of_ne htid, quantityRow_of_eq rfl]
    · right
      refine ⟨?_, hmat, rfl, rfl, rfl⟩
      intro t ht hcon
      rw [List.find?_eq_none] at hnone
      have := hnone _ (List.mem_map.2 ⟨t, ht, rfl⟩)
      simp [quantityRow_name, quantityRow_warehouse, hcon.1, hcon.2] at this

/-- C23 on the scenario store with two warehouses: moving 4 of X from warehouse 1 to the
empty warehouse 2 appends a row of X there, and moving 4 more increases that row. -/
theorem transfer_moves_quantity_witness :
    (transfer storeTwoWarehouses 1 ⟨1, 1, 2, 4, none⟩).2.materials.map
      (fun m => (m.id, m.name, m.warehouse_id, m.quantity))
      = [(1, "X", 1, 6), (2, "Y", 1, 3), (3, "X", 2, 4)] ∧
    (transfer (transfer storeTwoWarehouses 1 ⟨1, 1, 2, 4, none⟩).2 1
      ⟨1, 1, 2, 4, none⟩).2.materials.map
      (fun m => (m.id, m.name, m.warehouse_id, m.quantity))
      = [(1, "X", 1, 2), (2, "Y", 1, 3), (3, "X", 2, 8)] ∧
    ∃ m ∈ storeTwoWarehouses.materials, m.id = 1 ∧
      { m with quantity := m.quantity - 4 }
        ∈ (transfer storeTwoWarehouses 1 ⟨1, 1, 2, 4, none⟩).2.materials := by
  refine ⟨by decide!, by decide!, ?_⟩
  obtain ⟨m, hm, hid, _, hmem, _⟩ := transfer_moves_quantity storeTwoWarehouses 1
    ⟨1, 1, 2, 4, none⟩ (by unfold DB.MaterialKeysUnique; decide!) (by decide) (by decide!)
  exact ⟨m, hm, hid, hmem⟩

/-- C23 as stated fails when source and target are the same warehouse: the transfer of 4
of X from warehouse 1 to warehouse 1 answers 200 and records the two movements, and X
holds 10 in warehouse 1 afterwards as before, not 6. -/
theorem transfer_same_warehouse_counterexample :
    storeXY.materials.map (fun m => (m.id, m.warehouse_id, m.quantity))
      = [(1, 1, 10), (2, 1, 3)] ∧
    (transfer storeXY 1 ⟨1, 1, 1, 4, none⟩).1.status = 200 ∧
    (transfer storeXY 1 ⟨1, 1, 1, 4, none⟩).2.materials.map
      (fun m => (m.id, m.warehouse_id, m.quantity)) = [(1, 1, 10), (2, 1, 3)] ∧
    (transfer storeXY 1 ⟨1, 1, 1, 4, none⟩).2.stock_movements.map
      (fun s => (s.material_id, s.warehouse_id, s.movement_type, s.quantity))
      = [(1, 1, "transfer_out", 4), (1, 1, "transfer_in", 4)] := by
  decide!

/-- C30. Let the ids of `materials` be unique, as the primary key has it. Every transfer
that answers 200, between two warehouses or within one, leaves the sum of `quantity` over
all material rows as it was. -/
theorem transfer_conserves_total (db : DB) (userId : Nat) (req : TransferInput)
    (hu : db.MaterialKeysUnique) (h200 : (transfer db userId req).1.status = 200) :
    (transfer db userId req).2.totalQuantity = db.totalQuantity := by
  obtain ⟨m, hfind, _, htx⟩ := transfer_ok h200
  have hm : m ∈ db.materials := List.mem_of_find?_eq_some hfind
  have hp := List.find?_some hfind
  simp only [Bool.and_eq_true, beq_iff_eq] at hp
  have h1 : ((db.materials.map (quantityRow (-req.quantity) req.material_id)).map
      (fun m => m.quantity)).sum = db.totalQuantity + -req.quantity :=
    sum_quantityRow hu ⟨m, hm, hp.1⟩
  unfold DB.totalQuantity at h1 ⊢
  rcases transferTx_ok_materials htx with ⟨t, ht, hmat⟩ | ⟨_, hmat⟩
  · have hu1 : ((db.materials.map (quantityRow (-req.quantity) req.material_id)).map
        (fun m => m.id)).Nodup := by
      rw [map_quantityRow_ids]
      exact hu
    rw [hmat, sum_quantityRow hu1 ⟨t, List.mem_of_find?_eq_some ht, rfl⟩, h1]
    ring
  · rw [hmat, List.map_append, List.sum_append, h1]
    simp [transferredRow]

/-- C30 on the scenario store, whose quantities sum to 13: after a transfer to the second
warehouse and after a transfer within the first the sum is 13. -/
theorem transfer_conserves_total_witness :
    storeTwoWarehouses.totalQuantity = 13 ∧
    (transfer storeTwoWarehouses 1 ⟨1, 1, 2, 4, none⟩).2.totalQuantity = 13 ∧
    (transfer storeTwoWarehouses 1 ⟨2, 1, 1, 3, none⟩).1.status = 200 ∧
    (transfer storeTwoWarehouses 1 ⟨2, 1, 1, 3, none⟩).2.totalQuantity
      = storeTwoWarehouses.totalQuantity := by
  refine ⟨by decide!, ?_, by decide!, ?_⟩
  · rw [transfer_conserves_total storeTwoWarehouses 1 ⟨1, 1, 2, 4, none⟩
      (by unfold DB.MaterialKeysUnique; decide!) (by decide!)]
    decide!
  · exact transfer_conserves_total storeTwoWarehouses 1 ⟨2, 1, 1, 3, none⟩
      (by unfold DB.MaterialKeysUnique; decide!) (by decide!)

/-! ## The statuses of the invoices -/

/-- C29. From a store in which every invoice has one of the statuses draft, approved,
paid, delivered, cancelled (any store without invoices is one), every sequence of calls
of the routes of `Call` (the invoice routes, the status, approve, pay and seed endpoints
among them, and the order, material, transfer, count and bulk delete routes) leads to
such a store. An invoice that createInvoice inserts has status `draft`. No order of the
statuses is enforced: pay answers 200 for every existing invoice, whatever its status,
and leaves it `paid`. -/
theorem invoice_statuses_valid (db : DB) :
    (db.InvoiceStatusesValid → ∀ calls, (run db calls).InvoiceStatusesValid) ∧
    (∀ now userId req, (createInvoice db now userId req).2 = db ∨
      ∃ row : Invoice, row.status = "draft" ∧
        (createInvoice db now userId req).2.invoices = db.invoices ++ [row]) ∧
    (∀ now invoiceId, (∃ i ∈ db.invoices, i.id = invoiceId) →
      (payInvoice db now invoiceId).1.status = 200 ∧
      ∀ i ∈ (payInvoice db now invoiceId).2.invoices, i.id = invoiceId → i.status = "paid") := by
  refine ⟨fun hv calls => run_valid calls db hv, ?_, ?_⟩
  · intro now userId req
    rcases createInvoice_cases db now userId req with h | ⟨r, htx, hr, _⟩
    · exact Or.inl h
    · right
      refine ⟨createdInvoice db now userId req, rfl, ?_⟩
      rw [hr]
      exact createInvoiceTx_ok_invoices htx
  · intro now invoiceId hex
    have hany : db.invoices.any (fun i => i.id == invoiceId) = true := by
      obtain ⟨i, hi, hid⟩ := hex
      rw [List.any_eq_true]
      exact ⟨i, hi, by simp [hid]⟩
    unfold payInvoice
    simp only [hany, Bool.not_true, Bool.false_eq_true, if_false]
    refine ⟨trivial, ?_⟩
    intro i hi hid
    obtain ⟨j, _, rfl⟩ := List.mem_map.1 hi
    by_cases hj : j.id = invoiceId
    · simp [hj]
    · simp only [hj, if_false] at hid

/-- C29 on the store with the completed order 1: createInvoice inserts invoice 1 as a
draft, pay then makes it `paid` without an approval, and the status route may set it back
to `draft`; all statuses met are among the five. -/
theorem invoice_statuses_valid_witness :
    storeWithOrder.InvoiceStatusesValid ∧
    (run storeWithOrder [(5, .createInvoice 1 (invoiceFor [lineItem 2 10, lineItem 1 5])),
      (6, .payInvoice 1), (7, .setInvoiceStatus 1 "draft")]).InvoiceStatusesValid ∧
    (run storeWithOrder [(5, .createInvoice 1 (invoiceFor [lineItem 2 10, lineItem 1 5]))]
      ).invoices.map (fun i => (i.id, i.status)) = [(1, "draft")] ∧
    (run storeWithOrder [(5, .createInvoice 1 (invoiceFor [lineItem 2 10, lineItem 1 5])),
      (6, .payInvoice 1)]).invoices.map (fun i => (i.id, i.status)) = [(1, "paid")] ∧
    (run storeWithOrder [(5, .createInvoice 1 (invoiceFor [lineItem 2 10, lineItem 1 5])),
      (6, .payInvoice 1), (7, .setInvoiceStatus 1 "draft")]).invoices.map
      (fun i => (i.id, i.status)) = [(1, "draft")] := by
  have hv : storeWithOrder.InvoiceStatusesValid := by
    intro i hi
    cases hi
  exact ⟨hv, (invoice_statuses_valid storeWithOrder).1 hv _, by decide!, by decide!, by decide!⟩

end Storage
